import Mathlib

/-!
# goredis: a shallow embedding of the RESP node

Byte strings (Go `string` and `[]byte`) are lists of byte values.  The Go
library functions the program calls (`strconv.Atoi`, `fmt.Sprintf("%d")`,
`bytes.Split`, `bytes.SplitN`, `strings.ToLower`) are modelled first, then the
codec of `internal/parser`, the data types of `internal/types`, the store of
`internal/store` and the node of `internal/resp`.
-/

namespace GoRedis

/-! ## Byte strings and the Go library -/

/-- A Go `string` or `[]byte`: a sequence of byte values. -/
abbrev Bytes := List Nat

/-- The bytes of an ASCII literal of the source. -/
def str (s : String) : Bytes := s.toList.map Char.toNat

/-- The separator `"\r\n"`. -/
def CRLF : Bytes := [13, 10]

/-- Two's-complement wrap-around of 64-bit signed arithmetic (Go `int`, `int64`). -/
def wrap64 (x : Int) : Int := (x + 9223372036854775808) % 18446744073709551616 - 9223372036854775808

/-- Decimal digits of a natural number, most significant first; the first
argument bounds the number of digits. -/
def natToDecAux : Nat → Nat → Bytes
  | 0, _ => []
  | f + 1, n => if n < 10 then [48 + n] else natToDecAux f (n / 10) ++ [48 + n % 10]

/-- Decimal text of a natural number. -/
def natToDec (n : Nat) : Bytes := natToDecAux (n + 1) n

/-- `strconv.Itoa` and `fmt.Sprintf("%d", n)`. -/
def Itoa (n : Int) : Bytes :=
  if n < 0 then 45 :: natToDec n.natAbs else natToDec n.toNat

/-- Outcome of `strconv.ParseUint`: a value, a syntax error (`invalid`) or a
range error. -/
inductive NumRes where
  | ok (n : Nat)
  | invalid
  | range
  deriving DecidableEq, Repr

/-- The digit loop of `strconv.ParseUint(s, 10, 64)` from the value `n`: it
stops with a syntax error at the first byte that is not a digit and with a
range error as soon as the value leaves 64 bits. -/
def parseUintLoop : Bytes → Nat → NumRes
  | [], n => NumRes.ok n
  | c :: cs, n =>
    if 48 ≤ c ∧ c ≤ 57 then
      if n * 10 + (c - 48) ≥ 18446744073709551616 then NumRes.range
      else parseUintLoop cs (n * 10 + (c - 48))
    else NumRes.invalid

/-- `strconv.Atoi` on a 64-bit platform: the returned integer and whether the
error is nil.  A syntax error returns 0, a range error returns the nearest
bound. -/
def Atoi (s : Bytes) : Int × Bool :=
  let neg := s.head? = some 45
  let body := if s.head? = some 45 ∨ s.head? = some 43 then s.tail else s
  if body = [] then (0, false)
  else match parseUintLoop body 0 with
    | NumRes.invalid => (0, false)
    | NumRes.range => if neg then (-9223372036854775808, false) else (9223372036854775807, false)
    | NumRes.ok n =>
      if neg then
        if n > 9223372036854775808 then (-9223372036854775808, false) else (-(n : Int), true)
      else
        if n ≥ 9223372036854775808 then (9223372036854775807, false) else ((n : Int), true)

/-- `strconv.ParseInt(s, 10, 64)`: the same grammar and range as `Atoi`. -/
def ParseInt (s : Bytes) : Int × Bool := Atoi s

/-- Whether `p` is an initial segment of `s` (`bytes.HasPrefix`). -/
def startsWith : Bytes → Bytes → Bool
  | [], _ => true
  | _ :: _, [] => false
  | a :: p, b :: s => a == b && startsWith p s

/-- The text before and after the first occurrence of a non-empty separator
(`bytes.Index` followed by the two slicings of `genSplit`). -/
def cut (sep : Bytes) : Bytes → Option (Bytes × Bytes)
  | [] => none
  | c :: s =>
    if startsWith sep (c :: s) then some ([], (c :: s).drop sep.length)
    else match cut sep s with
      | none => none
      | some (a, b) => some (c :: a, b)

/-- The loop of `genSplit`: at most `k` cuts, the rest is the last piece. -/
def splitAux (sep : Bytes) : Nat → Bytes → List Bytes
  | 0, s => [s]
  | k + 1, s =>
    match cut sep s with
    | none => [s]
    | some (a, b) => a :: splitAux sep k b

/-- `bytes.SplitN(s, sep, n)` for a non-empty separator: no piece when
`n = 0`, every piece when `n < 0`, at most `n` pieces otherwise. -/
def SplitN (s sep : Bytes) (n : Int) : List Bytes :=
  if n = 0 then []
  else if n < 0 then splitAux sep s.length s
  else splitAux sep (n.toNat - 1) s

/-- `bytes.Split(s, sep)` and `strings.Split(s, sep)` for a non-empty separator. -/
def Split (s sep : Bytes) : List Bytes := SplitN s sep (-1)

/-- `strings.ToLower` and `bytes.ToLower` on ASCII text, the fast path of the
library: `A`..`Z` become `a`..`z`, every other byte is kept.  On a text with
a byte from 128 on the library decodes UTF-8 and maps each rune through the
Unicode case tables, which this model does not hold: it keeps such bytes, and
what is stated about a lowercased text is stated for ASCII text. -/
def ToLower (s : Bytes) : Bytes := s.map (fun c => if 65 ≤ c ∧ c ≤ 90 then c + 32 else c)

/-! ## internal/parser -/

/-- Go: `EncodeSimpleString`. -/
def EncodeSimpleString (value : Bytes) : Bytes := 43 :: value ++ CRLF

/-- Go: `EncodeSimpleError`. -/
def EncodeSimpleError (error : Bytes) : Bytes := 45 :: error ++ CRLF

/-- Go: `EncodeInteger`. -/
def EncodeInteger (value : Bytes) : Bytes :=
  if value.length = 0 then str "$-1\r\n" else 58 :: value ++ CRLF

/-- Go: `EncodeBulkString`. -/
def EncodeBulkString (value : Bytes) : Bytes :=
  if value.length = 0 then str "$-1\r\n"
  else 36 :: Itoa value.length ++ CRLF ++ value ++ CRLF

/-- Go: `EncodeArray`. -/
def EncodeArray (values : List Bytes) : Bytes :=
  42 :: Itoa values.length ++ CRLF ++ (values.map EncodeBulkString).flatten

/-- The 88 bytes that `base64.StdEncoding.DecodeString(emptyRDB)` returns. -/
def emptyRDBData : Bytes :=
  [82, 69, 68, 73, 83, 48, 48, 49, 49, 250, 9, 114, 101, 100, 105, 115, 45, 118, 101, 114, 5,
   55, 46, 50, 46, 48, 250, 10, 114, 101, 100, 105, 115, 45, 98, 105, 116, 115, 192, 64, 250, 5,
   99, 116, 105, 109, 101, 194, 109, 8, 188, 101, 250, 8, 117, 115, 101, 100, 45, 109, 101, 109,
   194, 176, 196, 16, 0, 250, 8, 97, 111, 102, 45, 98, 97, 115, 101, 192, 0, 255, 240, 110, 59,
   254, 192, 255, 90, 162]

/-- Go: `EncodeRDBFile`, applied to text whose base64 decoding is `binData`. -/
def EncodeRDBFile (binData : Bytes) : Bytes :=
  36 :: Itoa ((binData.length : Int) + 2) ++ CRLF ++ binData ++ CRLF

/-- Outcome of a Go function that returns `(value, error)` and may panic on an
index or slice bound. -/
inductive Res (α : Type) where
  | ok (a : α)
  | error (msg : String)
  | panic
  deriving DecidableEq, Repr

/-- Go: `DecodeBulkString`.  `tokens[0]`, `tokens[1]` and `header[1:]` panic
when out of range. -/
def DecodeBulkString (tokens : List Bytes) : Res Bytes :=
  match tokens with
  | header :: content :: _ =>
    match header with
    | [] => Res.panic
    | _ :: digits =>
      let r := Atoi digits
      if r.2 = false then Res.error "wrong request. error converting to int in func decodeBulkString"
      else if (content.length : Int) ≠ r.1 then
        Res.error "wrong request. lengths are not equal in func decodeBulkString"
      else Res.ok content
  | _ => Res.panic

/-- The loop `for i := range n` of `DecodeArray`, from index `i`, with `k`
iterations left.  The slice `tokens[2*i+1 : 2*i+3]` panics when `2*i+3`
exceeds the number of tokens. -/
def decodeArrayLoop (tokens : List Bytes) : Nat → Nat → Bytes → List Bytes → Res (Bytes × List Bytes)
  | 0, _, name, args => Res.ok (name, args)
  | k + 1, i, name, args =>
    if tokens.length < 2 * i + 3 then Res.panic
    else match DecodeBulkString ((tokens.drop (2 * i + 1)).take 2) with
      | Res.ok val =>
        if i = 0 then decodeArrayLoop tokens k (i + 1) (ToLower val) args
        else decodeArrayLoop tokens k (i + 1) name (args ++ [val])
      | Res.error e => Res.error e
      | Res.panic => Res.panic

/-- Go: `DecodeArray`: the command name and the argument list.  The error of
`fmt.Errorf` is recorded by its format string; the quoted header that `%#v`
puts in its place is not part of the model. -/
def DecodeArray (tokens : List Bytes) : Res (Bytes × List Bytes) :=
  match tokens with
  | [] => Res.panic
  | header :: _ =>
    match header with
    | [] => Res.panic
    | _ :: digits =>
      let r := Atoi digits
      if r.2 = false then
        Res.error "wrong request. error converting to int in func decodeArray: %#v"
      else decodeArrayLoop tokens r.1.toNat 0 [] []

/-! ## internal/types and internal/store -/

/-- Go: `types.Command`. -/
structure Command where
  Name : Bytes
  Args : List Bytes
  Length : Int
  deriving DecidableEq, Repr

/-- Go: `types.Item` (`Type_` is the field `Type`); `Expiry` is an `int64`, -1
for no expiry. -/
structure Item where
  Value : Bytes
  Type_ : Bytes
  Expiry : Int
  deriving DecidableEq, Repr

/-- The zero value `types.Item{}`. -/
def Item.zero : Item := ⟨[], [], 0⟩

/-- Go: `types.NewItem`, with the reading of `time.Now().UnixMilli()` as `now`. -/
def NewItem (now : Int) (value : Bytes) (vType : Bytes) (exp : Int) : Item :=
  let expiry := if exp ≠ -1 then wrap64 (now + exp) else exp
  ⟨value, vType, expiry⟩

/-- Go: `types.StreamItem`. -/
structure StreamItem where
  Key : Bytes
  Value : Bytes
  deriving DecidableEq, Repr

/-- Go: `types.StreamEntry`. -/
structure StreamEntry where
  ID : Bytes
  Items : List StreamItem
  deriving DecidableEq, Repr

/-- Go: `types.Stream`. -/
structure Stream where
  Entries : List StreamEntry
  deriving DecidableEq, Repr

/-- Go: `store.Store[T]`, the map `cache` as a finite-support function (the
mutex serialises the three operations, each is one atomic step). -/
structure Store (T : Type) where
  cache : Bytes → Option T

/-- Go: `store.New`. -/
def Store.New {T : Type} : Store T := ⟨fun _ => none⟩

/-- Go: `(*Store[T]).Store` (named `Put` here, the type bears the name). -/
def Store.Put {T : Type} (s : Store T) (key : Bytes) (value : T) : Store T :=
  ⟨fun k => if k = key then some value else s.cache k⟩

/-- Go: `(*Store[T]).Load`; `none` is `ok == false`. -/
def Store.Load {T : Type} (s : Store T) (key : Bytes) : Option T := s.cache key

/-- Go: `(*Store[T]).Delete`. -/
def Store.Delete {T : Type} (s : Store T) (key : Bytes) : Store T :=
  ⟨fun k => if k = key then none else s.cache k⟩

/-! ## internal/resp: the node -/

/-- A `net.Conn`.  A write on a connection that is not `alive` returns an
error and delivers nothing (the placeholder `&net.TCPConn{}` of `New` is such
a connection). -/
structure Conn where
  id : Nat
  alive : Bool
  deriving DecidableEq, Repr

/-- Go: `resp.RDBFile`. -/
structure RDBFile where
  Dir : Bytes
  DBFilename : Bytes
  deriving DecidableEq, Repr

/-- Go: `bytesProcessed` (the mutex is not modelled). -/
structure bytesProcessed where
  all : Int
  currReq : Int
  deriving DecidableEq, Repr

/-- Go: `Connections`.  `waitChannel` is the number of values buffered in the
channel of capacity 1; `waiters` lists the `waitTimeout` goroutines blocked in
their `select` (the waiting client and the timeout), oldest first; `senders`
counts the `handleReplconf` goroutines blocked in `waitChannel <- true`, and
`resumed` those whose send has been completed by a receiver and that have
not yet run on to their write. -/
structure Connections where
  connWait : Conn
  numWait : Int
  numAck : Int
  waitChannel : Nat
  waiters : List (Conn × Int)
  conns : List Conn
  senders : Nat
  resumed : Nat
  deriving DecidableEq, Repr

/-- Go: `RESPNode`.  `timers` lists the `removeKeyAfter` goroutines that were
started and have not fired: the key, the clock at the start and the delay. -/
structure RESPNode where
  MasterReplID : Bytes
  MasterReplOffset : Int
  IsSlave : Bool
  Role : Bytes
  SlaveConns : Connections
  handshakeDone : Bool
  bytesProc : bytesProcessed
  RDBFile : RDBFile
  cache : Store Item
  streamCache : Store Stream
  timers : List (Bytes × Int × Int)

/-- Go: `resp.New`. -/
def New (masterReplID : Bytes) (masterReplOffset : Int) (role : Bytes) (rdbFile : RDBFile) :
    RESPNode :=
  { MasterReplID := masterReplID
    MasterReplOffset := masterReplOffset
    IsSlave := role = str "slave"
    Role := role
    SlaveConns := ⟨⟨0, false⟩, 0, 0, 0, [], [], 0, 0⟩
    handshakeDone := false
    bytesProc := ⟨0, 0⟩
    RDBFile := rdbFile
    cache := Store.New
    streamCache := Store.New
    timers := [] }

/-- Go: `rdb.RDBValue`. -/
structure RDBValue where
  Name : Bytes
  Item : Item
  deriving DecidableEq, Repr

/-- What a command reads from outside the node: the wall clock in
milliseconds and the result of `rdb.ParseRDBFile` on the configured file. -/
structure Env where
  now : Int
  rdb : Res (List RDBValue)

/-- How the handling of one command ends: `error` is a non-nil returned
error, `blocked` a goroutine stopped on a channel send that nothing receives
(its later release is not followed). -/
inductive Status where
  | ok
  | error (msg : String)
  | panic
  | blocked
  deriving DecidableEq, Repr

/-- The node after a command, the writes made (connection and payload, in
order) and how the handler ended. -/
structure Result where
  node : RESPNode
  out : List (Conn × Bytes)
  status : Status

/-- Go: `sendResponse`: the bytes delivered and whether the error is nil. -/
def sendResponse (conn : Conn) (payload : Bytes) : List (Conn × Bytes) × Bool :=
  if conn.alive then ([(conn, payload)], true) else ([], false)

/-- The statement `return sendResponse(conn, payload)` and its equivalent
`err := sendResponse(..); if err != nil { return err }; return nil`. -/
def respond (rn : RESPNode) (conn : Conn) (payload : Bytes) : Result :=
  ⟨rn, (sendResponse conn payload).1,
    if (sendResponse conn payload).2 then Status.ok else Status.error "write"⟩

/-- Go: `ErrInvalidId.Error()`. -/
def ErrInvalidId : Bytes :=
  str "ERR The ID specified in XADD is equal or smaller than the target stream top item"

/-- Go: `ErrGreaterThanZero.Error()`. -/
def ErrGreaterThanZero : Bytes := str "ERR The ID specified in XADD must be greater than 0-0"

/-- Go: `propToSlaves`: the loop stops at the first failed write. -/
def propToSlaves : List Conn → Bytes → List (Conn × Bytes) × Bool
  | [], _ => ([], true)
  | c :: cs, payload =>
    if (sendResponse c payload).2 then
      ((sendResponse c payload).1 ++ (propToSlaves cs payload).1, (propToSlaves cs payload).2)
    else ([], false)

/-- Go: `removeKeyAfter`, at the moment its timer fires. -/
def removeKeyAfter (rn : RESPNode) (key : Bytes) : RESPNode :=
  { rn with cache := rn.cache.Delete key }

/-- Go: `getItemFromStore`. -/
def getItemFromStore (now : Int) (rn : RESPNode) (key : Bytes) : Item :=
  match rn.cache.Load key with
  | none => Item.zero
  | some itemVal =>
    if itemVal.Expiry ≠ -1 ∧ itemVal.Expiry < now then Item.zero else itemVal

/-- Go: `handlePing`. -/
def handlePing (rn : RESPNode) (conn : Conn) : Result :=
  respond rn conn (EncodeSimpleString (str "PONG"))

/-- Go: `handleEcho`. -/
def handleEcho (rn : RESPNode) (conn : Conn) (payload : Bytes) : Result :=
  respond rn conn (EncodeBulkString payload)

/-- Go: `handleSet`. -/
def handleSet (now : Int) (rn : RESPNode) (conn : Conn) (key value : Bytes) (expMillSec : Int) :
    Result :=
  let timers := if expMillSec ≠ -1 then rn.timers ++ [(key, now, expMillSec)] else rn.timers
  let rn1 : RESPNode :=
    { rn with
      timers := timers
      cache := rn.cache.Put key (NewItem now value (str "string") expMillSec) }
  if !rn.IsSlave then
    if (sendResponse conn (EncodeSimpleString (str "OK"))).2 then
      let prop := propToSlaves rn.SlaveConns.conns (EncodeArray [str "SET", key, value])
      ⟨rn1, (sendResponse conn (EncodeSimpleString (str "OK"))).1 ++ prop.1,
        if prop.2 then Status.ok else Status.error "write"⟩
    else ⟨rn1, [], Status.error "write"⟩
  else ⟨rn1, [], Status.ok⟩

/-- Go: `handleGet`. -/
def handleGet (now : Int) (rn : RESPNode) (conn : Conn) (key : Bytes) : Result :=
  let item := getItemFromStore now rn key
  if item.Value = [] then respond rn conn (EncodeBulkString [])
  else respond rn conn (EncodeBulkString item.Value)

/-- Go: `handleInfo`. -/
def handleInfo (rn : RESPNode) (conn : Conn) (arg : Bytes) : Result :=
  if arg ≠ [] then
    if ToLower arg = str "replication" then
      respond rn conn (EncodeBulkString
        (str "role:" ++ rn.Role ++ str "\r\nmaster_replid:" ++ rn.MasterReplID
          ++ str "\r\nmaster_repl_offset:" ++ Itoa rn.MasterReplOffset))
    else ⟨rn, [], Status.ok⟩
  else respond rn conn (EncodeBulkString (str "role:master"))

/-- Go: `handleReplconf`.  The send `waitChannel <- true` is taken by the
oldest blocked `waitTimeout`, else buffered, else it blocks: the goroutine
stays in `senders` with `numAck` already incremented, and `resumeAck` is the
rest of its run. -/
def handleReplconf (rn : RESPNode) (conn : Conn) (arg : Bytes) : Result :=
  if ToLower arg = str "ack" then
    if rn.IsSlave && rn.handshakeDone then ⟨rn, [], Status.ok⟩
    else
      let numAck := wrap64 (rn.SlaveConns.numAck + 1)
      let sc1 : Connections := { rn.SlaveConns with numAck := numAck }
      if numAck ≥ sc1.numWait then
        if sc1.waiters = [] ∧ sc1.waitChannel ≥ 1 then
          ⟨{ rn with SlaveConns := { sc1 with senders := sc1.senders + 1 } }, [],
            Status.blocked⟩
        else
          let sc2 : Connections :=
            if sc1.waiters = [] then { sc1 with waitChannel := sc1.waitChannel + 1 }
            else { sc1 with waiters := sc1.waiters.tail }
          ⟨{ rn with SlaveConns := { sc2 with numAck := 0, numWait := 0 } },
            (sendResponse sc2.connWait (EncodeInteger (Itoa numAck))).1, Status.ok⟩
      else ⟨{ rn with SlaveConns := sc1 }, [], Status.ok⟩
  else if ToLower arg = str "getack" then
    respond rn conn
      (EncodeArray [str "REPLCONF", str "ACK", Itoa (wrap64 (rn.bytesProc.all - rn.bytesProc.currReq))])
  else respond rn conn (EncodeSimpleString (str "OK"))

/-- Go: `handlePsync`. -/
def handlePsync (rn : RESPNode) (conn : Conn) : Result :=
  let first := sendResponse conn
    (EncodeBulkString (str "FULLRESYNC " ++ rn.MasterReplID ++ str " 0"))
  if first.2 = false then ⟨rn, first.1, Status.error "write"⟩
  else
    let second := sendResponse conn (EncodeRDBFile emptyRDBData)
    if second.2 = false then ⟨rn, first.1 ++ second.1, Status.error "write"⟩
    else if !rn.IsSlave then
      ⟨{ rn with SlaveConns := { rn.SlaveConns with conns := rn.SlaveConns.conns ++ [conn] } },
        first.1 ++ second.1, Status.ok⟩
    else ⟨rn, first.1 ++ second.1, Status.ok⟩

/-- Go: `handleUnknown`. -/
def handleUnknown (rn : RESPNode) (conn : Conn) : Result :=
  respond rn conn (EncodeSimpleString (str "Unknown command"))

/-- Go: the rest of `handleReplconf` (case `ack`) for a goroutine whose blocked
send has been completed: it writes the value that `numAck` has by then to
the connection that `connWait` names by then, and sets both counters to 0. -/
def resumeAck (rn : RESPNode) : RESPNode × List (Conn × Bytes) :=
  if rn.SlaveConns.resumed = 0 then (rn, [])
  else
    ({ rn with SlaveConns :=
        { rn.SlaveConns with numAck := 0, numWait := 0, resumed := rn.SlaveConns.resumed - 1 } },
      (sendResponse rn.SlaveConns.connWait (EncodeInteger (Itoa rn.SlaveConns.numAck))).1)

/-- Go: `handleWait`.  The started `waitTimeout` takes a value buffered in the
channel at once and ends, else it blocks in its `select`.  A receive from the
full channel lets the oldest blocked sender put its value in the buffer. -/
def handleWait (rn : RESPNode) (conn : Conn) (numReplicas : Int) (timeout : Int) : Result :=
  let sc1 : Connections := { rn.SlaveConns with numAck := 0, connWait := conn }
  let getack := (sc1.conns.map
    (fun replica => (sendResponse replica (EncodeArray [str "REPLCONF", str "GETACK", str "*"])).1)).flatten
  if numReplicas = 0 then
    ⟨{ rn with SlaveConns := sc1 },
      getack ++ (sendResponse conn (EncodeInteger (Itoa sc1.conns.length))).1,
      if (sendResponse conn (EncodeInteger (Itoa sc1.conns.length))).2 then Status.ok
      else Status.error "write"⟩
  else
    let sc2 : Connections := { sc1 with numWait := numReplicas }
    let sc3 : Connections :=
      if sc2.waitChannel ≥ 1 then
        if sc2.senders ≥ 1 then
          { sc2 with senders := sc2.senders - 1, resumed := sc2.resumed + 1 }
        else { sc2 with waitChannel := sc2.waitChannel - 1 }
      else { sc2 with waiters := sc2.waiters ++ [(conn, timeout)] }
    ⟨{ rn with SlaveConns := sc3 }, getack, Status.ok⟩

/-- Go: `waitTimeout`, the branch taken when the timer of the blocked
goroutine number `i` fires before a value arrives on the channel. -/
def waitTimeout (rn : RESPNode) (i : Nat) : RESPNode × List (Conn × Bytes) :=
  match rn.SlaveConns.waiters.get? i with
  | none => (rn, [])
  | some (conn, _) =>
    ({ rn with SlaveConns := { rn.SlaveConns with waiters := rn.SlaveConns.waiters.eraseIdx i } },
      if rn.SlaveConns.numAck = 0 then
        (sendResponse conn (EncodeInteger (Itoa rn.SlaveConns.conns.length))).1
      else (sendResponse conn (EncodeInteger (Itoa rn.SlaveConns.numAck))).1)

/-- Go: `handleConfig`. -/
def handleConfig (rn : RESPNode) (conn : Conn) (query : Bytes) : Result :=
  if query = str "dir" then respond rn conn (EncodeArray [str "dir", rn.RDBFile.Dir])
  else if query = str "dbfilename" then
    respond rn conn (EncodeArray [str "dbfilename", rn.RDBFile.DBFilename])
  else ⟨rn, [], Status.ok⟩

/-- Go: `handleKeys`, with the result of `rdb.ParseRDBFile` taken from the
environment. -/
def handleKeys (env : Env) (rn : RESPNode) (conn : Conn) (query : Bytes) : Result :=
  match env.rdb with
  | Res.error e => ⟨rn, [], Status.error e⟩
  | Res.panic => ⟨rn, [], Status.panic⟩
  | Res.ok rdbValues =>
    if query = str "*" then
      if rdbValues.length > 0 then
        respond rn conn (EncodeArray (rdbValues.map (fun value => value.Name)))
      else respond rn conn (EncodeBulkString [])
    else ⟨rn, [], Status.ok⟩

/-- Go: `handleType`. -/
def handleType (now : Int) (rn : RESPNode) (conn : Conn) (query : Bytes) : Result :=
  let item := getItemFromStore now rn query
  if item.Value = [] then
    match rn.streamCache.Load query with
    | none => respond rn conn (EncodeSimpleString (str "none"))
    | some _ => respond rn conn (EncodeSimpleString (str "stream"))
  else respond rn conn (EncodeSimpleString item.Type_)

/-- Go: the comparison `a < b` of two strings, byte by byte. -/
def bytesLess : Bytes → Bytes → Bool
  | [], [] => false
  | [], _ :: _ => true
  | _ :: _, [] => false
  | a :: s, b :: t => if a < b then true else if b < a then false else bytesLess s t

/-- The loop of `handleXAdd` that pairs `args[i]` with `args[i+1]` from
`i = 2`; `none` is the index panic on an odd number of arguments. -/
def xaddItems : List Bytes → Option (List StreamItem)
  | [] => some []
  | [_] => none
  | k :: v :: rest =>
    match xaddItems rest with
    | some items => some (⟨ToLower k, ToLower v⟩ :: items)
    | none => none

/-- Go: `handleXAdd`. -/
def handleXAdd (now : Int) (rn : RESPNode) (conn : Conn) (args : List Bytes) : Result :=
  match args with
  | storeKey :: streamKey0 :: rest =>
    match xaddItems rest with
    | none => ⟨rn, [], Status.panic⟩
    | some items =>
      if streamKey0 = str "0-0" then respond rn conn (EncodeSimpleError ErrGreaterThanZero)
      else
        let streamKey1 :=
          if streamKey0 = str "*" then Itoa now ++ str "-" ++ Itoa 0 else streamKey0
        match Split streamKey1 (str "-") with
        | streamMilliseconds :: streamSequence :: _ =>
          match rn.streamCache.Load storeKey with
          | none =>
            let streamKey :=
              if streamSequence = str "*" then streamMilliseconds ++ str "-" ++ Itoa 1
              else streamKey1
            respond { rn with streamCache := rn.streamCache.Put storeKey ⟨[⟨streamKey, items⟩]⟩ }
              conn (EncodeBulkString streamKey)
          | some stream =>
            match stream.Entries.getLast? with
            | none => ⟨rn, [], Status.panic⟩
            | some lastEntry =>
              match Split lastEntry.ID (str "-") with
              | milliseconds :: sequence :: _ =>
                if bytesLess milliseconds streamMilliseconds then
                  let streamKey :=
                    if streamSequence = str "*" then streamMilliseconds ++ str "-" ++ str "0"
                    else streamKey1
                  respond
                    { rn with
                      streamCache :=
                        rn.streamCache.Put storeKey ⟨stream.Entries ++ [⟨streamKey, items⟩]⟩ }
                    conn (EncodeBulkString streamKey)
                else if streamMilliseconds = milliseconds then
                  let sequenceInt := (Atoi sequence).1
                  let streamSequenceInt :=
                    if streamSequence = str "*" then wrap64 (sequenceInt + 1)
                    else (Atoi streamSequence).1
                  let streamKey :=
                    if streamSequence = str "*" then
                      streamMilliseconds ++ str "-" ++ Itoa streamSequenceInt
                    else streamKey1
                  if streamSequenceInt > sequenceInt then
                    respond
                      { rn with
                        streamCache :=
                          rn.streamCache.Put storeKey ⟨stream.Entries ++ [⟨streamKey, items⟩]⟩ }
                      conn (EncodeBulkString streamKey)
                  else respond rn conn (EncodeSimpleError ErrInvalidId)
                else respond rn conn (EncodeSimpleError ErrInvalidId)
              | _ => ⟨rn, [], Status.panic⟩
        | _ => ⟨rn, [], Status.panic⟩
  | _ => ⟨rn, [], Status.panic⟩

/-- Go: `processRequest`.  An index `args[i]` past the end panics. -/
def processRequest (env : Env) (rn : RESPNode) (conn : Conn) (command : Command) : Result :=
  let args := command.Args
  if command.Name = str "ping" then
    if rn.IsSlave && rn.handshakeDone then ⟨rn, [], Status.ok⟩ else handlePing rn conn
  else if command.Name = str "echo" then
    if rn.IsSlave && rn.handshakeDone then ⟨rn, [], Status.ok⟩
    else match args with
      | a0 :: _ => handleEcho rn conn a0
      | [] => ⟨rn, [], Status.panic⟩
  else if command.Name = str "set" then
    if args.length > 2 then
      match args with
      | a0 :: a1 :: _ :: a3 :: _ =>
        if (Atoi a3).2 = false then ⟨rn, [], Status.error "strconv.Atoi"⟩
        else handleSet env.now rn conn a0 a1 (Atoi a3).1
      | _ => ⟨rn, [], Status.panic⟩
    else match args with
      | a0 :: a1 :: _ => handleSet env.now rn conn a0 a1 (-1)
      | _ => ⟨rn, [], Status.panic⟩
  else if command.Name = str "get" then
    match args with
    | a0 :: _ => handleGet env.now rn conn a0
    | [] => ⟨rn, [], Status.panic⟩
  else if command.Name = str "info" then
    handleInfo rn conn (args.headD [])
  else if command.Name = str "replconf" then
    match args with
    | a0 :: _ => handleReplconf rn conn a0
    | [] => ⟨rn, [], Status.panic⟩
  else if command.Name = str "psync" then
    if rn.IsSlave && rn.handshakeDone then ⟨rn, [], Status.ok⟩ else handlePsync rn conn
  else if command.Name = str "wait" then
    match args with
    | [] => ⟨rn, [], Status.panic⟩
    | a0 :: rest =>
      if (ParseInt a0).2 = false then ⟨rn, [], Status.error "strconv.ParseInt"⟩
      else match rest with
        | [] => ⟨rn, [], Status.panic⟩
        | a1 :: _ =>
          if (ParseInt a1).2 = false then ⟨rn, [], Status.error "strconv.ParseInt"⟩
          else handleWait rn conn (ParseInt a0).1 (ParseInt a1).1
  else if command.Name = str "config" then
    match args with
    | _ :: a1 :: _ => handleConfig rn conn a1
    | _ => ⟨rn, [], Status.panic⟩
  else if command.Name = str "keys" then
    match args with
    | a0 :: _ => handleKeys env rn conn a0
    | [] => ⟨rn, [], Status.panic⟩
  else if command.Name = str "type" then
    match args with
    | a0 :: _ => handleType env.now rn conn a0
    | [] => ⟨rn, [], Status.panic⟩
  else if command.Name = str "xadd" then handleXAdd env.now rn conn args
  else
    if rn.IsSlave && rn.handshakeDone then ⟨rn, [], Status.ok⟩ else handleUnknown rn conn

/-- The loop of `parseRequest` from `offset`, with `fuel` iterations allowed
(`none` when they are used up).  `spare` holds the bytes of the backing array
between the length and the capacity of `query`, which the slice expression
`query[pos : pos+count]` may reach.  A header whose count does not parse
takes the `continue` with `offset` unchanged. -/
def parseLoop (query spare : Bytes) :
    Nat → RESPNode → Nat → List Command → Option (RESPNode × Res (List Command))
  | 0, _, _, _ => none
  | fuel + 1, rn, offset, commands =>
    if offset < query.length then
      let firstEl := query.getD offset 0
      if firstEl = 42 then
        let tks := SplitN (query.drop offset) CRLF 2
        let count := Atoi (tks.headD []).tail
        if count.2 = false then parseLoop query spare fuel rn offset commands
        else match tks with
          | [_, rest] =>
            let tokens := SplitN rest CRLF (wrap64 (count.1 * 2 + 1))
            let idx := wrap64 (count.1 * 2)
            if idx < 0 ∨ (tokens.length : Int) ≤ idx then some (rn, Res.panic)
            else
              let newOffset := query.length - (tokens.getD idx.toNat []).length
              match DecodeArray (Split ((query.drop offset).take (newOffset - offset)) CRLF) with
              | Res.error e => some (rn, Res.error e)
              | Res.panic => some (rn, Res.panic)
              | Res.ok (name, args) =>
                let n : Int := ((newOffset - offset : Nat) : Int)
                let rn1 : RESPNode :=
                  if rn.IsSlave then
                    { rn with bytesProc := ⟨wrap64 (rn.bytesProc.all + n), n⟩ }
                  else rn
                parseLoop query spare fuel rn1 newOffset (commands ++ [⟨name, args, 0⟩])
          | _ => some (rn, Res.panic)
      else if firstEl = 36 then
        let tks := SplitN (query.drop offset) CRLF 2
        let count := Atoi (tks.headD []).tail
        if count.2 = false then parseLoop query spare fuel rn offset commands
        else
          let pos := offset + (tks.headD []).length + CRLF.length
          let high := wrap64 ((pos : Int) + count.1)
          if high < (pos : Int) ∨ high > ((query.length + spare.length : Nat) : Int) then
            some (rn, Res.panic)
          else
            let sl := ((query ++ spare).drop pos).take (high.toNat - pos)
            let rn1 : RESPNode :=
              if sl = emptyRDBData then { rn with handshakeDone := true, bytesProc := ⟨0, 0⟩ }
              else rn
            parseLoop query spare fuel rn1 high.toNat commands
      else parseLoop query spare fuel rn (offset + 1) commands
    else some (rn, Res.ok commands)

/-- Go: `parseRequest`; the error path returns `[]types.Command{}`. -/
def parseRequest (fuel : Nat) (rn : RESPNode) (query spare : Bytes) :
    Option (RESPNode × Res (List Command)) :=
  parseLoop query spare fuel rn 0 []

/-- The loop over the parsed commands in `HandleClient`: an empty name is
skipped, the first command that does not return nil ends the task. -/
def runCommands (env : Env) : RESPNode → Conn → List Command → Result
  | rn, _, [] => ⟨rn, [], Status.ok⟩
  | rn, conn, command :: rest =>
    if command.Name = [] then runCommands env rn conn rest
    else
      match (processRequest env rn conn command).status with
      | Status.ok =>
        ⟨(runCommands env (processRequest env rn conn command).node conn rest).node,
          (processRequest env rn conn command).out
            ++ (runCommands env (processRequest env rn conn command).node conn rest).out,
          (runCommands env (processRequest env rn conn command).node conn rest).status⟩
      | _ => processRequest env rn conn command

/-- Go: `Restore`, with the result of `rdb.ParseRDBFile` taken from the
environment; the expiry of a record is handed to `removeKeyAfter` as the delay. -/
def Restore (env : Env) (rn : RESPNode) : RESPNode × Status :=
  match env.rdb with
  | Res.error e => (rn, Status.error e)
  | Res.panic => (rn, Status.panic)
  | Res.ok values =>
    (values.foldl
      (fun (r : RESPNode) (el : RDBValue) =>
        { r with
          timers :=
            if el.Item.Expiry ≠ -1 then r.timers ++ [(el.Name, env.now, el.Item.Expiry)]
            else r.timers
          cache := r.cache.Put el.Name el.Item })
      rn, Status.ok)

/-- One turn of the loop of `HandleClient` on the `n` bytes `data` read into
a fresh buffer of 1024 zero bytes. -/
def handleRead (fuel : Nat) (env : Env) (rn : RESPNode) (conn : Conn) (data : Bytes) :
    Option Result :=
  match parseRequest fuel rn data (List.replicate (1024 - data.length) 0) with
  | none => none
  | some (rn1, Res.ok commands) => some (runCommands env rn1 conn commands)
  | some (rn1, Res.error e) => some ⟨rn1, [], Status.error e⟩
  | some (rn1, Res.panic) => some ⟨rn1, [], Status.panic⟩

/-! ## internal/rdb -/

/-- State of the `bufio.Reader` over the opened file: `buf` holds the bytes
read from the file and not yet consumed (`Buffered()` is its length), `rest`
the bytes still in the file.  The buffer has the default size of 4096 bytes
and one read of the file returns as many bytes as are asked for and left. -/
structure Reader where
  buf : Bytes
  rest : Bytes
  deriving DecidableEq, Repr

/-- What `reader.Read(p)` leaves for a fresh slice `p`: the contents of `p`
(zero where nothing was copied), the count `n`, whether the error is nil and
the reader afterwards. -/
structure ReadOut where
  p : Bytes
  n : Nat
  ok : Bool
  reader : Reader
  deriving DecidableEq, Repr

/-- The bytes `data` copied into a fresh slice of `k` zero bytes. -/
def padTo (k : Nat) (data : Bytes) : Bytes := data ++ List.replicate (k - data.length) 0

/-- `(*bufio.Reader).Read` into `make([]byte, k)`.  With an empty slice it
returns 0 and no error; with an empty buffer it reads the file once (into the
slice itself when `k` is at least the buffer size), and fails at the end of
the file; then it copies what the buffer holds, at most `k` bytes. -/
def Reader.Read (r : Reader) (k : Nat) : ReadOut :=
  if k = 0 then ⟨[], 0, true, r⟩
  else if r.buf = [] then
    if r.rest = [] then ⟨padTo k [], 0, false, r⟩
    else if k ≥ 4096 then
      ⟨padTo k (r.rest.take k), (r.rest.take k).length, true, ⟨[], r.rest.drop k⟩⟩
    else
      ⟨padTo k ((r.rest.take 4096).take k), ((r.rest.take 4096).take k).length, true,
        ⟨(r.rest.take 4096).drop k, r.rest.drop 4096⟩⟩
  else ⟨padTo k (r.buf.take k), (r.buf.take k).length, true, ⟨r.buf.drop k, r.rest⟩⟩

/-- `reader.Discard(1)`: whether the error is nil, and the reader afterwards. -/
def Reader.Discard1 (r : Reader) : Bool × Reader :=
  if r.buf = [] then
    if r.rest = [] then (false, r)
    else (true, ⟨(r.rest.take 4096).drop 1, r.rest.drop 4096⟩)
  else (true, ⟨r.buf.drop 1, r.rest⟩)

/-- Go: `rdb.Length`: the integer, the flag `isVal` and the reader afterwards;
`none` is a returned error. -/
def Length (r : Reader) : Option (Nat × Bool) × Reader :=
  let first := r.Read 1
  if first.ok = false then (none, first.reader)
  else
    let b := first.p.getD 0 0
    if b &&& 0xC0 = 0 then (some (b &&& 0x3F, false), first.reader)
    else if b &&& 0xC0 = 0x40 then
      let rest := first.reader.Read 2
      if rest.ok = false then (none, rest.reader)
      else (some ((rest.p.getD 0 0) <<< 8 ||| rest.p.getD 1 0, false), rest.reader)
    else if b &&& 0xC0 = 0x80 then
      let rest := first.reader.Read 4
      if rest.ok = false then (none, rest.reader)
      else
        (some ((rest.p.getD 0 0) <<< 24 ||| (rest.p.getD 1 0) <<< 16 ||| (rest.p.getD 2 0) <<< 8
          ||| rest.p.getD 3 0, false), rest.reader)
    else if b &&& 0xC0 = 0xC0 then
      if b &&& 0x3F = 0 then
        let rest := first.reader.Read 1
        if rest.ok = false then (none, rest.reader)
        else (some (rest.p.getD 0 0, true), rest.reader)
      else if b &&& 0x3F = 0x3F then
        let rest := first.reader.Read 2
        if rest.ok = false then (none, rest.reader)
        else (some ((rest.p.getD 0 0) <<< 8 ||| rest.p.getD 1 0, false), rest.reader)
      else if b &&& 0x3F = 0x3E then
        let rest := first.reader.Read 4
        if rest.ok = false then (none, rest.reader)
        else
          (some ((rest.p.getD 0 0) <<< 24 ||| (rest.p.getD 1 0) <<< 16 ||| (rest.p.getD 2 0) <<< 8
            ||| rest.p.getD 1 0, false), rest.reader)
      else if b &&& 0x3F = 0x3D then (none, first.reader)
      else (none, first.reader)
    else (none, first.reader)

/-- Go: `rdb.ReadRedisString`; `none` is a returned error. -/
def ReadRedisString (r : Reader) : Option Bytes × Reader :=
  match Length r with
  | (none, r1) => (none, r1)
  | (some (strLength, isVal), r1) =>
    if isVal then (some (Itoa strLength), r1)
    else
      let s := r1.Read strLength
      if s.ok = false then (none, s.reader) else (some s.p, s.reader)

/-- The `switch valueType[0]` of `rdb.Value`: the constant of the type list
(`StringType` = 0, ..., `ListZiplistType` = 10), `StringType` for every
unlisted byte. -/
def valueTypeOf (b : Nat) : Nat :=
  if b = 0 then 0
  else if b = 1 then 1
  else if b = 2 then 2
  else if b = 3 then 3
  else if b = 4 then 4
  else if b = 9 then 5
  else if b = 10 then 6
  else if b = 11 then 7
  else if b = 12 then 8
  else if b = 13 then 9
  else if b = 14 then 10
  else 0

/-- Go: `rdb.Value`: the type code read; `none` is a returned error. -/
def Value (r : Reader) : Option Nat × Reader :=
  let v := r.Read 1
  if v.ok = false then (none, v.reader)
  else (some (valueTypeOf (v.p.getD 0 0)), v.reader)

/-- `binary.LittleEndian.Uint64(b)`; `none` is the index panic on a slice of
fewer than 8 bytes. -/
def Uint64LE (b : Bytes) : Option Nat :=
  if b.length < 8 then none
  else
    some (b.getD 0 0 ||| (b.getD 1 0) <<< 8 ||| (b.getD 2 0) <<< 16 ||| (b.getD 3 0) <<< 24
      ||| (b.getD 4 0) <<< 32 ||| (b.getD 5 0) <<< 40 ||| (b.getD 6 0) <<< 48
      ||| (b.getD 7 0) <<< 56)

/-- The loop `for reader.Buffered() > 0` of `ParseRDBFile`.  Every turn
consumes the header byte, so `fuel` above the number of bytes left is never
used up. -/
def parseRecords (now : Int) :
    Nat → Reader → Int → List RDBValue → Res (List RDBValue)
  | 0, _, _, _ => Res.error "out of fuel"
  | fuel + 1, r, dbNumber, values =>
    if r.buf.length > 0 then
      let h := r.Read 1
      if h.ok = false then Res.error "error reading db header"
      else
        let dbHeader := h.p.getD 0 0
        if dbHeader = 0xFE then
          match Length h.reader with
          | (none, _) => Res.error "error reading db number"
          | (some (dbN, _), r1) => parseRecords now fuel r1 dbN values
        else if dbHeader = 0xFF then
          let c := h.reader.Read 8
          if c.ok = false then Res.error "error reading checksum"
          else if c.n ≠ 8 then Res.panic
          else parseRecords now fuel c.reader dbNumber values
        else if dbHeader = 0xFD then
          let e := h.reader.Read 4
          if e.ok = false then Res.error "error reading expiry time"
          else match Value e.reader with
            | (none, _) => Res.error "error reading value type"
            | (some _, r1) =>
              match ReadRedisString r1 with
              | (none, _) => Res.error "error reading key"
              | (some key, r2) =>
                match ReadRedisString r2 with
                | (none, _) => Res.error "error reading value"
                | (some val, r3) =>
                  match Uint64LE e.p with
                  | none => Res.panic
                  | some u =>
                    parseRecords now fuel r3 dbNumber
                      (values ++ [⟨key, NewItem now val (str "string") (wrap64 u)⟩])
        else if dbHeader = 0xFC then
          let m := h.reader.Read 8
          if m.ok = false then Res.error "error reading milliseconds"
          else
            let d := m.reader.Discard1
            if d.1 = false then Res.error "error skipping byte"
            else match ReadRedisString d.2 with
              | (none, _) => Res.error "error reading key"
              | (some key, r2) =>
                match ReadRedisString r2 with
                | (none, _) => Res.error "error reading value"
                | (some val, r3) =>
                  match Uint64LE m.p with
                  | none => Res.panic
                  | some u =>
                    parseRecords now fuel r3 dbNumber
                      (values ++ [⟨key, ⟨val, str "string", wrap64 u⟩⟩])
        else if dbHeader = 0xFB then
          let k := h.reader.Read 1
          if k.ok = false then Res.error "error reading keys count"
          else
            let e := k.reader.Read 1
            if e.ok = false then Res.error "error reading expiry time"
            else parseRecords now fuel e.reader dbNumber values
        else if dbHeader = 0xFA then
          match ReadRedisString h.reader with
          | (none, _) => Res.error "error reading key"
          | (some _, r2) =>
            match ReadRedisString r2 with
            | (none, _) => Res.error "error reading value"
            | (some _, r3) => parseRecords now fuel r3 dbNumber values
        else if dbHeader = (dbNumber % 256).toNat then
          match ReadRedisString h.reader with
          | (none, _) => Res.error "error reading key"
          | (some key, r2) =>
            match ReadRedisString r2 with
            | (none, _) => Res.error "error reading value"
            | (some val, r3) =>
              parseRecords now fuel r3 dbNumber
                (values ++ [⟨key, NewItem now val (str "string") (-1)⟩])
        else parseRecords now fuel h.reader dbNumber values
    else Res.ok values

/-- Go: `rdb.ParseRDBFile`, on the contents of the file `<dir>/<filename>`
(`none` when it cannot be opened) and the clock that `NewItem` reads. -/
def ParseRDBFile (now : Int) (file : Option Bytes) : Res (List RDBValue) :=
  match file with
  | none => Res.error "mistake reading an rdbfile"
  | some content =>
    let magic := (Reader.mk [] content).Read 5
    if magic.ok = false then Res.error "error reading redis string"
    else if magic.p ≠ str "REDIS" then Res.error "invalid RDB file"
    else
      let version := magic.reader.Read 4
      if version.ok = false then Res.error "error reading version"
      else if (Atoi version.p).2 = false then Res.error "invalid version"
      else parseRecords now (content.length + 1) version.reader (-1) []

/-- Whether the timer of a started `removeKeyAfter` (key, clock at the start,
delay in milliseconds) has run out at clock `now`: the timer is set to
`time.Duration(expMillSec) * time.Millisecond`, an `int64` of nanoseconds. -/
def timerDue (now : Int) (t : Bytes × Int × Int) : Bool :=
  decide (wrap64 (t.2.2 * 1000000) ≤ (now - t.2.1) * 1000000)

/-- The names that `processRequest` dispatches on. -/
def recognised : List Bytes :=
  [str "ping", str "echo", str "set", str "get", str "info", str "replconf", str "psync",
   str "wait", str "config", str "keys", str "type", str "xadd"]

/-- Commands that arrive on several connections, handled one after the other
while each handler returns nil: the node and the writes, and how the last
handler run ended. -/
def feed (env : Env) : RESPNode → List (Conn × Command) → Result
  | rn, [] => ⟨rn, [], Status.ok⟩
  | rn, (conn, command) :: rest =>
    match (processRequest env rn conn command).status with
    | Status.ok =>
      ⟨(feed env (processRequest env rn conn command).node rest).node,
        (processRequest env rn conn command).out
          ++ (feed env (processRequest env rn conn command).node rest).out,
        (feed env (processRequest env rn conn command).node rest).status⟩
    | _ => processRequest env rn conn command

/-- A replica node, as `main` builds it for `-replicaof`. -/
def replica0 : RESPNode :=
  New (str "8371b4fb1155b71f4a04d3e1bc3e18c4a990aeeb") 0 (str "slave") ⟨[], []⟩

/-- A replica that has seen the end of the handshake. -/
def replica1 : RESPNode := { replica0 with handshakeDone := true }

/-! ## Concrete nodes and the numeric reading of entry IDs -/

/-- A fresh master node, as `main` builds it. -/
def master0 : RESPNode :=
  New (str "8371b4fb1155b71f4a04d3e1bc3e18c4a990aeeb") 0 (str "master") ⟨[], []⟩

/-- A client connection. -/
def client : Conn := ⟨1, true⟩

/-- A replica connection. -/
def replica : Conn := ⟨2, true⟩

/-- A master with one registered replica connection. -/
def master1 : RESPNode :=
  { master0 with SlaveConns := { master0.SlaveConns with conns := [replica] } }

/-- The argument list `f1 v1 f2 v2 ...` of a list of field/value pairs. -/
def flatPairs (pairs : List (Bytes × Bytes)) : List Bytes := pairs.flatMap (fun p => [p.1, p.2])

/-- The pair of integers that the text `<ms>-<seq>` denotes. -/
def idPair (id : Bytes) : Int × Int :=
  match Split id (str "-") with
  | ms :: seq :: _ => ((Atoi ms).1, (Atoi seq).1)
  | _ => (0, 0)

/-- Lexicographic order on the integer pairs of two entry IDs. -/
def idLess (a b : Bytes) : Bool :=
  decide ((idPair a).1 < (idPair b).1)
    || (decide ((idPair a).1 = (idPair b).1) && decide ((idPair a).2 < (idPair b).2))

/-- Each entry ID of the stream is below the next one, as integer pairs. -/
def idsIncreasing : List StreamEntry → Bool
  | [] => true
  | [_] => true
  | a :: b :: rest => idLess a.ID b.ID && idsIncreasing (b :: rest)

/-- The tokens, each followed by CRLF, concatenated. -/
def joinCRLF (ts : List Bytes) : Bytes := (ts.map (fun t => t ++ CRLF)).flatten

/-- The header and body tokens of the bulk strings of a command. -/
def bulkTokens (c : List Bytes) : List Bytes := c.flatMap (fun s => [36 :: natToDec s.length, s])

/-- The command that a list of strings denotes: the lowercased first string
and the remaining strings. -/
def toCommand (c : List Bytes) : Command := ⟨ToLower (c.headD []), c.tail, 0⟩

/-- The commands `XADD key <ms>-*`, one for each list of field/value pairs. -/
def autoSeqCommands (key ms : Bytes) (ps : List (List (Bytes × Bytes))) : List Command :=
  ps.map (fun pairs => ⟨str "xadd", key :: (ms ++ str "-*") :: flatPairs pairs, 0⟩)

/-- The entry ID `<ms>-<k>`. -/
def autoSeqId (ms : Bytes) (k : Nat) : Bytes := ms ++ str "-" ++ natToDec k

/-- The frames `REPLCONF ACK <offset>`, each with the connection it arrives on. -/
def ackFrames (acks : List (Conn × Bytes)) : List (Conn × Command) :=
  acks.map (fun a => (a.1, ⟨str "replconf", [str "ACK", a.2], 0⟩))

/-- A second replica connection. -/
def replicaB : Conn := ⟨3, true⟩

/-- A master with two registered replica connections. -/
def master2 : RESPNode :=
  { master0 with SlaveConns := { master0.SlaveConns with conns := [replica, replicaB] } }

/-- A WAIT for `N` acknowledgements issued on `conn` is pending with `a` of
them counted, a send on the channel does not block, and no earlier
`handleReplconf` is blocked in its send or about to run on from it. -/
def waitPending (conn : Conn) (N a : Int) (rn : RESPNode) : Prop :=
  rn.IsSlave = false ∧ rn.SlaveConns.numAck = a ∧ rn.SlaveConns.numWait = N
    ∧ rn.SlaveConns.connWait = conn
    ∧ (rn.SlaveConns.waiters ≠ [] ∨ rn.SlaveConns.waitChannel = 0)
    ∧ rn.SlaveConns.senders = 0 ∧ rn.SlaveConns.resumed = 0

/-- A third replica connection. -/
def replicaC : Conn := ⟨4, true⟩

/-- A master with three registered replica connections. -/
def master3 : RESPNode :=
  { master0 with SlaveConns := { master0.SlaveConns with conns := [replica, replicaB, replicaC] } }

/-- The master with three replicas after `WAIT 1 500` from the client and the
`REPLCONF ACK` of each replica: the first answers the WAIT, the value of the
second stays in the channel, the third is blocked in its send. -/
def master3Late : RESPNode :=
  (processRequest ⟨0, Res.ok []⟩
    (feed ⟨0, Res.ok []⟩ master3
      [(client, ⟨str "wait", [str "1", str "500"], 0⟩),
       (replica, ⟨str "replconf", [str "ACK", str "0"], 0⟩),
       (replicaB, ⟨str "replconf", [str "ACK", str "0"], 0⟩)]).node
    replicaC ⟨str "replconf", [str "ACK", str "0"], 0⟩).node

/-- The bytes that `handlePsync` of the fresh master writes to the connection. -/
def psyncBytes : Bytes :=
  ((processRequest ⟨0, Res.ok []⟩ master0 client ⟨str "psync", [str "?", str "-1"], 0⟩).out.map
    Prod.snd).flatten

/-- The eight bytes of `e`, least significant first. -/
def le8 (e : Nat) : Bytes :=
  [e % 256, e / 256 % 256, e / 65536 % 256, e / 16777216 % 256, e / 4294967296 % 256,
   e / 1099511627776 % 256, e / 281474976710656 % 256, e / 72057594037927936 % 256]

/-- The file `REDIS`, version, 0xFC, expiry `e` in 8 little-endian bytes, the
type byte 0, the key and the value each behind a one-byte length, 0xFF and the
checksum. -/
def rdbFileFC (version : Bytes) (e : Nat) (key value checksum : Bytes) : Bytes :=
  str "REDIS" ++ (version ++ (0xFC :: (le8 e ++ (0 :: (key.length :: (key
    ++ (value.length :: (value ++ (0xFF :: checksum)))))))))

/-- The file of the restore scenario with the expiry 10^13 ms (the year 2286). -/
def farFile : Bytes :=
  rdbFileFC (str "0011") 10000000000000 (str "hello") (str "world") (List.replicate 8 0)

/-- A file with one 0xFD record: expiry bytes 10 27 00 00, type byte 0, key
`k`, value `v`, then 0xFF and a checksum of zeros. -/
def fdFile : Bytes :=
  str "REDIS0011" ++ [0xFD, 0x10, 0x27, 0, 0, 0, 1, 107, 1, 118, 0xFF] ++ List.replicate 8 0

/-- A file with one select-db record for database `db`, one record that
starts with the byte `h`, and the end-of-file record. -/
def rdbFileDB (version : Bytes) (db h : Nat) (key value checksum : Bytes) : Bytes :=
  str "REDIS" ++ (version ++ (0xFE :: (db :: (h :: (key.length :: (key
    ++ (value.length :: (value ++ (0xFF :: checksum)))))))))

/-- Whether a text has the form of a decimal integer: an optional sign and
then one or more decimal digits. -/
def isIntegerText (s : Bytes) : Bool :=
  let body := if s.head? = some 45 ∨ s.head? = some 43 then s.tail else s
  decide (body ≠ []) && body.all (fun c => decide (48 ≤ c ∧ c ≤ 57))

/-- The node after `SET k v PX 100` at clock 1000 on a fresh master. -/
def masterWithTTL : RESPNode :=
  (processRequest ⟨1000, Res.ok []⟩ master0 client
    ⟨str "set", [str "k", str "v", str "px", str "100"], 0⟩).node

/-! ## Theorems -/

theorem processRequest_set (env : Env) (rn : RESPNode) (conn : Conn) (key v : Bytes) :
    processRequest env rn conn ⟨str "set", [key, v], 0⟩ = handleSet env.now rn conn key v (-1) := by
  rfl

theorem processRequest_set_px (env : Env) (rn : RESPNode) (conn : Conn) (key v px a : Bytes) :
    processRequest env rn conn ⟨str "set", [key, v, px, a], 0⟩ =
      if (Atoi a).2 = false then ⟨rn, [], Status.error "strconv.Atoi"⟩
      else handleSet env.now rn conn key v (Atoi a).1 := by
  rfl

theorem processRequest_get (env : Env) (rn : RESPNode) (conn : Conn) (key : Bytes) :
    processRequest env rn conn ⟨str "get", [key], 0⟩ = handleGet env.now rn conn key := by
  rfl

theorem processRequest_xadd (env : Env) (rn : RESPNode) (conn : Conn) (args : List Bytes) :
    processRequest env rn conn ⟨str "xadd", args, 0⟩ = handleXAdd env.now rn conn args := by
  rfl

theorem handleSet_cache (now : Int) (rn : RESPNode) (conn : Conn) (key v : Bytes) (e : Int) :
    (handleSet now rn conn key v e).node.cache.Load key
      = some (NewItem now v (str "string") e) := by
  unfold handleSet
  split_ifs <;> simp [Store.Load, Store.Put]

theorem wrap64_of_range (x : Int) (h1 : -9223372036854775808 ≤ x)
    (h2 : x < 9223372036854775808) : wrap64 x = x := by
  unfold wrap64
  omega

theorem Atoi_range (s : Bytes) (h : (Atoi s).2 = true) :
    -9223372036854775808 ≤ (Atoi s).1 ∧ (Atoi s).1 < 9223372036854775808 := by
  unfold Atoi at h ⊢
  simp only at h ⊢
  generalize (if s.head? = some 45 ∨ s.head? = some 43 then s.tail else s) = body at h ⊢
  by_cases hb : body = []
  · simp [hb] at h
  · simp only [hb, if_false] at h ⊢
    cases hp : parseUintLoop body 0 with
    | invalid => simp [hp] at h
    | range =>
      rw [hp] at h
      simp only at h
      split_ifs at h
    | ok n =>
      rw [hp] at h
      simp only at h ⊢
      split_ifs at h ⊢ <;> simp at h ⊢ <;> omega

theorem encodeBulkString_nil : EncodeBulkString [] = str "$-1\r\n" := by
  decide

/-- C1: after `SET key v` without expiry, on any node and whatever becomes of
the reply, a `GET key` on any later node state whose item store still holds
what the SET stored under `key` replies `EncodeBulkString v`, at any clock. -/
theorem get_after_set (env : Env) (rn : RESPNode) (conn : Conn) (key v : Bytes)
    (env2 : Env) (rn2 : RESPNode) (conn2 : Conn) (halive : conn2.alive = true)
    (hkeep : rn2.cache.Load key
      = (processRequest env rn conn ⟨str "set", [key, v], 0⟩).node.cache.Load key) :
    (processRequest env2 rn2 conn2 ⟨str "get", [key], 0⟩).out = [(conn2, EncodeBulkString v)]
    ∧ (processRequest env2 rn2 conn2 ⟨str "get", [key], 0⟩).status = Status.ok := by
  rw [processRequest_set, handleSet_cache] at hkeep
  rw [processRequest_get]
  unfold handleGet getItemFromStore
  rw [hkeep]
  simp [NewItem, respond, sendResponse, halive]
  split_ifs with h <;> simp [h]

/-- C1, at `SET foo bar` on a fresh master followed by `GET foo`. -/
theorem get_after_set_witness :
    (processRequest ⟨5, Res.ok []⟩
      (processRequest ⟨0, Res.ok []⟩ master0 client ⟨str "set", [str "foo", str "bar"], 0⟩).node
      client ⟨str "get", [str "foo"], 0⟩).out = [(client, EncodeBulkString (str "bar"))]
    ∧ (processRequest ⟨5, Res.ok []⟩
      (processRequest ⟨0, Res.ok []⟩ master0 client ⟨str "set", [str "foo", str "bar"], 0⟩).node
      client ⟨str "get", [str "foo"], 0⟩).status = Status.ok :=
  get_after_set ⟨0, Res.ok []⟩ master0 client (str "foo") (str "bar") ⟨5, Res.ok []⟩
    (processRequest ⟨0, Res.ok []⟩ master0 client ⟨str "set", [str "foo", str "bar"], 0⟩).node
    client rfl rfl

/-- C2 as stated fails at the deadline itself: `SET k v PX 100` at clock 1000,
then `GET k` at clock 1100 = 1000 + 100 (the deletion timer not yet run)
replies the value and not the null bulk. -/
theorem get_at_deadline_returns_value :
    (processRequest ⟨1100, Res.ok []⟩
      (processRequest ⟨1000, Res.ok []⟩ master0 client
        ⟨str "set", [str "k", str "v", str "px", str "100"], 0⟩).node
      client ⟨str "get", [str "k"], 0⟩).out = [(client, str "$1\r\nv\r\n")]
    ∧ (1100 : Int) ≥ 1000 + 100 ∧ str "$1\r\nv\r\n" ≠ str "$-1\r\n" := by
  decide

/-- The TTL text `-1` is the no-expiry sentinel: after `SET k v PX -1` at clock
1000 a `GET k` at clock 5000 still replies the value. -/
theorem set_px_minus_one_never_expires :
    (processRequest ⟨5000, Res.ok []⟩
      (processRequest ⟨1000, Res.ok []⟩ master0 client
        ⟨str "set", [str "k", str "v", str "px", str "-1"], 0⟩).node
      client ⟨str "get", [str "k"], 0⟩).out = [(client, str "$1\r\nv\r\n")] := by
  decide

/-- C2 (amended): `SET key value PX a`, with `a` the decimal text of a TTL `t`
other than -1 and `set_time + t` other than -1, processed at clock `set_time`;
then `GET key` at any clock strictly after `set_time + t` replies the null
bulk, whether or not the deletion timer has removed the key. -/
theorem get_after_px_expiry (env : Env) (rn : RESPNode) (conn : Conn)
    (key value px a : Bytes) (t : Int) (env2 : Env) (conn2 : Conn)
    (hA : Atoi a = (t, true)) (ht : t ≠ -1) (hsum : env.now + t ≠ -1)
    (h0 : 0 ≤ env.now) (h2 : env2.now < 9223372036854775808) (hlate : env.now + t < env2.now)
    (halive : conn2.alive = true) :
    (processRequest env2 (processRequest env rn conn ⟨str "set", [key, value, px, a], 0⟩).node
      conn2 ⟨str "get", [key], 0⟩).out = [(conn2, str "$-1\r\n")]
    ∧ (processRequest env2
        (removeKeyAfter (processRequest env rn conn ⟨str "set", [key, value, px, a], 0⟩).node key)
        conn2 ⟨str "get", [key], 0⟩).out = [(conn2, str "$-1\r\n")] := by
  have hr := Atoi_range a (by rw [hA])
  rw [hA] at hr
  simp only at hr
  have hw : wrap64 (env.now + t) = env.now + t := wrap64_of_range _ (by omega) (by omega)
  rw [processRequest_set_px, hA]
  simp only [Bool.true_eq_false, if_false]
  constructor
  · rw [processRequest_get]
    unfold handleGet getItemFromStore
    rw [handleSet_cache]
    simp [NewItem, ht, hw, hsum, hlate, Item.zero, respond, sendResponse, halive,
      encodeBulkString_nil]
  · rw [processRequest_get]
    unfold handleGet getItemFromStore
    simp [removeKeyAfter, Store.Delete, Store.Load, Item.zero, respond, sendResponse, halive,
      encodeBulkString_nil]

/-- C2 (amended), at `SET k v PX 100` at clock 1000 and `GET k` at clock 1101. -/
theorem get_after_px_expiry_witness :
    (processRequest ⟨1101, Res.ok []⟩
      (processRequest ⟨1000, Res.ok []⟩ master0 client
        ⟨str "set", [str "k", str "v", str "px", str "100"], 0⟩).node
      client ⟨str "get", [str "k"], 0⟩).out = [(client, str "$-1\r\n")] :=
  (get_after_px_expiry ⟨1000, Res.ok []⟩ master0 client (str "k") (str "v") (str "px")
    (str "100") 100 ⟨1101, Res.ok []⟩ client (by decide) (by decide) (by decide) (by decide)
    (by decide) (by decide) rfl).1

theorem xaddItems_flatPairs (pairs : List (Bytes × Bytes)) :
    xaddItems (flatPairs pairs) = some (pairs.map (fun p => ⟨ToLower p.1, ToLower p.2⟩)) := by
  induction pairs with
  | nil => rfl
  | cons p ps ih =>
    have : flatPairs (p :: ps) = p.1 :: p.2 :: flatPairs ps := by simp [flatPairs]
    rw [this, xaddItems, ih]
    simp

theorem propToSlaves_alive (conns : List Conn) (payload : Bytes)
    (h : ∀ c ∈ conns, c.alive = true) :
    propToSlaves conns payload = (conns.map (fun c => (c, payload)), true) := by
  induction conns with
  | nil => rfl
  | cons c cs ih =>
    have hc : c.alive = true := h c (List.mem_cons_self _ _)
    have hcs := ih (fun d hd => h d (List.mem_cons_of_mem _ hd))
    simp [propToSlaves, sendResponse, hc, hcs]

/-- C3: the code accepts an explicit ID that is numerically below the top
item.  After `XADD s 10-0 f v` on a fresh master, `XADD s 9-0 f v` replies
bulk(`9-0`) and appends the entry, although (9, 0) is below (10, 0): the
milliseconds parts are compared as strings. -/
theorem xadd_accepts_smaller_explicit_id :
    (processRequest ⟨0, Res.ok []⟩
      (processRequest ⟨0, Res.ok []⟩ master0 client
        ⟨str "xadd", [str "s", str "10-0", str "f", str "v"], 0⟩).node
      client ⟨str "xadd", [str "s", str "9-0", str "f", str "v"], 0⟩).out
      = [(client, str "$3\r\n9-0\r\n")]
    ∧ ((processRequest ⟨0, Res.ok []⟩
      (processRequest ⟨0, Res.ok []⟩ master0 client
        ⟨str "xadd", [str "s", str "10-0", str "f", str "v"], 0⟩).node
      client ⟨str "xadd", [str "s", str "9-0", str "f", str "v"], 0⟩).node.streamCache.Load
        (str "s")).map (fun st => st.Entries.map (fun e => e.ID)) = some [str "10-0", str "9-0"]
    ∧ idLess (str "9-0") (str "10-0") = true := by
  decide

/-- The same comparison refuses an ID that is numerically above the top item:
after `XADD s 99-1 f v`, `XADD s 100-1 f v` is answered with the error. -/
theorem xadd_rejects_larger_explicit_id :
    (runCommands ⟨0, Res.ok []⟩ master0 client
      [⟨str "xadd", [str "s", str "99-1", str "f", str "v"], 0⟩,
       ⟨str "xadd", [str "s", str "100-1", str "f", str "v"], 0⟩]).out
      = [(client, str "$4\r\n99-1\r\n"),
         (client, str "-ERR The ID specified in XADD is equal or smaller than the target stream top item\r\n")]
    ∧ idLess (str "99-1") (str "100-1") = true := by
  decide

/-- C4: a state reached from the empty master by two commands holds a stream
whose IDs are not increasing: `XADD s 10-0 f v` then `XADD s 9-0 f v` leave
the entries `10-0`, `9-0` in that order. -/
theorem reachable_stream_not_increasing :
    (runCommands ⟨0, Res.ok []⟩ master0 client
      [⟨str "xadd", [str "s", str "10-0", str "f", str "v"], 0⟩,
       ⟨str "xadd", [str "s", str "9-0", str "f", str "v"], 0⟩]).status = Status.ok
    ∧ ((runCommands ⟨0, Res.ok []⟩ master0 client
      [⟨str "xadd", [str "s", str "10-0", str "f", str "v"], 0⟩,
       ⟨str "xadd", [str "s", str "9-0", str "f", str "v"], 0⟩]).node.streamCache.Load
        (str "s")).map (fun st => idsIncreasing st.Entries) = some false := by
  decide

/-- C5: after `XADD s 10-* a 1` on a key without stream (reply bulk(`10-1`)),
the command `XADD s 9-0 c 3`, whose ms is smaller, is not refused: the reply
is bulk(`9-0`). -/
theorem xadd_smaller_ms_after_autoseq_accepted :
    (runCommands ⟨0, Res.ok []⟩ master0 client
      [⟨str "xadd", [str "s", str "10-*", str "a", str "1"], 0⟩,
       ⟨str "xadd", [str "s", str "9-0", str "c", str "3"], 0⟩]).out
      = [(client, str "$4\r\n10-1\r\n"), (client, str "$3\r\n9-0\r\n")]
    ∧ master0.streamCache.Load (str "s") = none := by
  decide

/-- The scenario of the specification for C5 holds on the code: `5-*`, `5-*`
and then `4-0` on an empty stream. -/
theorem xadd_autoseq_scenario :
    (runCommands ⟨0, Res.ok []⟩ master0 client
      [⟨str "xadd", [str "s", str "5-*", str "a", str "1"], 0⟩,
       ⟨str "xadd", [str "s", str "5-*", str "b", str "2"], 0⟩,
       ⟨str "xadd", [str "s", str "4-0", str "c", str "3"], 0⟩]).out
      = [(client, str "$3\r\n5-1\r\n"), (client, str "$3\r\n5-2\r\n"),
         (client, str "-ERR The ID specified in XADD is equal or smaller than the target stream top item\r\n")] := by
  decide

/-- C6: `XADD key 0-0 f1 v1 ...` replies the error text of `ErrGreaterThanZero`
as a simple error and returns the node as it was, streams included. -/
theorem xadd_zero_zero_rejected (env : Env) (rn : RESPNode) (conn : Conn) (key : Bytes)
    (pairs : List (Bytes × Bytes)) (halive : conn.alive = true) :
    (processRequest env rn conn ⟨str "xadd", key :: str "0-0" :: flatPairs pairs, 0⟩).out
      = [(conn, str "-ERR The ID specified in XADD must be greater than 0-0\r\n")]
    ∧ (processRequest env rn conn ⟨str "xadd", key :: str "0-0" :: flatPairs pairs, 0⟩).node = rn
    ∧ (processRequest env rn conn ⟨str "xadd", key :: str "0-0" :: flatPairs pairs, 0⟩).status
      = Status.ok := by
  rw [processRequest_xadd]
  unfold handleXAdd
  simp only [xaddItems_flatPairs, if_true]
  have : EncodeSimpleError ErrGreaterThanZero
      = str "-ERR The ID specified in XADD must be greater than 0-0\r\n" := by decide
  simp [respond, sendResponse, halive, this]

/-- C6, at `XADD s 0-0 f v` on a fresh master. -/
theorem xadd_zero_zero_rejected_witness :
    (processRequest ⟨0, Res.ok []⟩ master0 client
      ⟨str "xadd", str "s" :: str "0-0" :: flatPairs [(str "f", str "v")], 0⟩).out
      = [(client, str "-ERR The ID specified in XADD must be greater than 0-0\r\n")] :=
  (xadd_zero_zero_rejected ⟨0, Res.ok []⟩ master0 client (str "s") [(str "f", str "v")] rfl).1

/-- C9: `XADD s 1-1 a b` on a master with one live replica is accepted and
changes the stream store, and the only write is the reply to the client:
no frame goes to the replica. -/
theorem xadd_not_propagated :
    (processRequest ⟨0, Res.ok []⟩ master1 client
      ⟨str "xadd", [str "s", str "1-1", str "a", str "b"], 0⟩).out
      = [(client, str "$3\r\n1-1\r\n")]
    ∧ (processRequest ⟨0, Res.ok []⟩ master1 client
      ⟨str "xadd", [str "s", str "1-1", str "a", str "b"], 0⟩).node.streamCache.Load (str "s")
      = some ⟨[⟨str "1-1", [⟨str "a", str "b"⟩]⟩]⟩
    ∧ master1.streamCache.Load (str "s") = none
    ∧ master1.IsSlave = false ∧ master1.SlaveConns.conns = [replica] := by
  decide

/-- C10 as stated fails for an empty value: `SET foo ""` on a master with one
replica propagates `$-1\r\n` for the value, not `$0\r\n\r\n`. -/
theorem set_empty_value_frame :
    (processRequest ⟨0, Res.ok []⟩ master1 client ⟨str "set", [str "foo", []], 0⟩).out
      = [(client, str "+OK\r\n"), (replica, str "*3\r\n$3\r\nSET\r\n$3\r\nfoo\r\n$-1\r\n")]
    ∧ str "*3\r\n$3\r\nSET\r\n$3\r\nfoo\r\n$-1\r\n"
      ≠ str "*3\r\n$3\r\nSET\r\n" ++ (36 :: Itoa (str "foo").length ++ CRLF ++ str "foo" ++ CRLF)
          ++ (36 :: Itoa ([] : Bytes).length ++ CRLF ++ [] ++ CRLF) := by
  decide

/-- C10 (amended): on a master whose client and replica connections accept the
writes, `SET key value` with a non-empty key and a non-empty value writes
`+OK\r\n` to the client and then, to every replica connection in list order,
`*3\r\n$3\r\nSET\r\n$<len(key)>\r\n<key>\r\n$<len(value)>\r\n<value>\r\n`. -/
theorem set_propagation_frame (env : Env) (rn : RESPNode) (conn : Conn) (key value : Bytes)
    (hmaster : rn.IsSlave = false) (hconn : conn.alive = true)
    (hreps : ∀ c ∈ rn.SlaveConns.conns, c.alive = true)
    (hkey : key ≠ []) (hvalue : value ≠ []) :
    (processRequest env rn conn ⟨str "set", [key, value], 0⟩).out
      = (conn, str "+OK\r\n") :: rn.SlaveConns.conns.map (fun c =>
          (c, str "*3\r\n$3\r\nSET\r\n" ++ (36 :: Itoa key.length ++ CRLF ++ key ++ CRLF)
                ++ (36 :: Itoa value.length ++ CRLF ++ value ++ CRLF))) := by
  rw [processRequest_set]
  unfold handleSet
  have hlenk : key.length ≠ 0 := by simpa using hkey
  have hlenv : value.length ≠ 0 := by simpa using hvalue
  have hok : EncodeSimpleString (str "OK") = str "+OK\r\n" := by decide
  have hset : EncodeBulkString (str "SET") = str "$3\r\nSET\r\n" := by decide
  have h3 : (42 :: Itoa (3 : Nat) ++ CRLF) = str "*3\r\n" := by decide
  have hframe : EncodeArray [str "SET", key, value]
      = str "*3\r\n$3\r\nSET\r\n" ++ (36 :: Itoa key.length ++ CRLF ++ key ++ CRLF)
          ++ (36 :: Itoa value.length ++ CRLF ++ value ++ CRLF) := by
    have : str "*3\r\n$3\r\nSET\r\n" = str "*3\r\n" ++ str "$3\r\nSET\r\n" := by decide
    rw [this, ← h3, ← hset]
    simp [EncodeArray, EncodeBulkString, hlenk, hlenv]
  simp [hmaster, sendResponse, hconn, propToSlaves_alive _ _ hreps, hok, hframe]

/-- C10 (amended), at `SET foo bar` on a master with one replica. -/
theorem set_propagation_frame_witness :
    (processRequest ⟨0, Res.ok []⟩ master1 client ⟨str "set", [str "foo", str "bar"], 0⟩).out
      = (client, str "+OK\r\n") :: master1.SlaveConns.conns.map (fun c =>
          (c, str "*3\r\n$3\r\nSET\r\n"
                ++ (36 :: Itoa (str "foo").length ++ CRLF ++ str "foo" ++ CRLF)
                ++ (36 :: Itoa (str "bar").length ++ CRLF ++ str "bar" ++ CRLF))) :=
  set_propagation_frame ⟨0, Res.ok []⟩ master1 client (str "foo") (str "bar") rfl rfl
    (by decide) (by decide) (by decide)

/-! ### The codec: decimal text, CRLF splitting, round trips -/

theorem parseUintLoop_append (a b : Bytes) (acc : Nat) :
    parseUintLoop (a ++ b) acc
      = match parseUintLoop a acc with
        | NumRes.ok v => parseUintLoop b v
        | e => e := by
  induction a generalizing acc with
  | nil => simp [parseUintLoop]
  | cons c cs ih =>
    simp only [List.cons_append, parseUintLoop]
    split_ifs
    · rfl
    · exact ih _
    · rfl

theorem natToDecAux_digits (f n c : Nat) (h : c ∈ natToDecAux f n) : 48 ≤ c ∧ c ≤ 57 := by
  induction f generalizing n with
  | zero => simp [natToDecAux] at h
  | succ f ih =>
    unfold natToDecAux at h
    split_ifs at h with hn
    · simp at h; omega
    · simp only [List.mem_append, List.mem_singleton] at h
      rcases h with h | h
      · exact ih _ h
      · omega

theorem natToDecAux_ne_nil (f n : Nat) : natToDecAux (f + 1) n ≠ [] := by
  unfold natToDecAux
  split_ifs <;> simp

theorem natToDecAux_parse (f n : Nat) (h : n < f) (hn64 : n < 18446744073709551616) :
    parseUintLoop (natToDecAux f n) 0 = NumRes.ok n := by
  induction f generalizing n with
  | zero => omega
  | succ f ih =>
    unfold natToDecAux
    split_ifs with hn
    · have h1 : 48 ≤ 48 + n ∧ 48 + n ≤ 57 := by omega
      have h2 : ¬ (0 * 10 + (48 + n - 48) ≥ 18446744073709551616) := by omega
      simp only [parseUintLoop, h1, and_self, if_true, h2, if_false]
      congr 1
      omega
    · have h1 : n / 10 < f := by omega
      rw [parseUintLoop_append, ih _ h1 (by omega)]
      have h3 : 48 ≤ 48 + n % 10 ∧ 48 + n % 10 ≤ 57 := by omega
      have h4 : ¬ (n / 10 * 10 + (48 + n % 10 - 48) ≥ 18446744073709551616) := by omega
      simp only [parseUintLoop, h3, and_self, if_true, h4, if_false]
      congr 1
      omega

theorem natToDec_digits (n c : Nat) (h : c ∈ natToDec n) : 48 ≤ c ∧ c ≤ 57 :=
  natToDecAux_digits _ _ _ h

theorem natToDec_ne_nil (n : Nat) : natToDec n ≠ [] := natToDecAux_ne_nil _ _

theorem Atoi_natToDec (n : Nat) (h : n < 9223372036854775808) :
    Atoi (natToDec n) = ((n : Int), true) := by
  have hhead : ∀ c, (natToDec n).head? = some c → 48 ≤ c ∧ c ≤ 57 := by
    intro c hc
    exact natToDec_digits n c (List.mem_of_mem_head? hc)
  have h45 : (natToDec n).head? ≠ some 45 := fun hc => by have := hhead 45 hc; omega
  have h43 : (natToDec n).head? ≠ some 43 := fun hc => by have := hhead 43 hc; omega
  have hp : parseUintLoop (natToDec n) 0 = NumRes.ok n :=
    natToDecAux_parse _ _ (Nat.lt_succ_self n) (by omega)
  unfold Atoi
  simp only [h45, h43, or_self, if_false, natToDec_ne_nil, hp, decide_False]
  simp
  omega

theorem Itoa_natCast (n : Nat) : Itoa (n : Int) = natToDec n := by
  unfold Itoa
  simp

theorem cut_CRLF_append (t rest : Bytes) (h : cut CRLF t = none) :
    cut CRLF (t ++ CRLF ++ rest) = some (t, rest) := by
  induction t with
  | nil => simp [cut, CRLF, startsWith]
  | cons c t ih =>
    unfold cut at h
    split_ifs at h with hs
    have ht : cut CRLF t = none := by
      revert h
      cases cut CRLF t with
      | none => intro _; rfl
      | some p => intro h; simp at h
    have hs2 : startsWith CRLF (c :: t ++ CRLF ++ rest) = false := by
      cases t with
      | nil => simp [CRLF, startsWith]
      | cons d t =>
        simp only [CRLF, startsWith, List.cons_append] at hs ⊢
        simpa using hs
    simp only [List.cons_append, List.append_assoc] at hs2 ⊢
    unfold cut
    rw [if_neg (by simp [hs2])]
    have := ih ht
    simp only [List.append_assoc] at this
    rw [this]

theorem cut_none_of_no13 (t : Bytes) (h : ∀ c ∈ t, c ≠ 13) : cut CRLF t = none := by
  induction t with
  | nil => rfl
  | cons c t ih =>
    have hc : c ≠ 13 := h c (List.mem_cons_self _ _)
    have ht := ih (fun d hd => h d (List.mem_cons_of_mem _ hd))
    unfold cut
    have : startsWith CRLF (c :: t) = false := by
      simp [CRLF, startsWith]
      intro h13; exact absurd h13.symm hc
    rw [if_neg (by simp [this]), ht]

theorem startsWith_iff (p s : Bytes) : startsWith p s = true ↔ p <+: s := by
  induction p generalizing s with
  | nil => simp [startsWith]
  | cons a p ih =>
    cases s with
    | nil => simp [startsWith]
    | cons b s =>
      simp only [startsWith, Bool.and_eq_true, beq_iff_eq, ih]
      constructor
      · rintro ⟨rfl, ⟨t, rfl⟩⟩
        exact ⟨t, rfl⟩
      · rintro ⟨t, ht⟩
        simp only [List.cons_append, List.cons.injEq] at ht
        exact ⟨ht.1, ⟨t, ht.2⟩⟩

theorem cut_eq_none_iff (sep s : Bytes) (hsep : sep ≠ []) :
    cut sep s = none ↔ ¬ sep <:+: s := by
  induction s with
  | nil =>
    simp [cut, hsep]
  | cons c s ih =>
    unfold cut
    by_cases hs : startsWith sep (c :: s) = true
    · rw [if_pos hs]
      simp only [reduceCtorEq, false_iff, not_not]
      obtain ⟨t, ht⟩ := (startsWith_iff _ _).1 hs
      exact ⟨[], t, by simpa using ht⟩
    · rw [if_neg hs]
      have hcut : (match cut sep s with
          | none => none
          | some (a, b) => some (c :: a, b)) = none ↔ cut sep s = none := by
        cases cut sep s with
        | none => simp
        | some p => simp
      refine hcut.trans (ih.trans ?_)
      constructor
      · rintro hn ⟨a, b, hab⟩
        cases a with
        | nil =>
          apply hs
          exact (startsWith_iff _ _).2 ⟨b, by simpa using hab⟩
        | cons d a =>
          apply hn
          simp only [List.cons_append, List.append_assoc, List.cons.injEq] at hab
          exact ⟨a, b, by simpa using hab.2⟩
      · rintro hn ⟨a, b, hab⟩
        exact hn ⟨c :: a, b, by simp [← hab]⟩

theorem cut_CRLF_nil : cut CRLF [] = none := rfl

theorem joinCRLF_cons (t : Bytes) (ts : List Bytes) :
    joinCRLF (t :: ts) = t ++ CRLF ++ joinCRLF ts := by
  simp [joinCRLF]

theorem joinCRLF_append (a b : List Bytes) : joinCRLF (a ++ b) = joinCRLF a ++ joinCRLF b := by
  simp [joinCRLF]

theorem joinCRLF_length (ts : List Bytes) : 2 * ts.length ≤ (joinCRLF ts).length := by
  induction ts with
  | nil => simp [joinCRLF]
  | cons t ts ih =>
    rw [joinCRLF_cons]
    simp only [List.length_append, List.length_cons, CRLF, List.length_nil]
    omega

/-- Splitting with enough cuts allowed returns every token and the last piece. -/
theorem splitAux_join (ts : List Bytes) (h : ∀ t ∈ ts, cut CRLF t = none) (last : Bytes)
    (hl : cut CRLF last = none) (k : Nat) (hk : ts.length ≤ k) :
    splitAux CRLF k (joinCRLF ts ++ last) = ts ++ [last] := by
  induction ts generalizing k with
  | nil =>
    cases k with
    | zero => simp [joinCRLF, splitAux]
    | succ k => simp [joinCRLF, splitAux, hl]
  | cons t ts ih =>
    cases k with
    | zero => simp at hk
    | succ k =>
      have ht := h t (List.mem_cons_self _ _)
      rw [joinCRLF_cons, List.append_assoc, splitAux, cut_CRLF_append t _ ht]
      simp only [List.cons_append, List.cons.injEq, true_and]
      exact ih (fun d hd => h d (List.mem_cons_of_mem _ hd)) k (by simpa using hk)

/-- Splitting with exactly as many cuts as tokens leaves the rest uncut. -/
theorem splitAux_join_limit (ts : List Bytes) (h : ∀ t ∈ ts, cut CRLF t = none) (rest : Bytes) :
    splitAux CRLF ts.length (joinCRLF ts ++ rest) = ts ++ [rest] := by
  induction ts with
  | nil => simp [joinCRLF, splitAux]
  | cons t ts ih =>
    have ht := h t (List.mem_cons_self _ _)
    rw [joinCRLF_cons, List.append_assoc, List.length_cons, splitAux, cut_CRLF_append t _ ht]
    simp only [List.cons_append, List.cons.injEq, true_and]
    exact ih (fun d hd => h d (List.mem_cons_of_mem _ hd))

theorem Split_join (ts : List Bytes) (h : ∀ t ∈ ts, cut CRLF t = none) :
    Split (joinCRLF ts) CRLF = ts ++ [[]] := by
  unfold Split SplitN
  simp only [show ¬ ((-1 : Int) = 0) by decide, show ((-1 : Int) < 0) by decide, if_true, if_false]
  have := splitAux_join ts h [] cut_CRLF_nil (joinCRLF ts).length
    (by have := joinCRLF_length ts; omega)
  simpa using this

theorem header_cut (b : Nat) (n : Nat) (hb : b ≠ 13) : cut CRLF (b :: natToDec n) = none := by
  apply cut_none_of_no13
  intro c hc
  simp only [List.mem_cons] at hc
  rcases hc with rfl | hc
  · exact hb
  · have := natToDec_digits n c hc
    omega

theorem EncodeBulkString_eq (s : Bytes) (hs : s ≠ []) :
    EncodeBulkString s = joinCRLF [36 :: natToDec s.length, s] := by
  have : s.length ≠ 0 := by simpa using hs
  simp [EncodeBulkString, this, joinCRLF, Itoa_natCast]

theorem DecodeBulkString_tokens (s : Bytes) (hlen : s.length < 9223372036854775808)
    (rest : List Bytes) :
    DecodeBulkString ((36 :: natToDec s.length) :: s :: rest) = Res.ok s := by
  simp [DecodeBulkString, Atoi_natToDec _ hlen]

theorem bulkTokens_cons (s : Bytes) (c : List Bytes) :
    bulkTokens (s :: c) = (36 :: natToDec s.length) :: s :: bulkTokens c := by
  simp [bulkTokens]

theorem bulkTokens_append (a b : List Bytes) :
    bulkTokens (a ++ b) = bulkTokens a ++ bulkTokens b := by
  simp [bulkTokens]

theorem bulkTokens_length (c : List Bytes) : (bulkTokens c).length = 2 * c.length := by
  induction c with
  | nil => rfl
  | cons s c ih => rw [bulkTokens_cons]; simp [ih]; omega

theorem bulkTokens_cut (c : List Bytes) (h : ∀ s ∈ c, cut CRLF s = none) :
    ∀ t ∈ bulkTokens c, cut CRLF t = none := by
  induction c with
  | nil => intro t ht; simp [bulkTokens] at ht
  | cons s c ih =>
    intro t ht
    rw [bulkTokens_cons] at ht
    simp only [List.mem_cons] at ht
    rcases ht with rfl | rfl | ht
    · exact header_cut 36 _ (by decide)
    · exact h _ (List.mem_cons_self _ _)
    · exact ih (fun d hd => h d (List.mem_cons_of_mem _ hd)) t ht

theorem flatten_bulk_eq (c : List Bytes) (h : ∀ s ∈ c, s ≠ []) :
    (c.map EncodeBulkString).flatten = joinCRLF (bulkTokens c) := by
  induction c with
  | nil => rfl
  | cons s c ih =>
    have hs := h s (List.mem_cons_self _ _)
    rw [List.map_cons, List.flatten_cons, ih (fun d hd => h d (List.mem_cons_of_mem _ hd)),
      EncodeBulkString_eq s hs, bulkTokens_cons]
    simp [joinCRLF]

theorem EncodeArray_eq (c : List Bytes) (h : ∀ s ∈ c, s ≠ []) :
    EncodeArray c = joinCRLF ((42 :: natToDec c.length) :: bulkTokens c) := by
  rw [joinCRLF_cons, ← flatten_bulk_eq c h]
  simp [EncodeArray, Itoa_natCast]

/-- The loop of `DecodeArray` past the first element appends the remaining bodies. -/
theorem decodeArrayLoop_rest (hdr : Bytes) (todo done : List Bytes) (name : Bytes)
    (args : List Bytes) (hdone : done ≠ [])
    (hlen : ∀ s ∈ todo, s.length < 9223372036854775808) :
    decodeArrayLoop (hdr :: bulkTokens (done ++ todo) ++ [[]]) todo.length done.length name args
      = Res.ok (name, args ++ todo) := by
  induction todo generalizing done args with
  | nil => simp [decodeArrayLoop]
  | cons s todo ih =>
    have hdrop : ((hdr :: bulkTokens (done ++ s :: todo) ++ [[]]).drop (2 * done.length + 1)).take 2
        = [36 :: natToDec s.length, s] := by
      rw [bulkTokens_append, bulkTokens_cons]
      have : 2 * done.length + 1 = (hdr :: bulkTokens done).length := by
        simp [bulkTokens_length]
      rw [this]
      have e : hdr :: (bulkTokens done ++ (36 :: natToDec s.length) :: s :: bulkTokens todo) ++ [[]]
          = (hdr :: bulkTokens done)
            ++ ((36 :: natToDec s.length) :: s :: (bulkTokens todo ++ [[]])) := by simp
      rw [e, List.drop_left]
      rfl
    have hlt : ¬ (hdr :: bulkTokens (done ++ s :: todo) ++ [[]]).length < 2 * done.length + 3 := by
      simp [bulkTokens_length]
      omega
    have hi : done.length ≠ 0 := by simpa using hdone
    rw [List.length_cons, decodeArrayLoop, if_neg hlt, hdrop,
      DecodeBulkString_tokens s (hlen s (List.mem_cons_self _ _))]
    simp only [if_neg hi]
    have := ih (done ++ [s]) (args ++ [s]) (by simp)
      (fun d hd => hlen d (List.mem_cons_of_mem _ hd))
    simp only [List.append_assoc, List.singleton_append, List.length_append, List.length_singleton]
      at this
    rw [this]

theorem decodeArrayLoop_all (hdr : Bytes) (s : Bytes) (c : List Bytes)
    (hlen : ∀ t ∈ s :: c, t.length < 9223372036854775808) :
    decodeArrayLoop (hdr :: bulkTokens (s :: c) ++ [[]]) (s :: c).length 0 [] []
      = Res.ok (ToLower s, c) := by
  have hlt : ¬ (hdr :: bulkTokens (s :: c) ++ [[]]).length < 2 * 0 + 3 := by
    simp [bulkTokens_length]
    omega
  have hdrop : ((hdr :: bulkTokens (s :: c) ++ [[]]).drop (2 * 0 + 1)).take 2
      = [36 :: natToDec s.length, s] := by
    rw [bulkTokens_cons]; rfl
  rw [List.length_cons, decodeArrayLoop, if_neg hlt, hdrop,
    DecodeBulkString_tokens s (hlen s (List.mem_cons_self _ _))]
  simp only [if_true]
  have := decodeArrayLoop_rest hdr c [s] (ToLower s) [] (by simp)
    (fun d hd => hlen d (List.mem_cons_of_mem _ hd))
  simpa using this

theorem DecodeArray_encoded (c : List Bytes) (hc : c ≠ [])
    (hne : ∀ s ∈ c, s ≠ []) (hcut : ∀ s ∈ c, cut CRLF s = none)
    (hlen : ∀ s ∈ c, s.length < 9223372036854775808) (hn : c.length < 9223372036854775808) :
    DecodeArray (Split (EncodeArray c) CRLF) = Res.ok (ToLower (c.headD []), c.tail) := by
  rw [EncodeArray_eq c hne, Split_join]
  · cases c with
    | nil => exact absurd rfl hc
    | cons s c =>
      simp only [DecodeArray, List.cons_append, Atoi_natToDec _ hn]
      simp only [Bool.true_eq_false, if_false, Int.toNat_ofNat]
      exact decodeArrayLoop_all _ s c hlen
  · intro t ht
    simp only [List.mem_cons] at ht
    rcases ht with rfl | ht
    · exact header_cut 42 _ (by decide)
    · exact bulkTokens_cut c hcut t ht

theorem SplitN_two (hdr body : Bytes) (h : cut CRLF hdr = none) :
    SplitN (hdr ++ CRLF ++ body) CRLF 2 = [hdr, body] := by
  unfold SplitN
  simp only [show ¬ ((2 : Int) = 0) by decide, show ¬ ((2 : Int) < 0) by decide, if_false]
  have : (2 : Int).toNat - 1 = 1 := by decide
  rw [this, splitAux, cut_CRLF_append hdr body h]
  simp [splitAux]

theorem SplitN_tokens (ts : List Bytes) (h : ∀ t ∈ ts, cut CRLF t = none) (rest : Bytes) :
    SplitN (joinCRLF ts ++ rest) CRLF ((ts.length : Int) + 1) = ts ++ [rest] := by
  unfold SplitN
  have h1 : ¬ ((ts.length : Int) + 1 = 0) := by omega
  have h2 : ¬ ((ts.length : Int) + 1 < 0) := by omega
  have h3 : ((ts.length : Int) + 1).toNat - 1 = ts.length := by omega
  rw [if_neg h1, if_neg h2, h3]
  exact splitAux_join_limit ts h rest

theorem parseLoop_array_step (pre rest spare : Bytes) (c : List Bytes) (hc : c ≠ [])
    (hne : ∀ s ∈ c, s ≠ []) (hcut : ∀ s ∈ c, cut CRLF s = none)
    (hlen : ∀ s ∈ c, s.length < 9223372036854775808) (hn : c.length < 4611686018427387904)
    (fuel : Nat) (rn : RESPNode) (acc : List Command) :
    parseLoop (pre ++ (EncodeArray c ++ rest)) spare (fuel + 1) rn pre.length acc
      = parseLoop (pre ++ (EncodeArray c ++ rest)) spare fuel
          (if rn.IsSlave then
            { rn with bytesProc :=
                ⟨wrap64 (rn.bytesProc.all + ((EncodeArray c).length : Int)),
                  ((EncodeArray c).length : Int)⟩ }
           else rn)
          (pre.length + (EncodeArray c).length) (acc ++ [toCommand c]) := by
  have henc : EncodeArray c = (42 :: natToDec c.length) ++ CRLF ++ joinCRLF (bulkTokens c) := by
    rw [EncodeArray_eq c hne, joinCRLF_cons]
  have hpos : 0 < (EncodeArray c).length := by rw [henc]; simp
  have hlt : pre.length < (pre ++ (EncodeArray c ++ rest)).length := by
    simp only [List.length_append]; omega
  have hget : (pre ++ (EncodeArray c ++ rest)).getD pre.length 0 = 42 := by
    rw [henc, List.getD_eq_getElem?_getD, List.getElem?_append_right (Nat.le_refl _)]
    simp
  have hdrop : (pre ++ (EncodeArray c ++ rest)).drop pre.length = EncodeArray c ++ rest := by
    simp
  have hsplit2 : SplitN (EncodeArray c ++ rest) CRLF 2
      = [42 :: natToDec c.length, joinCRLF (bulkTokens c) ++ rest] := by
    rw [henc, List.append_assoc]
    exact SplitN_two _ _ (header_cut 42 _ (by decide))
  have hatoi : Atoi (natToDec c.length) = ((c.length : Int), true) :=
    Atoi_natToDec _ (by omega)
  have hw1 : wrap64 ((c.length : Int) * 2 + 1) = ((bulkTokens c).length : Int) + 1 := by
    rw [bulkTokens_length, wrap64_of_range _ (by omega) (by omega)]
    push_cast; ring
  have hw2 : wrap64 ((c.length : Int) * 2) = ((2 * c.length : Nat) : Int) := by
    rw [wrap64_of_range _ (by omega) (by omega)]
    push_cast; ring
  have htoks : SplitN (joinCRLF (bulkTokens c) ++ rest) CRLF (wrap64 ((c.length : Int) * 2 + 1))
      = bulkTokens c ++ [rest] := by
    rw [hw1]
    exact SplitN_tokens _ (bulkTokens_cut c hcut) rest
  have hidx : ¬ (((2 * c.length : Nat) : Int) < 0
      ∨ (((bulkTokens c ++ [rest]).length : Nat) : Int) ≤ ((2 * c.length : Nat) : Int)) := by
    simp [bulkTokens_length]
  have hgetD : (bulkTokens c ++ [rest]).getD (2 * c.length) [] = rest := by
    have : 2 * c.length = (bulkTokens c).length := (bulkTokens_length c).symm
    rw [this]
    simp [List.getD_eq_getElem?_getD]
  have hoff : (pre ++ (EncodeArray c ++ rest)).length - rest.length
      = pre.length + (EncodeArray c).length := by
    simp only [List.length_append]; omega
  have htake : (EncodeArray c ++ rest).take (pre.length + (EncodeArray c).length - pre.length)
      = EncodeArray c := by
    have : pre.length + (EncodeArray c).length - pre.length = (EncodeArray c).length := by omega
    rw [this]; simp
  have hdec := DecodeArray_encoded c hc hne hcut hlen (by omega)
  rw [parseLoop]
  simp only [hlt, if_true, hget, hdrop, hsplit2, List.headD_cons, List.tail_cons, hatoi,
    Bool.true_eq_false, if_false, htoks, hw2, hidx, Int.toNat_ofNat, hgetD, hoff, htake, hdec]
  have hsub : pre.length + (EncodeArray c).length - pre.length = (EncodeArray c).length := by omega
  simp only [hsub, toCommand]

/-- C7 as stated fails on the empty byte string: its encoding is the null bulk
`$-1\r\n`, whose tokens `$-1` and the empty body fail the length check. -/
theorem bulk_round_trip_fails_on_empty :
    DecodeBulkString (Split (EncodeBulkString []) CRLF)
      = Res.error "wrong request. lengths are not equal in func decodeBulkString" := by
  decide

/-- C7 (amended): for every non-empty byte string `x` that contains no CRLF
(and has the length of a Go string, below 2^63), splitting
`EncodeBulkString x` on CRLF and decoding the tokens returns `x` with no error. -/
theorem bulk_round_trip (x : Bytes) (hne : x ≠ []) (hcrlf : ¬ CRLF <:+: x)
    (hlen : x.length < 9223372036854775808) :
    DecodeBulkString (Split (EncodeBulkString x) CRLF) = Res.ok x := by
  have hx : cut CRLF x = none := (cut_eq_none_iff CRLF x (by decide)).2 hcrlf
  rw [EncodeBulkString_eq x hne, Split_join]
  · exact DecodeBulkString_tokens x hlen _
  · intro t ht
    simp only [List.mem_cons, List.mem_singleton, List.not_mem_nil, or_false] at ht
    rcases ht with rfl | rfl
    · exact header_cut 36 _ (by decide)
    · exact hx

/-- C7 (amended), at the byte string `bar`. -/
theorem bulk_round_trip_witness :
    DecodeBulkString (Split (EncodeBulkString (str "bar")) CRLF) = Res.ok (str "bar") :=
  bulk_round_trip (str "bar") (by decide) (by decide) (by decide)

theorem parseLoop_encoded (spare : Bytes) (cmds : List (List Bytes))
    (hc : ∀ c ∈ cmds, c ≠ [])
    (hne : ∀ c ∈ cmds, ∀ s ∈ c, s ≠ []) (hcut : ∀ c ∈ cmds, ∀ s ∈ c, cut CRLF s = none)
    (hlen : ∀ c ∈ cmds, ∀ s ∈ c, s.length < 9223372036854775808)
    (hn : ∀ c ∈ cmds, c.length < 4611686018427387904)
    (pre : Bytes) (rn : RESPNode) (acc : List Command) (fuel : Nat) (hfuel : cmds.length < fuel) :
    ∃ rn1, parseLoop (pre ++ (cmds.map EncodeArray).flatten) spare fuel rn pre.length acc
      = some (rn1, Res.ok (acc ++ cmds.map toCommand)) := by
  induction cmds generalizing pre rn acc fuel with
  | nil =>
    cases fuel with
    | zero => simp at hfuel
    | succ fuel =>
      refine ⟨rn, ?_⟩
      simp [parseLoop]
  | cons c cs ih =>
    cases fuel with
    | zero => simp at hfuel
    | succ fuel =>
      have hmem := List.mem_cons_self c cs
      rw [List.map_cons, List.flatten_cons,
        parseLoop_array_step pre _ spare c (hc c hmem) (hne c hmem) (hcut c hmem) (hlen c hmem)
          (hn c hmem)]
      have := ih (fun d hd => hc d (List.mem_cons_of_mem _ hd))
        (fun d hd => hne d (List.mem_cons_of_mem _ hd))
        (fun d hd => hcut d (List.mem_cons_of_mem _ hd))
        (fun d hd => hlen d (List.mem_cons_of_mem _ hd))
        (fun d hd => hn d (List.mem_cons_of_mem _ hd))
        (pre ++ EncodeArray c)
        (if rn.IsSlave then
            { rn with bytesProc :=
                ⟨wrap64 (rn.bytesProc.all + ((EncodeArray c).length : Int)),
                  ((EncodeArray c).length : Int)⟩ }
           else rn)
        (acc ++ [toCommand c]) fuel (by simpa using hfuel)
      simpa using this

theorem length_le_joinCRLF (ts : List Bytes) (t : Bytes) (h : t ∈ ts) :
    t.length ≤ (joinCRLF ts).length := by
  induction ts with
  | nil => simp at h
  | cons a ts ih =>
    rw [joinCRLF_cons]
    simp only [List.length_append]
    rcases List.mem_cons.1 h with rfl | h
    · omega
    · have := ih h; omega

theorem mem_bulkTokens (c : List Bytes) (s : Bytes) (h : s ∈ c) : s ∈ bulkTokens c := by
  simp only [bulkTokens, List.mem_flatMap]
  exact ⟨s, h, by simp⟩

theorem length_le_flatten (l : List Bytes) (x : Bytes) (h : x ∈ l) :
    x.length ≤ l.flatten.length := by
  induction l with
  | nil => simp at h
  | cons a l ih =>
    simp only [List.flatten_cons, List.length_append]
    rcases List.mem_cons.1 h with rfl | h
    · omega
    · have := ih h; omega

/-- What the model of `parseRequest` returns on the concatenation of the
`EncodeArray` encodings of a list of commands; the names are those of the
code where the first strings are ASCII text. -/
theorem parseRequest_encoded_model (cmds : List (List Bytes)) (rn : RESPNode) (spare : Bytes) (fuel : Nat)
    (hc : ∀ c ∈ cmds, c ≠ [])
    (hstr : ∀ c ∈ cmds, ∀ s ∈ c, s ≠ [] ∧ ¬ CRLF <:+: s)
    (hsize : ((cmds.map EncodeArray).flatten).length < 9223372036854775808)
    (hfuel : cmds.length < fuel) :
    (parseRequest fuel rn (cmds.map EncodeArray).flatten spare).map Prod.snd
      = some (Res.ok (cmds.map (fun c => (⟨ToLower (c.headD []), c.tail, 0⟩ : Command)))) := by
  have hne : ∀ c ∈ cmds, ∀ s ∈ c, s ≠ [] := fun c hcm s hs => (hstr c hcm s hs).1
  have hcut : ∀ c ∈ cmds, ∀ s ∈ c, cut CRLF s = none := fun c hcm s hs =>
    (cut_eq_none_iff CRLF s (by decide)).2 (hstr c hcm s hs).2
  have henc : ∀ c ∈ cmds, (EncodeArray c).length < 9223372036854775808 := fun c hcm =>
    lt_of_le_of_lt (length_le_flatten _ _ (List.mem_map_of_mem _ hcm)) hsize
  have hn : ∀ c ∈ cmds, c.length < 4611686018427387904 := by
    intro c hcm
    have h1 := henc c hcm
    rw [EncodeArray_eq c (hne c hcm)] at h1
    have h2 := joinCRLF_length ((42 :: natToDec c.length) :: bulkTokens c)
    simp only [List.length_cons, bulkTokens_length] at h2
    omega
  have hlen : ∀ c ∈ cmds, ∀ s ∈ c, s.length < 9223372036854775808 := by
    intro c hcm s hs
    have h1 := henc c hcm
    rw [EncodeArray_eq c (hne c hcm)] at h1
    have h2 := length_le_joinCRLF ((42 :: natToDec c.length) :: bulkTokens c) s
      (List.mem_cons_of_mem _ (mem_bulkTokens c s hs))
    omega
  obtain ⟨rn1, h⟩ := parseLoop_encoded spare cmds hc hne hcut hlen hn [] rn [] fuel hfuel
  simp only [List.nil_append, List.length_nil] at h
  unfold parseRequest
  rw [h]
  rfl

/-- C8: for every list of commands, each a non-empty list of non-empty strings
without CRLF, `parseRequest` on the concatenation of their `EncodeArray`
encodings (a buffer of less than 2^63 bytes) returns, as soon as the loop is
allowed one iteration per command and one more, no error and one command
per input command, in order: its arguments are the strings after the first,
unchanged, and its name is the lowercased first string (stated where the
first string is ASCII text, on which `strings.ToLower` is the ASCII map). -/
theorem parseRequest_encoded_commands (cmds : List (List Bytes)) (rn : RESPNode) (spare : Bytes)
    (fuel : Nat)
    (hc : ∀ c ∈ cmds, c ≠ [])
    (hstr : ∀ c ∈ cmds, ∀ s ∈ c, s ≠ [] ∧ ¬ CRLF <:+: s)
    (hsize : ((cmds.map EncodeArray).flatten).length < 9223372036854775808)
    (hfuel : cmds.length < fuel) :
    ∃ out : List Command,
      (parseRequest fuel rn (cmds.map EncodeArray).flatten spare).map Prod.snd
        = some (Res.ok out)
      ∧ out.map (fun o => o.Args) = cmds.map List.tail
      ∧ ∀ (i : Nat) (c : List Bytes), cmds[i]? = some c → (∀ b ∈ c.headD [], b < 128) →
          out[i]?.map (fun o => o.Name) = some (ToLower (c.headD [])) := by
  refine ⟨cmds.map (fun c => (⟨ToLower (c.headD []), c.tail, 0⟩ : Command)),
    parseRequest_encoded_model cmds rn spare fuel hc hstr hsize hfuel, ?_, ?_⟩
  · simp [List.map_map, Function.comp_def]
  · intro i c hi _
    simp [List.getElem?_map, hi]

/-- C8, at the two commands `SET foo bar` and `GET foo` in one buffer. -/
theorem parseRequest_encoded_commands_witness :
    ∃ out : List Command,
      (parseRequest 3 master0
        ([[str "SET", str "foo", str "bar"], [str "GET", str "foo"]].map EncodeArray).flatten
        []).map Prod.snd = some (Res.ok out)
      ∧ out.map (fun o => o.Args)
        = [[str "SET", str "foo", str "bar"], [str "GET", str "foo"]].map List.tail
      ∧ ∀ (i : Nat) (c : List Bytes),
          [[str "SET", str "foo", str "bar"], [str "GET", str "foo"]][i]? = some c →
          (∀ b ∈ c.headD [], b < 128) →
          out[i]?.map (fun o => o.Name) = some (ToLower (c.headD [])) :=
  parseRequest_encoded_commands [[str "SET", str "foo", str "bar"], [str "GET", str "foo"]] master0
    [] 3 (by decide) (by decide) (by decide) (by decide)

/-! ### XADD with an automatic sequence number -/

theorem cut_dash_none (t : Bytes) (h : 45 ∉ t) : cut (str "-") t = none := by
  induction t with
  | nil => rfl
  | cons c t ih =>
    have hc : c ≠ 45 := fun e => h (by simp [e])
    have ht := ih (fun hm => h (List.mem_cons_of_mem _ hm))
    unfold cut
    have : startsWith (str "-") (c :: t) = false := by
      simp [str, startsWith]
      intro e; exact absurd e.symm hc
    rw [if_neg (by simp [this]), ht]

theorem cut_dash_append (t rest : Bytes) (h : 45 ∉ t) :
    cut (str "-") (t ++ str "-" ++ rest) = some (t, rest) := by
  induction t with
  | nil => simp [cut, str, startsWith]
  | cons c t ih =>
    have hc : c ≠ 45 := fun e => h (by simp [e])
    have ht := ih (fun hm => h (List.mem_cons_of_mem _ hm))
    have : startsWith (str "-") (c :: (t ++ str "-" ++ rest)) = false := by
      simp [str, startsWith]
      intro e; exact absurd e.symm hc
    rw [List.cons_append, List.cons_append, cut, if_neg (by rw [this]; simp), ht]

theorem Split_dash (ms x : Bytes) (hms : 45 ∉ ms) (hx : 45 ∉ x) :
    Split (ms ++ str "-" ++ x) (str "-") = [ms, x] := by
  unfold Split SplitN
  simp only [show ¬ ((-1 : Int) = 0) by decide, show ((-1 : Int) < 0) by decide, if_true, if_false]
  have hl : (ms ++ str "-" ++ x).length = (ms.length + x.length) + 1 := by
    simp [str]; omega
  rw [hl, splitAux, cut_dash_append ms x hms]
  simp only
  cases hk : ms.length + x.length with
  | zero => simp [splitAux]
  | succ k => simp [splitAux, cut_dash_none x hx]

theorem natToDec_no_dash (k : Nat) : 45 ∉ natToDec k := by
  intro h
  have := natToDec_digits k 45 h
  omega

theorem bytesLess_irrefl (s : Bytes) : bytesLess s s = false := by
  induction s with
  | nil => rfl
  | cons c s ih => simp [bytesLess, ih]


theorem autoSeq_arg_ne_zero (ms : Bytes) : ms ++ str "-*" ≠ str "0-0" := by
  intro h
  have := congrArg List.getLast? h
  simp [str] at this

theorem autoSeq_arg_ne_star (ms : Bytes) : ms ++ str "-*" ≠ str "*" := by
  intro h
  have := congrArg List.length h
  simp [str] at this

theorem Split_autoSeq_arg (ms : Bytes) (hms : 45 ∉ ms) :
    Split (ms ++ str "-*") (str "-") = [ms, str "*"] := by
  have : ms ++ str "-*" = ms ++ str "-" ++ str "*" := by simp [str]
  rw [this]
  exact Split_dash ms (str "*") hms (by decide)

theorem handleXAdd_autoseq_first (now : Int) (rn : RESPNode) (conn : Conn) (key ms : Bytes)
    (pairs : List (Bytes × Bytes)) (hms : 45 ∉ ms) (hnone : rn.streamCache.Load key = none) :
    handleXAdd now rn conn (key :: (ms ++ str "-*") :: flatPairs pairs)
      = respond
          { rn with
            streamCache := rn.streamCache.Put key
              ⟨[⟨autoSeqId ms 1, pairs.map (fun p => ⟨ToLower p.1, ToLower p.2⟩)⟩]⟩ }
          conn (EncodeBulkString (autoSeqId ms 1)) := by
  unfold handleXAdd
  simp only [xaddItems_flatPairs, autoSeq_arg_ne_zero, autoSeq_arg_ne_star, if_false,
    Split_autoSeq_arg ms hms, hnone, if_true]
  rfl

theorem handleXAdd_autoseq_next (now : Int) (rn : RESPNode) (conn : Conn) (key ms : Bytes)
    (pairs : List (Bytes × Bytes)) (hms : 45 ∉ ms) (st : Stream) (front : List StreamEntry)
    (last : StreamEntry) (k : Nat) (hst : rn.streamCache.Load key = some st)
    (hent : st.Entries = front ++ [last]) (hid : last.ID = autoSeqId ms k)
    (hk : k + 1 < 9223372036854775808) :
    handleXAdd now rn conn (key :: (ms ++ str "-*") :: flatPairs pairs)
      = respond
          { rn with
            streamCache := rn.streamCache.Put key
              ⟨st.Entries ++ [⟨autoSeqId ms (k + 1),
                pairs.map (fun p => ⟨ToLower p.1, ToLower p.2⟩)⟩]⟩ }
          conn (EncodeBulkString (autoSeqId ms (k + 1))) := by
  have hlast : st.Entries.getLast? = some last := by rw [hent]; simp
  have hsplit : Split last.ID (str "-") = [ms, natToDec k] := by
    rw [hid]
    exact Split_dash ms _ hms (natToDec_no_dash k)
  have hatoi : Atoi (natToDec k) = ((k : Int), true) := Atoi_natToDec k (by omega)
  have hw : wrap64 ((k : Int) + 1) = ((k + 1 : Nat) : Int) := by
    rw [wrap64_of_range _ (by omega) (by omega)]
    push_cast; rfl
  have hgt : ((k + 1 : Nat) : Int) > (k : Int) := by push_cast; omega
  unfold handleXAdd
  simp only [xaddItems_flatPairs, autoSeq_arg_ne_zero, autoSeq_arg_ne_star, if_false,
    Split_autoSeq_arg ms hms, hst, hlast, hsplit, bytesLess_irrefl, Bool.false_eq_true,
    if_true, hatoi, hw, hgt, Itoa_natCast]
  rfl


theorem respond_alive (rn : RESPNode) (conn : Conn) (payload : Bytes) (h : conn.alive = true) :
    respond rn conn payload = ⟨rn, [(conn, payload)], Status.ok⟩ := by
  simp [respond, sendResponse, h]

theorem runCommands_cons_ok (env : Env) (rn rn1 : RESPNode) (conn : Conn) (c : Command)
    (cs : List Command) (o : List (Conn × Bytes)) (hname : c.Name ≠ [])
    (h : processRequest env rn conn c = ⟨rn1, o, Status.ok⟩) :
    runCommands env rn conn (c :: cs)
      = ⟨(runCommands env rn1 conn cs).node, o ++ (runCommands env rn1 conn cs).out,
          (runCommands env rn1 conn cs).status⟩ := by
  rw [runCommands, if_neg hname, h]

theorem range_shift (n : Nat) (f : Nat → α) :
    (List.range (n + 1)).map f = f 0 :: (List.range n).map (fun i => f (i + 1)) := by
  rw [List.range_succ_eq_map]
  simp [List.map_map, Function.comp_def]

theorem runCommands_autoseq_from (env : Env) (conn : Conn) (key ms : Bytes)
    (halive : conn.alive = true) (hms : 45 ∉ ms) (ps : List (List (Bytes × Bytes))) :
    ∀ (rn : RESPNode) (st : Stream) (front : List StreamEntry) (last : StreamEntry) (k : Nat),
      rn.streamCache.Load key = some st → st.Entries = front ++ [last] →
      last.ID = autoSeqId ms k → k + ps.length < 9223372036854775808 →
      (runCommands env rn conn (autoSeqCommands key ms ps)).out
        = (List.range ps.length).map
            (fun i => (conn, EncodeBulkString (autoSeqId ms (k + 1 + i))))
      ∧ (runCommands env rn conn (autoSeqCommands key ms ps)).status = Status.ok
      ∧ ((runCommands env rn conn (autoSeqCommands key ms ps)).node.streamCache.Load key).map
          (fun s => s.Entries.map (fun e => e.ID))
        = some (st.Entries.map (fun e => e.ID)
            ++ (List.range ps.length).map (fun i => autoSeqId ms (k + 1 + i))) := by
  induction ps with
  | nil =>
    intro rn st front last k hst _ _ _
    simp [autoSeqCommands, runCommands, hst]
  | cons p ps ih =>
    intro rn st front last k hst hent hid hk
    have hk1 : k + 1 < 9223372036854775808 := by simp at hk; omega
    have hstep := handleXAdd_autoseq_next env.now rn conn key ms p hms st front last k hst hent
      hid hk1
    rw [respond_alive _ _ _ halive] at hstep
    have hcons : autoSeqCommands key ms (p :: ps)
        = ⟨str "xadd", key :: (ms ++ str "-*") :: flatPairs p, 0⟩ :: autoSeqCommands key ms ps :=
      rfl
    generalize hrn1 : ({ rn with
        streamCache := rn.streamCache.Put key
          ⟨st.Entries ++ [⟨autoSeqId ms (k + 1),
            p.map (fun q => ⟨ToLower q.1, ToLower q.2⟩)⟩]⟩ } : RESPNode) = rn1 at hstep
    have hl : rn1.streamCache.Load key
        = some ⟨st.Entries ++ [⟨autoSeqId ms (k + 1),
            p.map (fun q => ⟨ToLower q.1, ToLower q.2⟩)⟩]⟩ := by
      rw [← hrn1]; simp [Store.Load, Store.Put]
    rw [hcons, runCommands_cons_ok env rn rn1 conn _ _ _ (show str "xadd" ≠ [] by decide)
      ((processRequest_xadd env rn conn _).trans hstep)]
    have := ih rn1 _ st.Entries
      ⟨autoSeqId ms (k + 1), p.map (fun q => ⟨ToLower q.1, ToLower q.2⟩)⟩ (k + 1)
      hl rfl rfl (by simp at hk ⊢; omega)
    obtain ⟨h1, h2, h3⟩ := this
    have e : ∀ i, k + 1 + 1 + i = k + 1 + (i + 1) := fun i => by omega
    refine ⟨?_, h2, ?_⟩
    · rw [h1, List.length_cons, range_shift]
      simp only [e, List.singleton_append, Nat.add_zero]
    · rw [h3, List.length_cons, range_shift]
      simp only [e, List.map_append, List.map_cons, List.map_nil, List.append_assoc,
        List.singleton_append, Nat.add_zero]

/-- The part of C5 that the code does: on a key without stream, the commands
`XADD key ms-*` (ms without a dash, any field/value pairs) reply
bulk(`ms-1`), bulk(`ms-2`), ... in order and leave exactly those IDs. -/
theorem xadd_autoseq_replies (env : Env) (rn : RESPNode) (conn : Conn) (key ms : Bytes)
    (ps : List (List (Bytes × Bytes))) (halive : conn.alive = true) (hms : 45 ∉ ms)
    (hnone : rn.streamCache.Load key = none) (hps : ps ≠ [])
    (hn : ps.length < 9223372036854775808) :
    (runCommands env rn conn (autoSeqCommands key ms ps)).out
      = (List.range ps.length).map (fun i => (conn, EncodeBulkString (autoSeqId ms (i + 1))))
    ∧ (runCommands env rn conn (autoSeqCommands key ms ps)).status = Status.ok
    ∧ ((runCommands env rn conn (autoSeqCommands key ms ps)).node.streamCache.Load key).map
        (fun s => s.Entries.map (fun e => e.ID))
      = some ((List.range ps.length).map (fun i => autoSeqId ms (i + 1))) := by
  cases ps with
  | nil => exact absurd rfl hps
  | cons p ps =>
    have hstep := handleXAdd_autoseq_first env.now rn conn key ms p hms hnone
    rw [respond_alive _ _ _ halive] at hstep
    have hcons : autoSeqCommands key ms (p :: ps)
        = ⟨str "xadd", key :: (ms ++ str "-*") :: flatPairs p, 0⟩ :: autoSeqCommands key ms ps :=
      rfl
    generalize hrn1 : ({ rn with
        streamCache := rn.streamCache.Put key
          ⟨[⟨autoSeqId ms 1, p.map (fun q => ⟨ToLower q.1, ToLower q.2⟩)⟩]⟩ } : RESPNode)
        = rn1 at hstep
    have hl : rn1.streamCache.Load key
        = some ⟨[⟨autoSeqId ms 1, p.map (fun q => ⟨ToLower q.1, ToLower q.2⟩)⟩]⟩ := by
      rw [← hrn1]; simp [Store.Load, Store.Put]
    rw [hcons, runCommands_cons_ok env rn rn1 conn _ _ _ (show str "xadd" ≠ [] by decide)
      ((processRequest_xadd env rn conn _).trans hstep)]
    have := runCommands_autoseq_from env conn key ms halive hms ps rn1
      (Stream.mk [StreamEntry.mk (autoSeqId ms 1)
        (p.map (fun (q : Bytes × Bytes) => StreamItem.mk (ToLower q.1) (ToLower q.2)))]) []
      (StreamEntry.mk (autoSeqId ms 1)
        (p.map (fun (q : Bytes × Bytes) => StreamItem.mk (ToLower q.1) (ToLower q.2)))) 1
      hl rfl rfl (by simp at hn ⊢; omega)
    obtain ⟨h1, h2, h3⟩ := this
    have e : ∀ i, 1 + 1 + i = i + 1 + 1 := fun i => by omega
    refine ⟨?_, h2, ?_⟩
    · rw [h1, List.length_cons, range_shift]
      simp only [e, List.singleton_append, Nat.zero_add]
    · rw [h3, List.length_cons, range_shift]
      simp only [e, List.map_cons, List.map_nil, List.singleton_append, Nat.zero_add]

/-! ### Replication: GETACK, PSYNC, WAIT; INFO and argument errors -/

theorem processRequest_wait2 (env : Env) (rn : RESPNode) (conn : Conn) (a0 a1 : Bytes)
    (rest : List Bytes) (l : Int) :
    processRequest env rn conn ⟨str "wait", a0 :: a1 :: rest, l⟩
      = if (ParseInt a0).2 = false then ⟨rn, [], Status.error "strconv.ParseInt"⟩
        else if (ParseInt a1).2 = false then ⟨rn, [], Status.error "strconv.ParseInt"⟩
        else handleWait rn conn (ParseInt a0).1 (ParseInt a1).1 := by
  rfl

theorem processRequest_ack (env : Env) (rn : RESPNode) (c : Conn) (off : Bytes) :
    processRequest env rn c ⟨str "replconf", [str "ACK", off], 0⟩
      = handleReplconf rn c (str "ACK") := by
  rfl

theorem handleWait_pending (rn : RESPNode) (conn : Conn) (N T : Int) (hmaster : rn.IsSlave = false)
    (hN : N ≠ 0) (hch : rn.SlaveConns.waitChannel ≤ 1) (hsend : rn.SlaveConns.senders = 0)
    (hres : rn.SlaveConns.resumed = 0) :
    waitPending conn N 0 (handleWait rn conn N T).node ∧ (handleWait rn conn N T).status = Status.ok
    ∧ ∀ w ∈ (handleWait rn conn N T).out, w.1 ∈ rn.SlaveConns.conns := by
  have hns : ¬ (rn.SlaveConns.senders ≥ 1) := by omega
  unfold handleWait waitPending
  simp only [hN, if_false, hns]
  refine ⟨⟨hmaster, ?_, ?_, ?_, ?_, ?_, ?_⟩, ?_, ?_⟩
  rotate_left 6
  · trivial
  rotate_left 1
  · split_ifs <;> rfl
  · split_ifs <;> rfl
  · split_ifs <;> rfl
  · split_ifs with h
    · right
      simp only
      omega
    · left
      simp
  · split_ifs <;> exact hsend
  · split_ifs <;> exact hres
  · intro w hw
    simp only [List.mem_flatten, List.mem_map] at hw
    obtain ⟨l, ⟨r, hr, rfl⟩, hwl⟩ := hw
    unfold sendResponse at hwl
    split_ifs at hwl
    · simp at hwl
      rw [hwl]
      exact hr
    · simp at hwl

theorem ack_below (env : Env) (rn : RESPNode) (conn c : Conn) (off : Bytes) (N a : Int)
    (hp : waitPending conn N a rn) (h0 : 0 ≤ a) (hlt : a + 1 < N)
    (hN : N < 9223372036854775808) :
    (processRequest env rn c ⟨str "replconf", [str "ACK", off], 0⟩).out = []
    ∧ (processRequest env rn c ⟨str "replconf", [str "ACK", off], 0⟩).status = Status.ok
    ∧ waitPending conn N (a + 1)
        (processRequest env rn c ⟨str "replconf", [str "ACK", off], 0⟩).node := by
  obtain ⟨hm, hack, hwait, hconn, hj, hs, hr⟩ := hp
  have hw : wrap64 (rn.SlaveConns.numAck + 1) = a + 1 := by
    rw [hack, wrap64_of_range _ (by omega) (by omega)]
  have hnot : ¬ (a + 1 ≥ N) := by omega
  rw [processRequest_ack]
  unfold handleReplconf
  simp only [show ToLower (str "ACK") = str "ack" by decide, if_true, hm, Bool.false_and,
    Bool.false_eq_true, if_false, hw, hwait, hnot]
  simp [waitPending, hconn, hj, hs, hr]

theorem feed_acks_below (env : Env) (conn : Conn) (N : Int) (hN : N < 9223372036854775808)
    (acks : List (Conn × Bytes)) :
    ∀ (rn : RESPNode) (a : Int), waitPending conn N a rn → 0 ≤ a → a + acks.length < N →
      (feed env rn (ackFrames acks)).out = []
      ∧ (feed env rn (ackFrames acks)).status = Status.ok
      ∧ waitPending conn N (a + acks.length) (feed env rn (ackFrames acks)).node := by
  induction acks with
  | nil =>
    intro rn a hp _ _
    simpa [ackFrames, feed] using hp
  | cons x xs ih =>
    intro rn a hp h0 hlt
    simp only [List.length_cons, Nat.cast_add, Nat.cast_one] at hlt
    obtain ⟨h1, h2, h3⟩ := ack_below env rn conn x.1 x.2 N a hp h0 (by omega) hN
    have hcons : ackFrames (x :: xs)
        = (x.1, ⟨str "replconf", [str "ACK", x.2], 0⟩) :: ackFrames xs := rfl
    obtain ⟨i1, i2, i3⟩ := ih _ (a + 1) h3 (by omega) (by omega)
    rw [hcons, feed, h2]
    simp only [h1, i1, i2, List.append_nil, true_and]
    have e : a + ((xs.length : Int) + 1) = a + 1 + xs.length := by ring
    simp only [List.length_cons, Nat.cast_add, Nat.cast_one, e]
    exact i3

theorem ack_reaches (env : Env) (rn : RESPNode) (conn c : Conn) (off : Bytes) (N a : Int)
    (hp : waitPending conn N a rn) (h0 : 0 ≤ a) (heq : a + 1 = N)
    (hN : N < 9223372036854775808) (halive : conn.alive = true) :
    (processRequest env rn c ⟨str "replconf", [str "ACK", off], 0⟩).out
      = [(conn, 58 :: Itoa N ++ CRLF)]
    ∧ (processRequest env rn c ⟨str "replconf", [str "ACK", off], 0⟩).status = Status.ok
    ∧ (processRequest env rn c ⟨str "replconf", [str "ACK", off], 0⟩).node.SlaveConns.numAck = 0
    ∧ (processRequest env rn c ⟨str "replconf", [str "ACK", off], 0⟩).node.SlaveConns.numWait = 0
    ∧ resumeAck (processRequest env rn c ⟨str "replconf", [str "ACK", off], 0⟩).node
      = ((processRequest env rn c ⟨str "replconf", [str "ACK", off], 0⟩).node, [])
    := by
  obtain ⟨hm, hack, hwait, hconn, hj, hs, hr⟩ := hp
  have hw : wrap64 (rn.SlaveConns.numAck + 1) = N := by
    rw [hack, wrap64_of_range _ (by omega) (by omega), heq]
  have hnb : ¬ (rn.SlaveConns.waiters = [] ∧ rn.SlaveConns.waitChannel ≥ 1) := by
    rintro ⟨h1, h2⟩
    rcases hj with h | h
    · exact h h1
    · omega
  have hint : EncodeInteger (Itoa N) = 58 :: Itoa N ++ CRLF := by
    have hne : (Itoa N).length ≠ 0 := by
      unfold Itoa
      have hneg : ¬ N < 0 := by omega
      rw [if_neg hneg]
      simpa using natToDec_ne_nil N.toNat
    simp [EncodeInteger, hne]
  rw [processRequest_ack]
  unfold handleReplconf
  simp only [show ToLower (str "ACK") = str "ack" by decide, if_true, hm, Bool.false_and,
    Bool.false_eq_true, if_false, hw, hwait, ge_iff_le, le_refl, hnb, hint]
  refine ⟨?_, ?_, ?_, ?_, ?_⟩
  · split_ifs <;> simp [sendResponse, hconn, halive]
  · trivial
  · trivial
  · trivial
  · unfold resumeAck
    split_ifs <;> simp [hr]


/-- The run that C15 describes, on a master where no earlier `handleReplconf`
is blocked in its send or about to run on from it (channel of capacity 1):
after `WAIT N T` with N >= 1 from a live client, the first N-1
`REPLCONF ACK` frames write nothing and leave nothing to be resumed, and the
N-th writes exactly integer(N) to the waiting client and leaves `numAck` and
`numWait` at 0; no timeout fires in between. -/
theorem wait_then_acks (env env2 : Env) (rn : RESPNode) (conn : Conn) (a0 a1 : Bytes) (N T : Int)
    (acks : List (Conn × Bytes)) (c : Conn) (off : Bytes)
    (hmaster : rn.IsSlave = false) (halive : conn.alive = true)
    (hchan : rn.SlaveConns.waitChannel ≤ 1)
    (hsend : rn.SlaveConns.senders = 0) (hres : rn.SlaveConns.resumed = 0)
    (hN : ParseInt a0 = (N, true)) (hT : ParseInt a1 = (T, true)) (h1 : 1 ≤ N)
    (hlen : (acks.length : Int) = N - 1) :
    (feed env2 (processRequest env rn conn ⟨str "wait", [a0, a1], 0⟩).node (ackFrames acks)).out
      = []
    ∧ (feed env2 (processRequest env rn conn ⟨str "wait", [a0, a1], 0⟩).node
        (ackFrames acks)).node.SlaveConns.resumed = 0
    ∧ (processRequest env2
        (feed env2 (processRequest env rn conn ⟨str "wait", [a0, a1], 0⟩).node
          (ackFrames acks)).node
        c ⟨str "replconf", [str "ACK", off], 0⟩).out = [(conn, 58 :: Itoa N ++ CRLF)]
    ∧ (processRequest env2
        (feed env2 (processRequest env rn conn ⟨str "wait", [a0, a1], 0⟩).node
          (ackFrames acks)).node
        c ⟨str "replconf", [str "ACK", off], 0⟩).node.SlaveConns.numAck = 0
    ∧ (processRequest env2
        (feed env2 (processRequest env rn conn ⟨str "wait", [a0, a1], 0⟩).node
          (ackFrames acks)).node
        c ⟨str "replconf", [str "ACK", off], 0⟩).node.SlaveConns.numWait = 0 := by
  have hr := Atoi_range a0 (by unfold ParseInt at hN; rw [hN])
  unfold ParseInt at hN hT
  rw [hN] at hr
  simp only at hr
  rw [processRequest_wait2]
  unfold ParseInt
  simp only [hN, hT, Bool.true_eq_false, if_false]
  obtain ⟨hp, _, _⟩ := handleWait_pending rn conn N T hmaster (by omega) hchan hsend hres
  obtain ⟨f1, _, f3⟩ := feed_acks_below env2 conn N hr.2 acks _ 0 hp (le_refl 0) (by omega)
  obtain ⟨g1, _, g3, g4, _⟩ := ack_reaches env2 _ conn c off N (0 + acks.length) f3 (by omega)
    (by omega) hr.2 halive
  exact ⟨f1, f3.2.2.2.2.2.2, g1, g3, g4⟩

/-- The run of `wait_then_acks` at `WAIT 2 500` on a master with two replicas
and one ACK from each. -/
theorem wait_then_acks_witness :
    (processRequest ⟨0, Res.ok []⟩
        (feed ⟨0, Res.ok []⟩
          (processRequest ⟨0, Res.ok []⟩ master2 client ⟨str "wait", [str "2", str "500"], 0⟩).node
          (ackFrames [(replica, str "0")])).node
        replicaB ⟨str "replconf", [str "ACK", str "0"], 0⟩).out
      = [(client, 58 :: Itoa 2 ++ CRLF)] :=
  (wait_then_acks ⟨0, Res.ok []⟩ ⟨0, Res.ok []⟩ master2 client (str "2") (str "500") 2 500
    [(replica, str "0")] replicaB (str "0") rfl rfl (by decide) (by decide) (by decide)
    (by decide) (by decide) (by decide) (by decide)).2.2.1

set_option maxRecDepth 8000 in
/-- C15: on a master with three replicas, `WAIT 1 500` and the ACK of each
replica leave the third ACK blocked in its send on the full channel.  The
next `WAIT 1 500` of the client sends the three GETACK frames; its
`waitTimeout` takes the value left in the channel, the blocked handler runs
on and writes `:0\r\n` to the waiting client and sets `numWait` to 0, before
any ACK for this WAIT has arrived; the first ACK that follows blocks and
writes nothing, where integer(1) is required. -/
theorem wait_after_late_acks_answered_zero :
    (feed ⟨0, Res.ok []⟩ master3
      [(client, ⟨str "wait", [str "1", str "500"], 0⟩),
       (replica, ⟨str "replconf", [str "ACK", str "0"], 0⟩),
       (replicaB, ⟨str "replconf", [str "ACK", str "0"], 0⟩)]).status = Status.ok
    ∧ (processRequest ⟨0, Res.ok []⟩
        (feed ⟨0, Res.ok []⟩ master3
          [(client, ⟨str "wait", [str "1", str "500"], 0⟩),
           (replica, ⟨str "replconf", [str "ACK", str "0"], 0⟩),
           (replicaB, ⟨str "replconf", [str "ACK", str "0"], 0⟩)]).node
        replicaC ⟨str "replconf", [str "ACK", str "0"], 0⟩).status = Status.blocked
    ∧ (processRequest ⟨0, Res.ok []⟩ master3Late client
        ⟨str "wait", [str "1", str "500"], 0⟩).out
      = [(replica, str "*3\r\n$8\r\nREPLCONF\r\n$6\r\nGETACK\r\n$1\r\n*\r\n"),
         (replicaB, str "*3\r\n$8\r\nREPLCONF\r\n$6\r\nGETACK\r\n$1\r\n*\r\n"),
         (replicaC, str "*3\r\n$8\r\nREPLCONF\r\n$6\r\nGETACK\r\n$1\r\n*\r\n")]
    ∧ (processRequest ⟨0, Res.ok []⟩ master3Late client
        ⟨str "wait", [str "1", str "500"], 0⟩).status = Status.ok
    ∧ (resumeAck (processRequest ⟨0, Res.ok []⟩ master3Late client
        ⟨str "wait", [str "1", str "500"], 0⟩).node).2 = [(client, str ":0\r\n")]
    ∧ (resumeAck (processRequest ⟨0, Res.ok []⟩ master3Late client
        ⟨str "wait", [str "1", str "500"], 0⟩).node).1.SlaveConns.numWait = 0
    ∧ (processRequest ⟨0, Res.ok []⟩
        (resumeAck (processRequest ⟨0, Res.ok []⟩ master3Late client
          ⟨str "wait", [str "1", str "500"], 0⟩).node).1
        replica ⟨str "replconf", [str "ACK", str "0"], 0⟩).out = []
    ∧ (processRequest ⟨0, Res.ok []⟩
        (resumeAck (processRequest ⟨0, Res.ok []⟩ master3Late client
          ⟨str "wait", [str "1", str "500"], 0⟩).node).1
        replica ⟨str "replconf", [str "ACK", str "0"], 0⟩).status = Status.blocked := by
  decide

/-- C16: on a master with two replicas, `WAIT 1 500` is answered `:1\r\n` by the
ACK of the first replica, and the ACK of the second replica, which arrives
before any other WAIT, writes `:1\r\n` to the same client once more. -/
theorem late_ack_replies_again :
    (feed ⟨0, Res.ok []⟩ master2
      [(client, ⟨str "wait", [str "1", str "500"], 0⟩),
       (replica, ⟨str "replconf", [str "ACK", str "0"], 0⟩),
       (replicaB, ⟨str "replconf", [str "ACK", str "0"], 0⟩)]).out
      = [(replica, str "*3\r\n$8\r\nREPLCONF\r\n$6\r\nGETACK\r\n$1\r\n*\r\n"),
         (replicaB, str "*3\r\n$8\r\nREPLCONF\r\n$6\r\nGETACK\r\n$1\r\n*\r\n"),
         (client, str ":1\r\n"), (client, str ":1\r\n")]
    ∧ (feed ⟨0, Res.ok []⟩ master2
      [(client, ⟨str "wait", [str "1", str "500"], 0⟩),
       (replica, ⟨str "replconf", [str "ACK", str "0"], 0⟩),
       (replicaB, ⟨str "replconf", [str "ACK", str "0"], 0⟩)]).status = Status.ok := by
  decide

set_option maxRecDepth 8000 in
/-- C11: on a replica after the handshake with both counters at 0, one read
buffer holding `REPLCONF GETACK *` (37 bytes) followed by `PING` is answered
with offset 37: the GETACK command itself is counted, not the 0 bytes parsed
before it. -/
theorem replica_getack_counts_itself :
    (handleRead 10 ⟨0, Res.ok []⟩ replica1 client
      (EncodeArray [str "REPLCONF", str "GETACK", str "*"] ++ EncodeArray [str "PING"])).map
        (fun r => (r.out, r.status))
      = some ([(client, EncodeArray [str "REPLCONF", str "ACK", str "37"])], Status.ok)
    ∧ (EncodeArray [str "REPLCONF", str "GETACK", str "*"]).length = 37
    ∧ replica1.bytesProc = ⟨0, 0⟩ := by
  decide

set_option maxRecDepth 8000 in
/-- C12: the bytes that `handlePsync` of this repository writes (155 bytes) leave
`handshakeDone` false on a fresh replica: the `$90` frame holds the 88 bytes
and a CRLF, which never equal the 88-byte baseline. -/
theorem own_master_psync_does_not_end_handshake :
    (parseRequest 20 replica0 psyncBytes (List.replicate (1024 - psyncBytes.length) 0)).map
        (fun p => (p.1.handshakeDone, p.1.bytesProc, p.2))
      = some (false, ⟨0, 0⟩, Res.ok []) := by
  decide

set_option maxRecDepth 8000 in
/-- The frame a Redis master writes, `+FULLRESYNC <id> 0\r\n$88\r\n` and the 88
bytes, does set `handshakeDone` and leaves both counters at 0. -/
theorem redis_master_psync_ends_handshake :
    (parseRequest 100 replica0
        (str "+FULLRESYNC 8371b4fb1155b71f4a04d3e1bc3e18c4a990aeeb 0\r\n$88\r\n" ++ emptyRDBData)
        []).map (fun p => (p.1.handshakeDone, p.1.bytesProc, p.2))
      = some (true, ⟨0, 0⟩, Res.ok []) := by
  decide


/-- C14: on a node with `IsSlave` and `handshakeDone` both true, a command named
ping, echo or psync, or with a name outside the recognised set, writes
nothing and returns the node as it was. -/
theorem replica_silent (env : Env) (rn : RESPNode) (conn : Conn) (command : Command)
    (hslave : rn.IsSlave = true) (hdone : rn.handshakeDone = true)
    (hname : command.Name = str "ping" ∨ command.Name = str "echo"
      ∨ command.Name = str "psync" ∨ command.Name ∉ recognised) :
    processRequest env rn conn command = ⟨rn, [], Status.ok⟩ := by
  unfold processRequest
  rcases hname with h | h | h | h
  · simp [h, hslave, hdone]
  · rw [h]
    simp [hslave, hdone, show str "echo" ≠ str "ping" by decide]
  · rw [h]
    simp [hslave, hdone, show str "psync" ≠ str "ping" by decide,
      show str "psync" ≠ str "echo" by decide, show str "psync" ≠ str "set" by decide,
      show str "psync" ≠ str "get" by decide, show str "psync" ≠ str "info" by decide,
      show str "psync" ≠ str "replconf" by decide]
  · simp only [recognised, List.mem_cons, List.mem_singleton, List.not_mem_nil, or_false,
      not_or] at h
    obtain ⟨h1, h2, h3, h4, h5, h6, h7, h8, h9, h10, h11, h12⟩ := h
    simp [h1, h2, h3, h4, h5, h6, h7, h8, h9, h10, h11, h12, hslave, hdone]

/-- C14, at PING on a replica after the handshake. -/
theorem replica_silent_witness :
    processRequest ⟨0, Res.ok []⟩ replica1 client ⟨str "ping", [], 0⟩
      = ⟨replica1, [], Status.ok⟩ :=
  replica_silent ⟨0, Res.ok []⟩ replica1 client ⟨str "ping", [], 0⟩ rfl rfl (Or.inl rfl)

set_option maxRecDepth 8000 in
/-- C18: `INFO server` on a fresh master, read from the wire on a live
connection, gets no reply at all where bulk(`role:master`) is required: the
handler writes nothing, returns nil and leaves the node as it was. -/
theorem info_other_section_silent :
    (handleRead 10 ⟨0, Res.ok []⟩ master0 client (EncodeArray [str "INFO", str "server"])).map
        (fun r => (r.out, r.status)) = some ([], Status.ok)
    ∧ (processRequest ⟨0, Res.ok []⟩ master0 client ⟨str "info", [str "server"], 0⟩).out = []
    ∧ (processRequest ⟨0, Res.ok []⟩ master0 client ⟨str "info", [str "server"], 0⟩).status
      = Status.ok
    ∧ client.alive = true
    ∧ EncodeBulkString (str "role:master") = str "$11\r\nrole:master\r\n" := by
  decide

theorem processRequest_info (env : Env) (rn : RESPNode) (conn : Conn) (args : List Bytes)
    (l : Int) :
    processRequest env rn conn ⟨str "info", args, l⟩ = handleInfo rn conn (args.headD []) := by
  rfl

/-- The three paths of `handleInfo` on a live connection: INFO without section
(or with an empty one) replies bulk(`role:master`); a section that is
`replication` up to the case of its letters replies
bulk(`role:<role>\r\nmaster_replid:<id>\r\nmaster_repl_offset:<offset>`); any
other section of ASCII text gets no reply. -/
theorem info_reply (env : Env) (rn : RESPNode) (conn : Conn) (args : List Bytes)
    (halive : conn.alive = true) :
    (args.headD [] = [] →
      (processRequest env rn conn ⟨str "info", args, 0⟩).out
        = [(conn, str "$11\r\nrole:master\r\n")])
    ∧ (ToLower (args.headD []) = str "replication" →
      (processRequest env rn conn ⟨str "info", args, 0⟩).out
        = [(conn, EncodeBulkString (str "role:" ++ rn.Role ++ str "\r\nmaster_replid:"
            ++ rn.MasterReplID ++ str "\r\nmaster_repl_offset:" ++ Itoa rn.MasterReplOffset))])
    ∧ (args.headD [] ≠ [] → (∀ b ∈ args.headD [], b < 128) →
      ToLower (args.headD []) ≠ str "replication" →
      (processRequest env rn conn ⟨str "info", args, 0⟩).out = []) := by
  rw [processRequest_info]
  generalize args.headD [] = a
  unfold handleInfo
  refine ⟨?_, ?_, ?_⟩
  · intro h
    have : EncodeBulkString (str "role:master") = str "$11\r\nrole:master\r\n" := by decide
    simp [h, respond, sendResponse, halive, this]
  · intro h
    have hne : a ≠ [] := by
      intro h0
      rw [h0] at h
      exact absurd h (by decide)
    simp [h, hne, respond, sendResponse, halive]
  · intro h1 _ h2
    simp [h1, h2]

/-- The three paths of `handleInfo` on a fresh master: `INFO`,
`INFO Replication` and `INFO server`. -/
theorem info_reply_witness :
    (processRequest ⟨0, Res.ok []⟩ master0 client ⟨str "info", [], 0⟩).out
      = [(client, str "$11\r\nrole:master\r\n")]
    ∧ (processRequest ⟨0, Res.ok []⟩ master0 client ⟨str "info", [str "Replication"], 0⟩).out
      = [(client, EncodeBulkString (str "role:master\r\nmaster_replid:"
          ++ str "8371b4fb1155b71f4a04d3e1bc3e18c4a990aeeb" ++ str "\r\nmaster_repl_offset:0"))]
    ∧ (processRequest ⟨0, Res.ok []⟩ master0 client ⟨str "info", [str "server"], 0⟩).out
      = [] :=
  ⟨(info_reply ⟨0, Res.ok []⟩ master0 client [] rfl).1 rfl,
   ((info_reply ⟨0, Res.ok []⟩ master0 client [str "Replication"] rfl).2.1 (by decide)).trans
     (by decide),
   (info_reply ⟨0, Res.ok []⟩ master0 client [str "server"] rfl).2.2 (by decide) (by decide)
     (by decide)⟩

set_option maxRecDepth 8000 in
/-- C17: each bad command of the claim, read from the wire on a live
connection of a fresh master, gets no reply: GET, ECHO, TYPE and REPLCONF
without argument, SET with one or with three arguments and XADD with an odd
number of field/value arguments end in an index panic, which no `recover`
catches; SET PX and WAIT with a number that does not parse return the
conversion error, on which `HandleClient` leaves its loop.  No simple-error
frame is written, and the connection is not served any further. -/
theorem bad_command_crashes_or_drops :
    (handleRead 10 ⟨0, Res.ok []⟩ master0 client (EncodeArray [str "GET"])).map
        (fun r => (r.out, r.status)) = some ([], Status.panic)
    ∧ (handleRead 10 ⟨0, Res.ok []⟩ master0 client (EncodeArray [str "ECHO"])).map
        (fun r => (r.out, r.status)) = some ([], Status.panic)
    ∧ (handleRead 10 ⟨0, Res.ok []⟩ master0 client (EncodeArray [str "TYPE"])).map
        (fun r => (r.out, r.status)) = some ([], Status.panic)
    ∧ (handleRead 10 ⟨0, Res.ok []⟩ master0 client (EncodeArray [str "REPLCONF"])).map
        (fun r => (r.out, r.status)) = some ([], Status.panic)
    ∧ (handleRead 10 ⟨0, Res.ok []⟩ master0 client (EncodeArray [str "SET", str "k"])).map
        (fun r => (r.out, r.status)) = some ([], Status.panic)
    ∧ (handleRead 10 ⟨0, Res.ok []⟩ master0 client
        (EncodeArray [str "SET", str "k", str "v", str "px"])).map
        (fun r => (r.out, r.status)) = some ([], Status.panic)
    ∧ (handleRead 10 ⟨0, Res.ok []⟩ master0 client
        (EncodeArray [str "XADD", str "s", str "1-1", str "f"])).map
        (fun r => (r.out, r.status)) = some ([], Status.panic)
    ∧ (handleRead 10 ⟨0, Res.ok []⟩ master0 client
        (EncodeArray [str "SET", str "k", str "v", str "px", str "abc"])).map
        (fun r => (r.out, r.status)) = some ([], Status.error "strconv.Atoi")
    ∧ (handleRead 10 ⟨0, Res.ok []⟩ master0 client
        (EncodeArray [str "WAIT", str "x", str "100"])).map
        (fun r => (r.out, r.status)) = some ([], Status.error "strconv.ParseInt") := by
  refine ⟨?_, ?_, ?_, ?_, ?_, ?_, ?_, ?_, ?_⟩ <;> decide

/-- The unparsable numbers: `SET k v px abc` and `WAIT x 100`, read from the
wire, get no reply at all and the handler returns the conversion error, on
which `HandleClient` leaves its loop. -/
theorem parse_error_drops_connection :
    (handleRead 10 ⟨0, Res.ok []⟩ master0 client
      (EncodeArray [str "SET", str "k", str "v", str "px", str "abc"])).map
        (fun r => (r.out, r.status)) = some ([], Status.error "strconv.Atoi")
    ∧ (handleRead 10 ⟨0, Res.ok []⟩ master0 client
      (EncodeArray [str "WAIT", str "x", str "100"])).map
        (fun r => (r.out, r.status)) = some ([], Status.error "strconv.ParseInt") := by
  decide

/-- The bad argument counts end in an index panic of `processRequest`: GET,
ECHO, TYPE and REPLCONF without argument, SET with one or with three
arguments, XADD with an odd number of field/value arguments. -/
theorem bad_argument_count_panics :
    (processRequest ⟨0, Res.ok []⟩ master0 client ⟨str "get", [], 0⟩).status = Status.panic
    ∧ (processRequest ⟨0, Res.ok []⟩ master0 client ⟨str "echo", [], 0⟩).status = Status.panic
    ∧ (processRequest ⟨0, Res.ok []⟩ master0 client ⟨str "type", [], 0⟩).status = Status.panic
    ∧ (processRequest ⟨0, Res.ok []⟩ master0 client ⟨str "replconf", [], 0⟩).status
      = Status.panic
    ∧ (processRequest ⟨0, Res.ok []⟩ master0 client ⟨str "set", [str "k"], 0⟩).status
      = Status.panic
    ∧ (processRequest ⟨0, Res.ok []⟩ master0 client
        ⟨str "set", [str "k", str "v", str "px"], 0⟩).status = Status.panic
    ∧ (processRequest ⟨0, Res.ok []⟩ master0 client
        ⟨str "xadd", [str "s", str "1-1", str "f"], 0⟩).status = Status.panic := by
  decide

theorem runCommands_stop (env : Env) (rn : RESPNode) (conn : Conn) (c : Command)
    (more : List Command) (msg : String) (hname : c.Name ≠ [])
    (h : processRequest env rn conn c = ⟨rn, [], Status.error msg⟩) :
    runCommands env rn conn (c :: more) = ⟨rn, [], Status.error msg⟩ := by
  rw [runCommands, if_neg hname, h]

theorem processRequest_set4 (env : Env) (rn : RESPNode) (conn : Conn) (a0 a1 a2 a3 : Bytes)
    (rest : List Bytes) :
    processRequest env rn conn ⟨str "set", a0 :: a1 :: a2 :: a3 :: rest, 0⟩
      = if (Atoi a3).2 = false then ⟨rn, [], Status.error "strconv.Atoi"⟩
        else handleSet env.now rn conn a0 a1 (Atoi a3).1 := by
  unfold processRequest
  simp [show str "set" ≠ str "ping" by decide, show str "set" ≠ str "echo" by decide]

theorem processRequest_wait1 (env : Env) (rn : RESPNode) (conn : Conn) (a0 : Bytes)
    (rest : List Bytes) (h : (ParseInt a0).2 = false) :
    processRequest env rn conn ⟨str "wait", a0 :: rest, 0⟩
      = ⟨rn, [], Status.error "strconv.ParseInt"⟩ := by
  have : processRequest env rn conn ⟨str "wait", a0 :: rest, 0⟩
      = if (ParseInt a0).2 = false then ⟨rn, [], Status.error "strconv.ParseInt"⟩
        else match rest with
          | [] => ⟨rn, [], Status.panic⟩
          | a1 :: _ =>
            if (ParseInt a1).2 = false then ⟨rn, [], Status.error "strconv.ParseInt"⟩
            else handleWait rn conn (ParseInt a0).1 (ParseInt a1).1 := by
    rfl
  rw [this, if_pos h]

/-- The error path of SET and WAIT in general: SET whose fourth argument, or
WAIT whose first or second argument, is not a decimal integer writes nothing,
leaves the node as it was and returns the conversion error; the commands
that follow it on the connection are not run. -/
theorem parse_error_ends_loop (env : Env) (rn : RESPNode) (conn : Conn) (a0 a1 a2 a3 : Bytes)
    (rest : List Bytes) (more : List Command) :
    ((Atoi a3).2 = false →
      runCommands env rn conn (⟨str "set", a0 :: a1 :: a2 :: a3 :: rest, 0⟩ :: more)
        = ⟨rn, [], Status.error "strconv.Atoi"⟩)
    ∧ ((ParseInt a0).2 = false →
      runCommands env rn conn (⟨str "wait", a0 :: rest, 0⟩ :: more)
        = ⟨rn, [], Status.error "strconv.ParseInt"⟩)
    ∧ ((ParseInt a0).2 = true → (ParseInt a1).2 = false →
      runCommands env rn conn (⟨str "wait", a0 :: a1 :: rest, 0⟩ :: more)
        = ⟨rn, [], Status.error "strconv.ParseInt"⟩) := by
  refine ⟨?_, ?_, ?_⟩
  · intro h
    apply runCommands_stop _ _ _ _ _ _ (show str "set" ≠ [] by decide)
    rw [processRequest_set4, if_pos h]
  · intro h
    apply runCommands_stop _ _ _ _ _ _ (show str "wait" ≠ [] by decide)
    exact processRequest_wait1 env rn conn a0 rest h
  · intro h0 h1
    apply runCommands_stop _ _ _ _ _ _ (show str "wait" ≠ [] by decide)
    rw [processRequest_wait2, if_neg (by simp [h0]), if_pos h1]

/-- The error path of SET and WAIT at `SET k v px abc`, `WAIT x 100` and
`WAIT 1 y`, each followed by a PING that is not run. -/
theorem parse_error_ends_loop_witness :
    runCommands ⟨0, Res.ok []⟩ master0 client
        [⟨str "set", [str "k", str "v", str "px", str "abc"], 0⟩, ⟨str "ping", [], 0⟩]
      = ⟨master0, [], Status.error "strconv.Atoi"⟩
    ∧ runCommands ⟨0, Res.ok []⟩ master0 client
        [⟨str "wait", [str "x", str "100"], 0⟩, ⟨str "ping", [], 0⟩]
      = ⟨master0, [], Status.error "strconv.ParseInt"⟩
    ∧ runCommands ⟨0, Res.ok []⟩ master0 client
        [⟨str "wait", [str "1", str "y"], 0⟩, ⟨str "ping", [], 0⟩]
      = ⟨master0, [], Status.error "strconv.ParseInt"⟩ :=
  ⟨(parse_error_ends_loop ⟨0, Res.ok []⟩ master0 client (str "k") (str "v") (str "px")
      (str "abc") [] [⟨str "ping", [], 0⟩]).1 (by decide),
   (parse_error_ends_loop ⟨0, Res.ok []⟩ master0 client (str "x") (str "v") (str "px")
      (str "abc") [str "100"] [⟨str "ping", [], 0⟩]).2.1 (by decide),
   (parse_error_ends_loop ⟨0, Res.ok []⟩ master0 client (str "1") (str "y") (str "px")
      (str "abc") [] [⟨str "ping", [], 0⟩]).2.2 (by decide) (by decide)⟩

set_option maxRecDepth 4000 in
/-- C13 as stated fails: the fresh master answers PSYNC with a bulk string
`$53\r\nFULLRESYNC <id> 0\r\n` and the frame `$90\r\n`, 88 bytes, `\r\n`; these are
not the bytes `+FULLRESYNC <id> 0\r\n$88\r\n` and 88 bytes. -/
theorem psync_bytes_differ :
    ((processRequest ⟨0, Res.ok []⟩ master0 client
        ⟨str "psync", [str "?", str "-1"], 0⟩).out.map Prod.snd).flatten
      = str "$53\r\nFULLRESYNC 8371b4fb1155b71f4a04d3e1bc3e18c4a990aeeb 0\r\n$90\r\n"
          ++ emptyRDBData ++ str "\r\n"
    ∧ str "$53\r\nFULLRESYNC 8371b4fb1155b71f4a04d3e1bc3e18c4a990aeeb 0\r\n$90\r\n"
          ++ emptyRDBData ++ str "\r\n"
      ≠ str "+FULLRESYNC 8371b4fb1155b71f4a04d3e1bc3e18c4a990aeeb 0\r\n$88\r\n"
          ++ emptyRDBData := by
  constructor
  · decide
  · intro h
    have := congrArg List.head? h
    exact absurd this (by decide)

/-- C13 (amended): a master with replication id `R` answers PSYNC on a live
connection with the bulk string `$<13+len(R)>\r\nFULLRESYNC R 0\r\n` and then
with `$90\r\n`, the 88 bytes of the empty RDB and a closing `\r\n`. -/
theorem psync_reply (env : Env) (rn : RESPNode) (conn : Conn) (args : List Bytes)
    (hmaster : rn.IsSlave = false) (halive : conn.alive = true) :
    (processRequest env rn conn ⟨str "psync", args, 0⟩).out
      = [(conn, 36 :: Itoa (13 + rn.MasterReplID.length) ++ CRLF
            ++ (str "FULLRESYNC " ++ rn.MasterReplID ++ str " 0") ++ CRLF),
         (conn, str "$90\r\n" ++ emptyRDBData ++ CRLF)] := by
  have h1 : processRequest env rn conn ⟨str "psync", args, 0⟩
      = if rn.IsSlave && rn.handshakeDone then ⟨rn, [], Status.ok⟩ else handlePsync rn conn := by
    rfl
  have hlen : (str "FULLRESYNC " ++ rn.MasterReplID ++ str " 0").length
      = 13 + rn.MasterReplID.length := by
    simp [str]; omega
  have hne : (str "FULLRESYNC " ++ rn.MasterReplID ++ str " 0").length ≠ 0 := by
    rw [hlen]; omega
  have hrdb : EncodeRDBFile emptyRDBData = str "$90\r\n" ++ emptyRDBData ++ CRLF := by decide
  rw [h1]
  simp only [hmaster, Bool.false_and, Bool.false_eq_true, if_false]
  unfold handlePsync
  simp only [sendResponse, halive, if_true, Bool.true_eq_false, if_false, hmaster, Bool.not_false,
    hrdb]
  simp only [EncodeBulkString, hne, if_false, hlen]
  simp

set_option maxRecDepth 4000 in
/-- C13 (amended), at `PSYNC ? -1` on a fresh master. -/
theorem psync_reply_witness :
    master0.IsSlave = false ∧ client.alive = true
    ∧ (processRequest ⟨0, Res.ok []⟩ master0 client ⟨str "psync", [str "?", str "-1"], 0⟩).out
      = [(client, str "$53\r\nFULLRESYNC 8371b4fb1155b71f4a04d3e1bc3e18c4a990aeeb 0\r\n"),
         (client, str "$90\r\n" ++ emptyRDBData ++ CRLF)] :=
  ⟨rfl, rfl, (psync_reply ⟨0, Res.ok []⟩ master0 client [str "?", str "-1"] rfl rfl).trans
    (by decide)⟩

/-! ### The RDB reader -/

theorem padTo_full (k : Nat) (a : Bytes) (h : a.length = k) : padTo k a = a := by
  simp [padTo, h]

theorem Read_zero (r : Reader) : r.Read 0 = ⟨[], 0, true, r⟩ := by
  simp [Reader.Read]

theorem Read_buf (a b rest : Bytes) (ha : a ≠ []) :
    (Reader.mk (a ++ b) rest).Read a.length = ⟨a, a.length, true, ⟨b, rest⟩⟩ := by
  have hk : a.length ≠ 0 := by simpa using ha
  have hb : a ++ b ≠ [] := by simp [ha]
  simp [Reader.Read, hk, hb, padTo_full]

theorem Read_first (a b : Bytes) (ha : a ≠ []) (hk : a.length < 4096)
    (hsize : (a ++ b).length ≤ 4096) :
    (Reader.mk [] (a ++ b)).Read a.length = ⟨a, a.length, true, ⟨b, []⟩⟩ := by
  have hk0 : a.length ≠ 0 := by simpa using ha
  have hb : a ++ b ≠ [] := by simp [ha]
  have hnot : ¬ (a.length ≥ 4096) := by omega
  have htake : (a ++ b).take 4096 = a ++ b := List.take_of_length_le hsize
  have hdrop : (a ++ b).drop 4096 = [] := List.drop_of_length_le hsize
  simp only [Reader.Read, hk0, if_false, hb, hnot, htake, hdrop, if_true]
  simp [padTo_full]

theorem land_small : ∀ n, n < 64 → n &&& 0xC0 = 0 ∧ n &&& 0x3F = n := by
  decide

theorem Length_small (n : Nat) (b rest : Bytes) (hn : n < 64) :
    Length ⟨n :: b, rest⟩ = (some (n, false), ⟨b, rest⟩) := by
  have h := Read_buf [n] b rest (by simp)
  simp only [List.singleton_append, List.length_singleton] at h
  obtain ⟨h1, h2⟩ := land_small n hn
  unfold Length
  simp [h, h1, h2]

theorem ReadRedisString_small (s b rest : Bytes) (hs : s.length < 64) :
    ReadRedisString ⟨s.length :: (s ++ b), rest⟩ = (some s, ⟨b, rest⟩) := by
  unfold ReadRedisString
  rw [Length_small _ _ _ hs]
  simp only [Bool.false_eq_true, if_false]
  by_cases h : s = []
  · subst h
    simp [Read_zero]
  · rw [Read_buf s b rest h]
    simp

theorem or_shift (a b k : Nat) (ha : a < 2 ^ k) : a ||| b <<< k = a + b * 2 ^ k := by
  rw [Nat.lor_comm, Nat.shiftLeft_eq, Nat.mul_comm, ← Nat.mul_add_lt_is_or ha, Nat.add_comm]


theorem Uint64LE_le8 (e : Nat) (he : e < 18446744073709551616) : Uint64LE (le8 e) = some e := by
  have h0 : e % 256 < 2 ^ 8 := by omega
  have h1 : e % 256 + e / 256 % 256 * 2 ^ 8 < 2 ^ 16 := by omega
  have h2 : e % 256 + e / 256 % 256 * 2 ^ 8 + e / 65536 % 256 * 2 ^ 16 < 2 ^ 24 := by omega
  have h3 : e % 256 + e / 256 % 256 * 2 ^ 8 + e / 65536 % 256 * 2 ^ 16
      + e / 16777216 % 256 * 2 ^ 24 < 2 ^ 32 := by omega
  have h4 : e % 256 + e / 256 % 256 * 2 ^ 8 + e / 65536 % 256 * 2 ^ 16
      + e / 16777216 % 256 * 2 ^ 24 + e / 4294967296 % 256 * 2 ^ 32 < 2 ^ 40 := by omega
  have h5 : e % 256 + e / 256 % 256 * 2 ^ 8 + e / 65536 % 256 * 2 ^ 16
      + e / 16777216 % 256 * 2 ^ 24 + e / 4294967296 % 256 * 2 ^ 32
      + e / 1099511627776 % 256 * 2 ^ 40 < 2 ^ 48 := by omega
  have h6 : e % 256 + e / 256 % 256 * 2 ^ 8 + e / 65536 % 256 * 2 ^ 16
      + e / 16777216 % 256 * 2 ^ 24 + e / 4294967296 % 256 * 2 ^ 32
      + e / 1099511627776 % 256 * 2 ^ 40 + e / 281474976710656 % 256 * 2 ^ 48 < 2 ^ 56 := by
    omega
  unfold Uint64LE le8
  simp only [List.length_cons, List.length_nil, show ¬ (0 + 1 + 1 + 1 + 1 + 1 + 1 + 1 + 1 < 8) by decide,
    if_false, List.getD_cons_zero, List.getD_cons_succ]
  rw [or_shift _ _ 8 h0, or_shift _ _ 16 h1, or_shift _ _ 24 h2, or_shift _ _ 32 h3,
    or_shift _ _ 40 h4, or_shift _ _ 48 h5, or_shift _ _ 56 h6]
  congr 1
  omega


theorem Read_take (a b rest : Bytes) (k : Nat) (hlen : a.length = k) (hk : k ≠ 0) :
    (Reader.mk (a ++ b) rest).Read k = ⟨a, k, true, ⟨b, rest⟩⟩ := by
  subst hlen
  exact Read_buf a b rest (by intro h; simp [h] at hk)

theorem Atoi_four_digits (version : Bytes) (hver : version.length = 4)
    (hdig : ∀ c ∈ version, 48 ≤ c ∧ c ≤ 57) : (Atoi version).2 = true := by
  match version, hver with
  | [a, b, c, d], _ =>
    have ha := hdig a (by simp)
    have hb := hdig b (by simp)
    have hc := hdig c (by simp)
    have hd := hdig d (by simp)
    have h45 : a ≠ 45 := by omega
    have h43 : a ≠ 43 := by omega
    have r1 : ¬ (0 * 10 + (a - 48) ≥ 18446744073709551616) := by omega
    have r2 : ¬ ((0 * 10 + (a - 48)) * 10 + (b - 48) ≥ 18446744073709551616) := by omega
    have r3 : ¬ (((0 * 10 + (a - 48)) * 10 + (b - 48)) * 10 + (c - 48)
        ≥ 18446744073709551616) := by omega
    have r4 : ¬ ((((0 * 10 + (a - 48)) * 10 + (b - 48)) * 10 + (c - 48)) * 10 + (d - 48)
        ≥ 18446744073709551616) := by omega
    have r5 : ¬ ((((0 * 10 + (a - 48)) * 10 + (b - 48)) * 10 + (c - 48)) * 10 + (d - 48)
        ≥ 9223372036854775808) := by omega
    simp only [Atoi, List.head?_cons, Option.some.injEq, h45, h43, or_self, if_false,
      reduceCtorEq, parseUintLoop, ha, hb, hc, hd, and_self, if_true, r1, r2, r3, r4, r5,
      decide_False, Bool.false_eq_true]

theorem Read_one (c : Nat) (b rest : Bytes) :
    (Reader.mk (c :: b) rest).Read 1 = ⟨[c], 1, true, ⟨b, rest⟩⟩ :=
  Read_take [c] b rest 1 rfl (by decide)

theorem Read_all (a rest : Bytes) (k : Nat) (hlen : a.length = k) (hk : k ≠ 0) :
    (Reader.mk a rest).Read k = ⟨a, k, true, ⟨[], rest⟩⟩ := by
  have := Read_take a [] rest k hlen hk
  simpa using this

/-- The parsing part of C19: for every 4-digit version, key and value shorter
than 64 bytes, 8 checksum bytes and expiry below 2^63, the file parses to
exactly one record with that key, value, type `string` and expiry. -/
theorem parse_fc_file (now : Int) (version key value checksum : Bytes) (e : Nat)
    (hver : version.length = 4) (hdig : ∀ c ∈ version, 48 ≤ c ∧ c ≤ 57)
    (hk : key.length < 64) (hv : value.length < 64) (hc : checksum.length = 8)
    (he : e < 9223372036854775808) :
    ParseRDBFile now (some (rdbFileFC version e key value checksum))
      = Res.ok [⟨key, ⟨value, str "string", (e : Int)⟩⟩] := by
  have hlen : (rdbFileFC version e key value checksum).length
      = 30 + key.length + value.length := by
    simp [rdbFileFC, le8, str, hver, hc]
    omega
  obtain ⟨f, hf⟩ : ∃ f, (rdbFileFC version e key value checksum).length + 1 = f + 3 :=
    ⟨28 + key.length + value.length, by rw [hlen]; omega⟩
  have hsz : (rdbFileFC version e key value checksum).length ≤ 4096 := by
    rw [hlen]; omega
  unfold ParseRDBFile
  simp only [hf]
  have hmagic := Read_first (str "REDIS") _ (by decide) (by decide) hsz
  rw [show (str "REDIS").length = 5 by decide] at hmagic
  unfold rdbFileFC
  simp only [hmagic, Bool.true_eq_false, if_false, ne_eq, not_true_eq_false]
  rw [Read_take version _ [] 4 hver (by decide)]
  simp only [Atoi_four_digits version hver hdig, Bool.true_eq_false, if_false]
  -- the 0xFC record
  rw [parseRecords]
  have hu := Uint64LE_le8 e (by omega)
  have hw : wrap64 (e : Int) = e := wrap64_of_range _ (by omega) (by omega)
  simp only [List.length_cons, gt_iff_lt, Nat.zero_lt_succ, if_true, Read_one,
    Bool.true_eq_false, if_false, List.getD_cons_zero,
    show ¬ (0xFC = 0xFE) by decide, show ¬ (0xFC = 0xFF) by decide,
    show ¬ (0xFC = 0xFD) by decide, Read_take (le8 e) _ [] 8 rfl (by decide),
    Reader.Discard1, reduceCtorEq, List.drop_succ_cons, List.drop_zero,
    ReadRedisString_small key _ [] hk, ReadRedisString_small value _ [] hv, hu, hw,
    List.nil_append]
  -- the 0xFF record
  rw [parseRecords]
  simp only [List.length_cons, gt_iff_lt, Nat.zero_lt_succ, if_true, Read_one,
    Bool.true_eq_false, if_false, List.getD_cons_zero,
    show ¬ (0xFF = 0xFE) by decide, Read_all checksum [] 8 hc (by decide), ne_eq,
    not_true_eq_false]
  -- the end of the buffer
  rw [parseRecords]
  simp


/-- The restore part of C19: `Restore` stores the record and starts a timer with
the expiry as delay; while that timer has not fired, `GET key` at a clock
before the expiry replies bulk(value); and the timer is not due before the
expiry when the clock at startup is not negative and `e * 10^6` fits an int64. -/
theorem restore_fc_then_get (t0 : Int) (env2 : Env) (rn : RESPNode) (conn : Conn)
    (version key value checksum : Bytes) (e : Nat)
    (hver : version.length = 4) (hdig : ∀ c ∈ version, 48 ≤ c ∧ c ≤ 57)
    (hk : key.length < 64) (hv : value.length < 64) (hc : checksum.length = 8)
    (he : e < 9223372036854775808) (halive : conn.alive = true) (hbefore : env2.now < e) :
    (Restore ⟨t0, ParseRDBFile t0 (some (rdbFileFC version e key value checksum))⟩ rn).2
      = Status.ok
    ∧ (Restore ⟨t0, ParseRDBFile t0 (some (rdbFileFC version e key value checksum))⟩
        rn).1.cache.Load key = some ⟨value, str "string", (e : Int)⟩
    ∧ (Restore ⟨t0, ParseRDBFile t0 (some (rdbFileFC version e key value checksum))⟩
        rn).1.timers = rn.timers ++ [(key, t0, (e : Int))]
    ∧ (processRequest env2
        (Restore ⟨t0, ParseRDBFile t0 (some (rdbFileFC version e key value checksum))⟩ rn).1
        conn ⟨str "get", [key], 0⟩).out = [(conn, EncodeBulkString value)]
    ∧ (0 ≤ t0 → e * 1000000 < 9223372036854775808 →
        timerDue env2.now (key, t0, (e : Int)) = false) := by
  have hp := parse_fc_file t0 version key value checksum e hver hdig hk hv hc he
  have hne : (e : Int) ≠ -1 := by omega
  have hload : (Restore ⟨t0, ParseRDBFile t0 (some (rdbFileFC version e key value checksum))⟩
        rn).1.cache.Load key = some ⟨value, str "string", (e : Int)⟩ := by
    simp [Restore, hp, Store.Load, Store.Put]
  refine ⟨?_, hload, ?_, ?_, ?_⟩
  · simp [Restore, hp]
  · simp [Restore, hp, hne]
  · rw [processRequest_get]
    unfold handleGet getItemFromStore
    rw [hload]
    have hnot : ¬ ((e : Int) < env2.now) := by omega
    simp only [hne, ne_eq, not_false_eq_true, hnot, and_false, if_false]
    split_ifs with h
    · simp [h, respond, sendResponse, halive]
    · simp [respond, sendResponse, halive]
  · intro h0 hsmall
    have hw : wrap64 ((e : Int) * 1000000) = (e : Int) * 1000000 :=
      wrap64_of_range _ (by omega) (by omega)
    simp only [timerDue, hw, decide_eq_false_iff_not, not_le]
    omega

set_option maxRecDepth 8000 in
/-- C19: the file of the scenario with expiry 10^13 ms parses to the one record
claimed, but `Restore` hands the absolute expiry to `removeKeyAfter` as a
delay, `time.Duration(10^13) * time.Millisecond` overflows to a negative
duration, the timer is due at once, and after it has fired `GET hello` at a
clock before the expiry replies the null bulk. -/
theorem restored_far_expiry_deleted_at_once :
    ParseRDBFile 1700000000000 (some farFile)
      = Res.ok [⟨str "hello", ⟨str "world", str "string", 10000000000000⟩⟩]
    ∧ (Restore ⟨1700000000000, ParseRDBFile 1700000000000 (some farFile)⟩ master0).1.timers
      = [(str "hello", 1700000000000, 10000000000000)]
    ∧ timerDue 1700000000000 (str "hello", 1700000000000, 10000000000000) = true
    ∧ (processRequest ⟨1700000000001, Res.ok []⟩
        (removeKeyAfter
          (Restore ⟨1700000000000, ParseRDBFile 1700000000000 (some farFile)⟩ master0).1
          (str "hello"))
        client ⟨str "get", [str "hello"], 0⟩).out = [(client, str "$-1\r\n")]
    ∧ (1700000000001 : Int) < 10000000000000 := by
  decide

/-- C20: on a well-formed file with a 0xFD record `ParseRDBFile` does not return a
record: the 4 expiry bytes are given to `binary.LittleEndian.Uint64`, which
panics on a slice shorter than 8 bytes. -/
theorem fd_record_file_panics : ParseRDBFile 1700000000000 (some fdFile) = Res.panic := by
  decide

theorem Value_one (t : Nat) (b rest : Bytes) :
    Value ⟨t :: b, rest⟩ = (some (valueTypeOf t), ⟨b, rest⟩) := by
  simp [Value, Read_one]

/-- Every 0xFD record whose fields can be read ends the parse in the index panic of `Uint64`. -/
theorem fd_record_panics (now : Int) (fuel : Nat) (e4 key value tail rest : Bytes) (t : Nat)
    (dbNumber : Int) (values : List RDBValue) (he : e4.length = 4) (hk : key.length < 64)
    (hv : value.length < 64) :
    parseRecords now (fuel + 1)
        ⟨0xFD :: (e4 ++ (t :: (key.length :: (key ++ (value.length :: (value ++ tail)))))), rest⟩
        dbNumber values = Res.panic := by
  have hu : Uint64LE e4 = none := by simp [Uint64LE, he]
  rw [parseRecords]
  simp only [List.length_cons, gt_iff_lt, Nat.zero_lt_succ, if_true, Read_one,
    Bool.true_eq_false, if_false, List.getD_cons_zero,
    show ¬ (0xFD = 0xFE) by decide, show ¬ (0xFD = 0xFF) by decide,
    Read_take e4 _ rest 4 he (by decide), Value_one,
    ReadRedisString_small key _ rest hk, ReadRedisString_small value _ rest hv, hu]

/-- The case of C11 that the code gets right: a buffer holding only
`REPLCONF GETACK *` is answered with the total counted before it. -/
theorem getack_alone (fuel : Nat) (env : Env) (rn : RESPNode) (conn : Conn)
    (hslave : rn.IsSlave = true) (halive : conn.alive = true)
    (h0 : 0 ≤ rn.bytesProc.all) (hmax : rn.bytesProc.all + 37 < 9223372036854775808) :
    (handleRead (fuel + 2) env rn conn
        (EncodeArray [str "REPLCONF", str "GETACK", str "*"])).map (fun r => r.out)
      = some [(conn, EncodeArray [str "REPLCONF", str "ACK", Itoa rn.bytesProc.all])] := by
  have hstep := parseLoop_array_step [] []
    (List.replicate (1024 - (EncodeArray [str "REPLCONF", str "GETACK", str "*"]).length) 0)
    [str "REPLCONF", str "GETACK", str "*"]
    (by decide) (by decide) (by decide) (by decide) (by decide) (fuel + 1) rn []
  rw [if_pos hslave] at hstep
  simp only [List.nil_append, List.append_nil, List.length_nil, Nat.zero_add] at hstep
  have hl : (EncodeArray [str "REPLCONF", str "GETACK", str "*"]).length = 37 := by decide
  have hcmd : toCommand [str "REPLCONF", str "GETACK", str "*"]
      = ⟨str "replconf", [str "GETACK", str "*"], 0⟩ := by decide
  have hw1 : wrap64 (rn.bytesProc.all + 37) = rn.bytesProc.all + 37 :=
    wrap64_of_range _ (by omega) (by omega)
  have hw2 : wrap64 (rn.bytesProc.all + 37 - 37) = rn.bytesProc.all := by
    rw [wrap64_of_range _ (by omega) (by omega)]; omega
  have hp : ∀ r : RESPNode,
      processRequest env r conn ⟨str "replconf", [str "GETACK", str "*"], 0⟩
        = handleReplconf r conn (str "GETACK") := fun _ => rfl
  unfold handleRead parseRequest
  rw [hstep, parseLoop]
  simp only [lt_irrefl, if_false, hcmd, Option.map_some']
  rw [runCommands, if_neg (show str "replconf" ≠ [] by decide), hp]
  unfold handleReplconf
  simp only [show ToLower (str "GETACK") ≠ str "ack" by decide,
    show ToLower (str "GETACK") = str "getack" by decide,
    show str "getack" ≠ str "ack" by decide, if_true, if_false, hl,
    Nat.cast_ofNat, hw1, hw2, respond, sendResponse, halive, runCommands, List.append_nil]

/-! ### Length encodings and records of the RDB reader -/

/-- The branch `case 0` of `Length`: one byte is consumed and its low six bits
are the length. -/
theorem Length_six_bits (b : Nat) (tail rest : Bytes) (hb : b &&& 0xC0 = 0) :
    Length ⟨b :: tail, rest⟩ = (some (b &&& 0x3F, false), ⟨tail, rest⟩) := by
  unfold Length
  simp [Read_one, hb]

/-- The branch `case 0x40` of `Length` on a buffer that holds three bytes or
more: the two bytes after the first are consumed and make up the result; the
low six bits of the first byte are not used. -/
theorem Length_two_more_bytes (b c d : Nat) (tail rest : Bytes) (hb : b &&& 0xC0 = 0x40) :
    Length ⟨b :: c :: d :: tail, rest⟩ = (some (c <<< 8 ||| d, false), ⟨tail, rest⟩) := by
  unfold Length
  have h2 := Read_take [c, d] tail rest 2 rfl (by decide)
  simp only [List.cons_append, List.nil_append] at h2
  simp [Read_one, hb, h2]

/-- The shifts and ors of a big-endian read of four bytes add up. -/
theorem be32 (r0 r1 r2 r3 : Nat) (h1 : r1 < 256) (h2 : r2 < 256) (h3 : r3 < 256) :
    r0 <<< 24 ||| r1 <<< 16 ||| r2 <<< 8 ||| r3
      = r0 * 2 ^ 24 + r1 * 2 ^ 16 + r2 * 2 ^ 8 + r3 := by
  have e1 : r2 <<< 8 ||| r3 = r3 + r2 * 2 ^ 8 := by
    rw [Nat.lor_comm]; exact or_shift r3 r2 8 (by omega)
  have e2 : r1 <<< 16 ||| (r3 + r2 * 2 ^ 8) = (r3 + r2 * 2 ^ 8) + r1 * 2 ^ 16 := by
    rw [Nat.lor_comm]; exact or_shift _ r1 16 (by omega)
  have e3 : r0 <<< 24 ||| (r3 + r2 * 2 ^ 8 + r1 * 2 ^ 16)
      = (r3 + r2 * 2 ^ 8 + r1 * 2 ^ 16) + r0 * 2 ^ 24 := by
    rw [Nat.lor_comm]; exact or_shift _ r0 24 (by omega)
  rw [Nat.lor_assoc, Nat.lor_assoc, e1, e2, e3]
  omega

/-- The branch `case 0x80` of `Length`: the four bytes after the first are
consumed and read as a big-endian number. -/
theorem Length_four_bytes (b r0 r1 r2 r3 : Nat) (tail rest : Bytes) (hb : b &&& 0xC0 = 0x80)
    (h1 : r1 < 256) (h2 : r2 < 256) (h3 : r3 < 256) :
    Length ⟨b :: r0 :: r1 :: r2 :: r3 :: tail, rest⟩
      = (some (r0 * 2 ^ 24 + r1 * 2 ^ 16 + r2 * 2 ^ 8 + r3, false), ⟨tail, rest⟩) := by
  unfold Length
  have h4 := Read_take [r0, r1, r2, r3] tail rest 4 rfl (by decide)
  simp only [List.cons_append, List.nil_append] at h4
  simp [Read_one, hb, h4, be32 r0 r1 r2 r3 h1 h2 h3]

/-- The branch `case 0x3E` of `Length`: the four bytes after the first are
consumed, and the lowest byte of the result is `rest[1]`, not `rest[3]`. -/
theorem Length_int32 (b r0 r1 r2 r3 : Nat) (tail rest : Bytes) (hb : b &&& 0xC0 = 0xC0)
    (hl : b &&& 0x3F = 0x3E) (h1 : r1 < 256) (h2 : r2 < 256) :
    Length ⟨b :: r0 :: r1 :: r2 :: r3 :: tail, rest⟩
      = (some (r0 * 2 ^ 24 + r1 * 2 ^ 16 + r2 * 2 ^ 8 + r1, false), ⟨tail, rest⟩) := by
  unfold Length
  have h4 := Read_take [r0, r1, r2, r3] tail rest 4 rfl (by decide)
  simp only [List.cons_append, List.nil_append] at h4
  simp [Read_one, hb, hl, h4, be32 r0 r1 r2 r1 h1 h2 h1]

/-- The 8-bit integer encoding: `ReadRedisString` consumes the two bytes and
returns the decimal text of the second. -/
theorem ReadRedisString_int8 (b v : Nat) (tail rest : Bytes) (hb : b &&& 0xC0 = 0xC0)
    (hl : b &&& 0x3F = 0) :
    ReadRedisString ⟨b :: v :: tail, rest⟩ = (some (natToDec v), ⟨tail, rest⟩) := by
  have hL : Length ⟨b :: v :: tail, rest⟩ = (some (v, true), ⟨tail, rest⟩) := by
    unfold Length
    simp [Read_one, hb, hl]
  unfold ReadRedisString
  rw [hL]
  simp [Itoa_natCast]

/-- The 16-bit encoding (low six bits 0x3F): `Length` flags the number as a
length, so `ReadRedisString` returns that many of the bytes that follow. -/
theorem ReadRedisString_int16 (b r0 r1 : Nat) (s tail rest : Bytes) (hb : b &&& 0xC0 = 0xC0)
    (hl : b &&& 0x3F = 0x3F) (hs : s.length = r0 <<< 8 ||| r1) (hne : s ≠ []) :
    ReadRedisString ⟨b :: r0 :: r1 :: (s ++ tail), rest⟩ = (some s, ⟨tail, rest⟩) := by
  have hL : Length ⟨b :: r0 :: r1 :: (s ++ tail), rest⟩
      = (some (r0 <<< 8 ||| r1, false), ⟨s ++ tail, rest⟩) := by
    unfold Length
    have h2 := Read_take [r0, r1] (s ++ tail) rest 2 rfl (by decide)
    simp only [List.cons_append, List.nil_append] at h2
    simp [Read_one, hb, hl, h2]
  unfold ReadRedisString
  rw [hL]
  simp only [Bool.false_eq_true, if_false]
  rw [← hs, Read_buf s tail rest hne]
  simp

/-- C21: on the bytes 41 02 03 04, `Length` consumes three bytes and returns
0x0203 = 515; the 14-bit reading of the first two bytes, 0x0102 = 258 with
03 04 left in the buffer, is not what the code computes.  With only 41 02 in
the file the missing byte reads as 0 and the result is 512. -/
theorem length_14bit_reads_two_more_bytes :
    Length ⟨[0x41, 0x02, 0x03, 0x04], []⟩ = (some (515, false), ⟨[0x04], []⟩)
    ∧ 0x41 &&& 0xC0 = 0x40
    ∧ (0x41 &&& 0x3F) <<< 8 ||| 0x02 = 258
    ∧ Length ⟨[0x41, 0x02], []⟩ = (some (512, false), ⟨[], []⟩) := by
  decide

/-- C22: the 16-bit encoding FF 00 02 is read as the length of a raw string:
`ReadRedisString` returns the two bytes `ab` that follow, not the text `2`;
the 32-bit encoding FE 00 00 00 02 returns the empty string; the bytes C1 and
C2 are refused as an invalid length encoding. -/
theorem integer_encoding_read_as_byte_count :
    ReadRedisString ⟨[0xFF, 0x00, 0x02, 97, 98, 99], []⟩ = (some (str "ab"), ⟨[99], []⟩)
    ∧ (0xFF &&& 0xC0 = 0xC0 ∧ 0xFF &&& 0x3F = 0x3F)
    ∧ Itoa (0x00 * 256 + 0x02) = str "2"
    ∧ ReadRedisString ⟨[0xFE, 0, 0, 0, 2, 97], []⟩ = (some [], ⟨[97], []⟩)
    ∧ ReadRedisString ⟨[0xC1, 0, 2, 97], []⟩ = (none, ⟨[0, 2, 97], []⟩)
    ∧ ReadRedisString ⟨[0xC2, 0, 0, 0, 2, 97], []⟩ = (none, ⟨[0, 0, 0, 2, 97], []⟩) := by
  decide

set_option maxRecDepth 8000 in
/-- The empty RDB that the master sends holds the integer encoding C2 (in the
`ctime` field), so `ParseRDBFile` refuses it. -/
theorem empty_rdb_does_not_parse :
    ParseRDBFile 0 (some emptyRDBData) = Res.error "error reading value" := by
  decide

/-- C27: on the bytes FE 00 01 00 02, `Length` returns 65537 = 0x00010001: its
lowest byte is the second of the four bytes, where the big-endian value of
00 01 00 02 is 65538. -/
theorem length_int32_low_byte_wrong :
    Length ⟨[0xFE, 0, 1, 0, 2], []⟩ = (some (65537, false), ⟨[], []⟩)
    ∧ (0xFE &&& 0xC0 = 0xC0 ∧ 0xFE &&& 0x3F = 0x3E)
    ∧ 0 * 2 ^ 24 + 1 * 2 ^ 16 + 0 * 2 ^ 8 + 2 = 65538 := by
  decide


/-- `NewItem` with the expiry -1 keeps it: the item never expires. -/
theorem NewItem_no_expiry (now : Int) (value vType : Bytes) :
    NewItem now value vType (-1) = ⟨value, vType, -1⟩ := by
  simp [NewItem]

/-- The branch `case byte(dbNumber)` of the loop of `ParseRDBFile`. -/
theorem parseRecords_selected (now : Int) (fuel h : Nat) (body rest : Bytes)
    (dbNumber : Int) (values : List RDBValue) (key value : Bytes) (r2 r3 : Reader)
    (hop : h < 0xFA) (hdb : (h : Int) = dbNumber % 256)
    (hkey : ReadRedisString ⟨body, rest⟩ = (some key, r2))
    (hval : ReadRedisString r2 = (some value, r3)) :
    parseRecords now (fuel + 1) ⟨h :: body, rest⟩ dbNumber values
      = parseRecords now fuel r3 dbNumber (values ++ [⟨key, ⟨value, str "string", -1⟩⟩]) := by
  have h1 : ¬ (h = 0xFE) := by omega
  have h2 : ¬ (h = 0xFF) := by omega
  have h3 : ¬ (h = 0xFD) := by omega
  have h4 : ¬ (h = 0xFC) := by omega
  have h5 : ¬ (h = 0xFB) := by omega
  have h6 : ¬ (h = 0xFA) := by omega
  have hm : h = (dbNumber % 256).toNat := by omega
  rw [parseRecords]
  simp only [List.length_cons, gt_iff_lt, Nat.zero_lt_succ, if_true, Read_one,
    Bool.true_eq_false, if_false, List.getD_cons_zero, h1, h2, h3, h4, h5, h6]
  rw [if_pos hm]
  simp only [hkey, hval, NewItem_no_expiry]

/-- The branch `default` of the loop of `ParseRDBFile`. -/
theorem parseRecords_other (now : Int) (fuel h : Nat) (body rest : Bytes)
    (dbNumber : Int) (values : List RDBValue)
    (hop : h < 0xFA) (hdb : (h : Int) ≠ dbNumber % 256) :
    parseRecords now (fuel + 1) ⟨h :: body, rest⟩ dbNumber values
      = parseRecords now fuel ⟨body, rest⟩ dbNumber values := by
  have h1 : ¬ (h = 0xFE) := by omega
  have h2 : ¬ (h = 0xFF) := by omega
  have h3 : ¬ (h = 0xFD) := by omega
  have h4 : ¬ (h = 0xFC) := by omega
  have h5 : ¬ (h = 0xFB) := by omega
  have h6 : ¬ (h = 0xFA) := by omega
  have hm : ¬ (h = (dbNumber % 256).toNat) := by omega
  rw [parseRecords]
  simp only [List.length_cons, gt_iff_lt, Nat.zero_lt_succ, if_true, Read_one,
    Bool.true_eq_false, if_false, List.getD_cons_zero, h1, h2, h3, h4, h5, h6]
  rw [if_neg hm]

set_option maxRecDepth 8000 in
/-- C23: in a file without select-db record the bytes 00 01 `k` 01 `v` are
skipped one by one and no record is returned; after select-db 1 the record
00 01 `k` 01 `v` is not read either and the parse ends in an error, where
the record (`k`, `v`, no expiry) is required.  The 0xFC record of the same
key and value is read in database 1. -/
theorem record_without_select_db_skipped :
    ParseRDBFile 0 (some (str "REDIS0011" ++ [0, 1, 107, 1, 118, 0xFF] ++ List.replicate 8 0))
      = Res.ok []
    ∧ ParseRDBFile 0
        (some (str "REDIS0011" ++ [0xFE, 1, 0, 1, 107, 1, 118, 0xFF] ++ List.replicate 8 0))
      = Res.error "error reading value"
    ∧ ParseRDBFile 0
        (some (str "REDIS0011"
          ++ [0xFE, 1, 0xFC, 0x10, 0x27, 0, 0, 0, 0, 0, 0, 0, 1, 107, 1, 118, 0xFF]
          ++ List.replicate 8 0))
      = Res.ok [⟨str "k", ⟨str "v", str "string", 10000⟩⟩] := by
  refine ⟨?_, ?_, ?_⟩ <;> decide

/-- One turn of the loop of `ParseRDBFile` at a byte `h` that is none of the
opcodes 0xFA to 0xFF: it reads a key and a value with `ReadRedisString` and
appends the record (key, value, `string`, expiry -1) when `h` is the low
byte of the database number selected last; for every other `h` it consumes
that byte alone and appends nothing. -/
theorem record_only_for_selected_db (now : Int) (fuel h : Nat) (body rest : Bytes)
    (dbNumber : Int) (values : List RDBValue) (hop : h < 0xFA) :
    ((h : Int) = dbNumber % 256 → ∀ (key value : Bytes) (r2 r3 : Reader),
      ReadRedisString ⟨body, rest⟩ = (some key, r2) → ReadRedisString r2 = (some value, r3) →
      parseRecords now (fuel + 1) ⟨h :: body, rest⟩ dbNumber values
        = parseRecords now fuel r3 dbNumber (values ++ [⟨key, ⟨value, str "string", -1⟩⟩]))
    ∧ ((h : Int) ≠ dbNumber % 256 →
      parseRecords now (fuel + 1) ⟨h :: body, rest⟩ dbNumber values
        = parseRecords now fuel ⟨body, rest⟩ dbNumber values) :=
  ⟨fun hdb key value r2 r3 hkey hval =>
      parseRecords_selected now fuel h body rest dbNumber values key value r2 r3 hop hdb
        hkey hval,
   fun hdb => parseRecords_other now fuel h body rest dbNumber values hop hdb⟩

/-- That turn of the loop at the record 00 01 `k` 01 `v` with database 0
selected and with no database selected (number -1). -/
theorem record_only_for_selected_db_witness :
    parseRecords 0 4 ⟨[0, 1, 107, 1, 118], []⟩ 0 []
        = parseRecords 0 3 ⟨[], []⟩ 0 [⟨str "k", ⟨str "v", str "string", -1⟩⟩]
    ∧ parseRecords 0 4 ⟨[0, 1, 107, 1, 118], []⟩ (-1) []
        = parseRecords 0 3 ⟨[1, 107, 1, 118], []⟩ (-1) [] :=
  ⟨(record_only_for_selected_db 0 3 0 [1, 107, 1, 118] [] 0 [] (by decide)).1 (by decide)
      (str "k") (str "v") ⟨[1, 118], []⟩ ⟨[], []⟩ (by decide) (by decide),
   (record_only_for_selected_db 0 3 0 [1, 107, 1, 118] [] (-1) [] (by decide)).2 (by decide)⟩

/-- A file that selects database `db` and then holds one record that starts
with the byte `db` parses to that record, without expiry. -/
theorem parse_selected_db_file (now : Int) (version key value checksum : Bytes) (db : Nat)
    (hver : version.length = 4) (hdig : ∀ c ∈ version, 48 ≤ c ∧ c ≤ 57) (hdb : db < 64)
    (hk : key.length < 64) (hv : value.length < 64) (hc : checksum.length = 8) :
    ParseRDBFile now (some (rdbFileDB version db db key value checksum))
      = Res.ok [⟨key, ⟨value, str "string", -1⟩⟩] := by
  have hlen : (rdbFileDB version db db key value checksum).length
      = 23 + key.length + value.length := by
    simp [rdbFileDB, str, hver, hc]
    omega
  obtain ⟨f, hf⟩ : ∃ f, (rdbFileDB version db db key value checksum).length + 1 = f + 4 :=
    ⟨20 + key.length + value.length, by rw [hlen]; omega⟩
  have hsz : (rdbFileDB version db db key value checksum).length ≤ 4096 := by
    rw [hlen]; omega
  unfold ParseRDBFile
  simp only [hf]
  have hmagic := Read_first (str "REDIS") _ (by decide) (by decide) hsz
  rw [show (str "REDIS").length = 5 by decide] at hmagic
  unfold rdbFileDB
  simp only [hmagic, Bool.true_eq_false, if_false, ne_eq, not_true_eq_false]
  rw [Read_take version _ [] 4 hver (by decide)]
  simp only [Atoi_four_digits version hver hdig, Bool.true_eq_false, if_false]
  -- the select-db record
  rw [parseRecords]
  simp only [List.length_cons, gt_iff_lt, Nat.zero_lt_succ, if_true, Read_one,
    Bool.true_eq_false, if_false, List.getD_cons_zero, Length_small db _ [] hdb]
  -- the record
  have hstep := parseRecords_selected now (f + 2) db
    (key.length :: (key ++ (value.length :: (value ++ (0xFF :: checksum))))) [] (db : Int) []
    key value _ _ (by omega) (by omega) (ReadRedisString_small key _ [] hk)
    (ReadRedisString_small value _ [] hv)
  rw [hstep]
  -- the end of the file
  rw [parseRecords]
  simp only [List.length_cons, gt_iff_lt, Nat.zero_lt_succ, if_true, Read_one,
    Bool.true_eq_false, if_false, List.getD_cons_zero,
    show ¬ (0xFF = 0xFE) by decide, Read_all checksum [] 8 hc (by decide), ne_eq,
    not_true_eq_false]
  rw [parseRecords]
  simp


/-! ### Bulk decoding, expired items, and the loop of parseRequest -/


/-- The digit loop does not return a value on a text that holds a byte other
than a decimal digit. -/
theorem parseUintLoop_nondigit (body : Bytes) :
    (∃ c ∈ body, ¬ (48 ≤ c ∧ c ≤ 57)) → ∀ n m, parseUintLoop body n ≠ NumRes.ok m := by
  induction body with
  | nil => intro h; simp at h
  | cons c cs ih =>
    intro h n m
    unfold parseUintLoop
    by_cases hc : 48 ≤ c ∧ c ≤ 57
    · rw [if_pos hc]
      split_ifs
      · simp
      · apply ih
        obtain ⟨d, hd, hnd⟩ := h
        rcases List.mem_cons.mp hd with rfl | hd
        · exact absurd hc hnd
        · exact ⟨d, hd, hnd⟩
    · rw [if_neg hc]
      simp

/-- `strconv.Atoi` returns an error on every text that is not an optional
sign followed by decimal digits. -/
theorem Atoi_not_integer (s : Bytes) (h : isIntegerText s = false) : (Atoi s).2 = false := by
  unfold isIntegerText at h
  unfold Atoi
  simp only at h ⊢
  generalize (if s.head? = some 45 ∨ s.head? = some 43 then s.tail else s) = body at h ⊢
  by_cases hb : body = []
  · simp [hb]
  · rw [if_neg hb]
    have hall : ∃ c ∈ body, ¬ (48 ≤ c ∧ c ≤ 57) := by
      simp only [hb, ne_eq, not_false_eq_true, decide_True, Bool.true_and,
        Bool.eq_false_iff, List.all_eq_true, decide_eq_true_eq, not_forall] at h
      obtain ⟨c, hc, hnc⟩ := h
      exact ⟨c, hc, hnc⟩
    have hno := parseUintLoop_nondigit body hall 0
    cases hp : parseUintLoop body 0 with
    | ok m => exact absurd hp (hno m)
    | invalid => rfl
    | range => simp only; split_ifs <;> rfl

/-- The digit loop leaves the 64-bit range on the decimal text of a number
from 2^64 on. -/
theorem natToDecAux_parse_big (f n : Nat) (h : n < f) (hn64 : 18446744073709551616 ≤ n) :
    parseUintLoop (natToDecAux f n) 0 = NumRes.range := by
  induction f generalizing n with
  | zero => omega
  | succ f ih =>
    unfold natToDecAux
    have hn : ¬ (n < 10) := by omega
    rw [if_neg hn, parseUintLoop_append]
    have h3 : 48 ≤ 48 + n % 10 ∧ 48 + n % 10 ≤ 57 := by omega
    by_cases hq : n / 10 < 18446744073709551616
    · rw [natToDecAux_parse f (n / 10) (by omega) hq]
      have h4 : n / 10 * 10 + (48 + n % 10 - 48) ≥ 18446744073709551616 := by omega
      simp only [parseUintLoop, h3, and_self, if_true, h4]
    · rw [ih (n / 10) (by omega) (by omega)]

/-- The decimal text of a number from 2^63 on is refused by `strconv.Atoi`. -/
theorem Atoi_natToDec_big (n : Nat) (h : 9223372036854775808 ≤ n) :
    (Atoi (natToDec n)).2 = false := by
  have hhead : ∀ c, (natToDec n).head? = some c → 48 ≤ c ∧ c ≤ 57 := by
    intro c hc
    exact natToDec_digits n c (List.mem_of_mem_head? hc)
  have h45 : (natToDec n).head? ≠ some 45 := fun hc => by have := hhead 45 hc; omega
  have h43 : (natToDec n).head? ≠ some 43 := fun hc => by have := hhead 43 hc; omega
  unfold Atoi
  simp only [h45, h43, or_self, if_false, natToDec_ne_nil, decide_False]
  by_cases hn : n < 18446744073709551616
  · have hp : parseUintLoop (natToDec n) 0 = NumRes.ok n :=
      natToDecAux_parse _ _ (Nat.lt_succ_self n) hn
    simp [hp, h]
  · have hp : parseUintLoop (natToDec n) 0 = NumRes.range :=
      natToDecAux_parse_big _ _ (Nat.lt_succ_self n) (by omega)
    simp [hp]

/-- C24: with the header `$<n>` (`n` in decimal) and a body `c` (the length of
a Go slice is below 2^63), `DecodeBulkString` returns `c` when `len(c) = n`
and an error when `len(c) != n`; when the text after `$` is not an optional
sign and decimal digits it returns the conversion error. -/
theorem decode_bulk_length_check (n : Nat) (c digits : Bytes) (more : List Bytes)
    (hc : c.length < 9223372036854775808) :
    (c.length = n → DecodeBulkString ((36 :: natToDec n) :: c :: more) = Res.ok c)
    ∧ (c.length ≠ n →
        ∃ msg, DecodeBulkString ((36 :: natToDec n) :: c :: more) = Res.error msg)
    ∧ (isIntegerText digits = false →
        DecodeBulkString ((36 :: digits) :: c :: more)
          = Res.error "wrong request. error converting to int in func decodeBulkString") := by
  refine ⟨?_, ?_, ?_⟩
  · intro h
    unfold DecodeBulkString
    simp only [Atoi_natToDec n (by omega), Bool.true_eq_false, if_false]
    rw [if_neg (by simp [h])]
  · intro h
    unfold DecodeBulkString
    by_cases hn : n < 9223372036854775808
    · simp only [Atoi_natToDec n hn, Bool.true_eq_false, if_false]
      rw [if_pos (by simpa using h)]
      exact ⟨_, rfl⟩
    · simp only [Atoi_natToDec_big n (by omega), if_true]
      exact ⟨_, rfl⟩
  · intro h
    unfold DecodeBulkString
    simp only [Atoi_not_integer digits h, if_true]

/-- C24, at the body `bar` with the headers `$3`, `$4` and `$x`. -/
theorem decode_bulk_length_check_witness :
    DecodeBulkString [str "$3", str "bar"] = Res.ok (str "bar")
    ∧ (∃ msg, DecodeBulkString [str "$4", str "bar"] = Res.error msg)
    ∧ DecodeBulkString [str "$x", str "bar"]
      = Res.error "wrong request. error converting to int in func decodeBulkString" :=
  ⟨(decode_bulk_length_check 3 (str "bar") (str "x") [] (by decide)).1 (by decide),
   (decode_bulk_length_check 4 (str "bar") (str "x") [] (by decide)).2.1 (by decide),
   (decode_bulk_length_check 3 (str "bar") (str "x") [] (by decide)).2.2 (by decide)⟩

theorem processRequest_type (env : Env) (rn : RESPNode) (conn : Conn) (key : Bytes) :
    processRequest env rn conn ⟨str "type", [key], 0⟩ = handleType env.now rn conn key := by
  rfl

/-- C25: on a connection that accepts writes, for every node, key and clock:
when the stored item has expiry other than -1 and below the clock, GET
replies the null bulk and TYPE replies `+none` or `+stream`, never `+string`;
when the stored item has expiry -1 or not below the clock, GET replies the
bulk encoding of its value; when nothing is stored, GET replies the null bulk. -/
theorem expired_item_not_observable (env : Env) (rn : RESPNode) (conn : Conn) (key : Bytes)
    (halive : conn.alive = true) :
    (∀ item, rn.cache.Load key = some item → item.Expiry ≠ -1 → item.Expiry < env.now →
      (processRequest env rn conn ⟨str "get", [key], 0⟩).out = [(conn, str "$-1\r\n")]
      ∧ ((processRequest env rn conn ⟨str "type", [key], 0⟩).out = [(conn, str "+none\r\n")]
        ∨ (processRequest env rn conn ⟨str "type", [key], 0⟩).out
          = [(conn, str "+stream\r\n")])
      ∧ (processRequest env rn conn ⟨str "type", [key], 0⟩).out ≠ [(conn, str "+string\r\n")])
    ∧ (∀ item, rn.cache.Load key = some item → (item.Expiry = -1 ∨ item.Expiry ≥ env.now) →
      (processRequest env rn conn ⟨str "get", [key], 0⟩).out
        = [(conn, EncodeBulkString item.Value)])
    ∧ (rn.cache.Load key = none →
      (processRequest env rn conn ⟨str "get", [key], 0⟩).out = [(conn, str "$-1\r\n")]) := by
  have hnull : EncodeBulkString [] = str "$-1\r\n" := by decide
  have hnone : EncodeSimpleString (str "none") = str "+none\r\n" := by decide
  have hstream : EncodeSimpleString (str "stream") = str "+stream\r\n" := by decide
  rw [processRequest_get, processRequest_type]
  refine ⟨?_, ?_, ?_⟩
  · intro item hload hne hlt
    have hz : getItemFromStore env.now rn key = Item.zero := by
      simp [getItemFromStore, hload, hne, hlt]
    have htype : (handleType env.now rn conn key).out = [(conn, str "+none\r\n")]
        ∨ (handleType env.now rn conn key).out = [(conn, str "+stream\r\n")] := by
      unfold handleType
      simp only [hz, Item.zero, if_true]
      cases rn.streamCache.Load key with
      | none => left; simp [respond, sendResponse, halive, hnone]
      | some _ => right; simp [respond, sendResponse, halive, hstream]
    refine ⟨?_, htype, ?_⟩
    · unfold handleGet
      simp [hz, Item.zero, respond, sendResponse, halive, hnull]
    · rcases htype with h | h
      · rw [h]
        intro hh
        simp only [List.cons.injEq, Prod.mk.injEq, true_and, and_true] at hh
        exact absurd hh (by decide)
      · rw [h]
        intro hh
        simp only [List.cons.injEq, Prod.mk.injEq, true_and, and_true] at hh
        exact absurd hh (by decide)
  · intro item hload hexp
    have hz : getItemFromStore env.now rn key = item := by
      unfold getItemFromStore
      rw [hload]
      simp only
      rw [if_neg]
      rintro ⟨h1, h2⟩
      rcases hexp with h | h
      · exact h1 h
      · omega
    unfold handleGet
    simp only [hz]
    split_ifs with h
    · simp [h, respond, sendResponse, halive]
    · simp [respond, sendResponse, halive]
  · intro hload
    have hz : getItemFromStore env.now rn key = Item.zero := by
      simp [getItemFromStore, hload]
    unfold handleGet
    simp [hz, Item.zero, respond, sendResponse, halive, hnull]

set_option maxRecDepth 4000 in
/-- C25, on the node after `SET k v PX 100` at clock 1000: GET and TYPE at
clock 1101, GET at clock 1100, and GET of a key that was never set. -/
theorem expired_item_not_observable_witness :
    (processRequest ⟨1101, Res.ok []⟩ masterWithTTL client ⟨str "get", [str "k"], 0⟩).out
      = [(client, str "$-1\r\n")]
    ∧ (processRequest ⟨1101, Res.ok []⟩ masterWithTTL client ⟨str "type", [str "k"], 0⟩).out
      ≠ [(client, str "+string\r\n")]
    ∧ (processRequest ⟨1100, Res.ok []⟩ masterWithTTL client ⟨str "get", [str "k"], 0⟩).out
      = [(client, EncodeBulkString (str "v"))]
    ∧ (processRequest ⟨1101, Res.ok []⟩ masterWithTTL client ⟨str "get", [str "j"], 0⟩).out
      = [(client, str "$-1\r\n")] :=
  ⟨((expired_item_not_observable ⟨1101, Res.ok []⟩ masterWithTTL client (str "k") rfl).1
      ⟨str "v", str "string", 1100⟩ (by decide) (by decide) (by decide)).1,
   ((expired_item_not_observable ⟨1101, Res.ok []⟩ masterWithTTL client (str "k") rfl).1
      ⟨str "v", str "string", 1100⟩ (by decide) (by decide) (by decide)).2.2,
   (expired_item_not_observable ⟨1100, Res.ok []⟩ masterWithTTL client (str "k") rfl).2.1
      ⟨str "v", str "string", 1100⟩ (by decide) (by decide),
   (expired_item_not_observable ⟨1101, Res.ok []⟩ masterWithTTL client (str "j") rfl).2.2
      (by decide)⟩

/-- A turn of the loop of `parseRequest` at a `*` or `$` header whose count
does not parse leaves the node, the offset and the commands as they were. -/
theorem parseLoop_bad_count (query spare : Bytes) (fuel : Nat) (rn : RESPNode) (offset : Nat)
    (commands : List Command) (hoff : offset < query.length)
    (hfirst : query.getD offset 0 = 42 ∨ query.getD offset 0 = 36)
    (hcount : (Atoi ((SplitN (query.drop offset) CRLF 2).headD []).tail).2 = false) :
    parseLoop query spare (fuel + 1) rn offset commands
      = parseLoop query spare fuel rn offset commands := by
  rw [parseLoop]
  rcases hfirst with h | h
  · simp only [hoff, if_true, h, hcount]
  · simp only [hoff, if_true, h, hcount, show ¬ ((36 : Nat) = 42) by decide, if_false]

/-- The loop of `parseRequest` at such a header never ends: every number of
turns allowed is used up. -/
theorem parseLoop_stuck (query spare : Bytes) (rn : RESPNode) (offset : Nat)
    (commands : List Command) (hoff : offset < query.length)
    (hfirst : query.getD offset 0 = 42 ∨ query.getD offset 0 = 36)
    (hcount : (Atoi ((SplitN (query.drop offset) CRLF 2).headD []).tail).2 = false)
    (fuel : Nat) :
    parseLoop query spare fuel rn offset commands = none := by
  induction fuel with
  | zero => rfl
  | succ f ih => rw [parseLoop_bad_count query spare f rn offset commands hoff hfirst hcount, ih]

/-- C26: on the buffers `*x\r\n` and `$x\r\n`, and on a PING followed by
`*x\r\n`, `parseRequest` returns nothing however many turns of its loop are
allowed: the header whose count does not parse takes `continue` with the
offset unchanged. -/
theorem parseRequest_never_returns (fuel : Nat) (rn : RESPNode) (spare : Bytes) :
    parseRequest fuel rn (str "*x\r\n") spare = none
    ∧ parseRequest fuel rn (str "$x\r\n") spare = none
    ∧ parseRequest fuel rn (str "*1\r\n$4\r\nPING\r\n*x\r\n") spare = none := by
  refine ⟨?_, ?_, ?_⟩
  · exact parseLoop_stuck _ spare rn 0 [] (by decide) (by decide) (by decide) fuel
  · exact parseLoop_stuck _ spare rn 0 [] (by decide) (by decide) (by decide) fuel
  · cases fuel with
    | zero => rfl
    | succ f =>
      have hstep := parseLoop_array_step [] (str "*x\r\n") spare [str "PING"]
        (by decide) (by decide) (by decide) (by decide) (by decide) f rn []
      have henc : EncodeArray [str "PING"] ++ str "*x\r\n" = str "*1\r\n$4\r\nPING\r\n*x\r\n" := by
        decide
      simp only [List.nil_append, List.length_nil, Nat.zero_add, henc] at hstep
      unfold parseRequest
      rw [hstep]
      exact parseLoop_stuck _ spare _ _ _ (by decide) (by decide) (by decide) f

end GoRedis
